import Mathlib

/-!
# OSC 8671 (seamless pane navigation) of ttx: the message codec and the input thread

A shallow embedding of `lib/src/terminal/escapes/osc_8671.cpp` together with the types of
`navigation_direction.h` and `osc_8671.h`, and theorems about `OSC8671::parse` and
`OSC8671::serialize`; and a shallow embedding of the pending-event queue of `src/input.cpp`
(`process_pending_events`, `notify_osc_8671`, `request_navigate` and the OSC 8671 handler),
with theorems about the dispatch of pending events.

Conventions of the embedding:
* strings (`di::StringView`, `di::String`) are lists of code points, `List Char`;
* `u32` values are natural numbers, with the bound `2 ^ 32` stated where it matters;
* `di::Optional` is `Option`; a failed parse is `none`;
* the primitives of the library `di` that the codec calls (`split`, `find`, `size_bytes`,
  `parse<u32>`, `present`) are not part of the sources and are modelled in the section
  on library primitives.
-/

namespace ttx.terminal

/-! ## Data model -/

/-- Enum `NavigateDirection` of `navigation_direction.h`. -/
inductive NavigateDirection where
  | Left
  | Right
  | Up
  | Down
deriving DecidableEq, Repr

/-- Enum `NavigateWrapMode` of `navigation_direction.h`. -/
inductive NavigateWrapMode where
  | Allow
  | Disallow
deriving DecidableEq, Repr

/-- Enum `SeamlessNavigationRequestType` of `osc_8671.h`. -/
inductive SeamlessNavigationRequestType where
  | Supported
  | Register
  | Unregister
  | Navigate
  | Acknowledge
  | Enter
deriving DecidableEq, Repr

/-- Struct `OSC8671` of `osc_8671.h`, with the default member initialisers of the header. -/
structure OSC8671 where
  type : SeamlessNavigationRequestType := SeamlessNavigationRequestType.Supported
  direction : Option NavigateDirection := none
  id : Option (List Char) := none
  range : Option (Nat × Nat) := none
  wrap_mode : NavigateWrapMode := NavigateWrapMode.Disallow
  hide_cursor_on_enter : Bool := false
deriving DecidableEq, Repr

/-- The constant `OSC8671::max_id_byte_size`. -/
def max_id_byte_size : Nat := 36

/-- The table `type_map` of `osc_8671.cpp`. -/
def type_map : List (List Char × SeamlessNavigationRequestType) :=
  [ ("supported".toList, SeamlessNavigationRequestType.Supported),
    ("register".toList, SeamlessNavigationRequestType.Register),
    ("unregister".toList, SeamlessNavigationRequestType.Unregister),
    ("navigate".toList, SeamlessNavigationRequestType.Navigate),
    ("acknowledge".toList, SeamlessNavigationRequestType.Acknowledge),
    ("enter".toList, SeamlessNavigationRequestType.Enter) ]

/-- The table `direction_map` of `osc_8671.cpp`. -/
def direction_map : List (List Char × NavigateDirection) :=
  [ ("left".toList, NavigateDirection.Left),
    ("right".toList, NavigateDirection.Right),
    ("down".toList, NavigateDirection.Down),
    ("up".toList, NavigateDirection.Up) ]

/-! ## Library primitives used by the codec -/

/-- Pieces of a string between occurrences of the separator `c`; the empty string has the
single piece `[]`. Helper of `split`. -/
def split_pieces (c : Char) : List Char → List (List Char)
  | [] => [[]]
  | x :: xs =>
    if x = c then [] :: split_pieces c xs
    else
      match split_pieces c xs with
      | [] => [[x]]
      | p :: ps => (x :: p) :: ps

/-- Modelled from the spec: the view `di::split(c)` collected into a vector (library `di`, not
under src/). As for `std::views::split`, an empty string has no parts at all, and otherwise the
parts are the pieces between separators, empty pieces (also a trailing one) included. -/
def split (c : Char) (s : List Char) : List (List Char) :=
  if s = [] then [] else split_pieces c s

/-- Modelled from the spec: `part.find(c)` followed by the two `substr` calls of `parse`
(library `di`, not under src/): the text before and the text after the first `c`,
or nothing when `c` does not occur. -/
def find_split (c : Char) : List Char → Option (List Char × List Char)
  | [] => none
  | x :: xs =>
    if x = c then some ([], xs)
    else
      match find_split c xs with
      | none => none
      | some (k, v) => some (x :: k, v)

/-- Modelled from the spec: `size_bytes()` of a UTF-8 string view (library `di`, not under
src/): the number of bytes of the UTF-8 encoding. -/
def size_bytes (s : List Char) : Nat :=
  (s.map Char.utf8Size).sum

/-- Value of an ASCII decimal digit, nothing for any other code point. -/
def digit_value (c : Char) : Option Nat :=
  if 48 ≤ c.toNat ∧ c.toNat ≤ 57 then some (c.toNat - 48) else none

/-- Value of a string of decimal digits read after the digits valued `acc`; nothing when a code
point is not a decimal digit. -/
def digits_value : Nat → List Char → Option Nat
  | acc, [] => some acc
  | acc, c :: cs =>
    match digit_value c with
    | none => none
    | some d => digits_value (acc * 10 + d) cs

/-- Modelled from the spec: `di::parse<u32>` (library `di`, not under src/): an unsigned decimal
number that fits in `u32`, that is one or more ASCII decimal digits whose value is at most
`2 ^ 32 - 1`; a sign, any other code point or the empty string has no value. -/
def parse_u32 (s : List Char) : Option Nat :=
  if s = [] then none
  else
    match digits_value 0 s with
    | none => none
    | some n => if n < 2 ^ 32 then some n else none

/-- The ASCII decimal digit of a value below ten. -/
def digit_char (d : Nat) : Char :=
  Char.ofNat (48 + d)

/-- Decimal digits of `n` pushed in front of `acc`, at most `fuel` of them. -/
def present_digits : Nat → Nat → List Char → List Char
  | 0, _, acc => acc
  | fuel + 1, n, acc =>
    if n / 10 = 0 then digit_char (n % 10) :: acc
    else present_digits fuel (n / 10) (digit_char (n % 10) :: acc)

/-- Modelled from the spec: what `di::present` writes for a `u32` with the plain `{}` format
(library `di`, not under src/): the decimal digits, without sign, padding or leading zeros. -/
def present_u32 (n : Nat) : List Char :=
  present_digits (n + 1) n []

/-! ## `OSC8671::parse` -/

/-- The five local optionals that the field loop of `OSC8671::parse` fills in. -/
structure ParsedFields where
  type : Option SeamlessNavigationRequestType := none
  id : Option (List Char) := none
  wrap_mode : Option NavigateWrapMode := none
  range : Option (Nat × Nat) := none
  hide_cursor_on_enter : Option Bool := none
deriving DecidableEq, Repr

/-- The `r` branch of the field loop (lines 76-91): the new value of `range`, or failure. -/
def parse_range (value_string : List Char) : Option (Nat × Nat) :=
  match split ',' value_string with
  | [v0, v1] =>
    match parse_u32 v0, parse_u32 v1 with
    | some s, some e =>
      if s < 1 ∨ e < 1 then none
      else if e < s then none
      else some (s, e)
    | _, _ => none
  | _ => none

/-- One iteration of the field loop of `OSC8671::parse` (lines 40-94). -/
def parse_field (st : ParsedFields) (part : List Char) : Option ParsedFields :=
  match find_split '=' part with
  | none => none
  | some (key, value_string) =>
    if key = "w".toList then
      if value_string = "true".toList then
        some { st with wrap_mode := some NavigateWrapMode.Allow }
      else if value_string = "false".toList then
        some { st with wrap_mode := some NavigateWrapMode.Disallow }
      else none
    else if key = "h".toList then
      if value_string = "true".toList then
        some { st with hide_cursor_on_enter := some true }
      else if value_string = "false".toList then
        some { st with hide_cursor_on_enter := some false }
      else none
    else if key = "t".toList then
      match type_map.find? (fun x => x.1 = value_string) with
      | none => none
      | some x => some { st with type := some x.2 }
    else if key = "id".toList then
      if size_bytes value_string > max_id_byte_size then none
      else some { st with id := some value_string }
    else if key = "r".toList then
      match parse_range value_string with
      | none => none
      | some r => some { st with range := some r }
    else none

/-- The field loop of `OSC8671::parse` (lines 39-95) over the parts of the first segment. -/
def parse_fields : ParsedFields → List (List Char) → Option ParsedFields
  | st, [] => some st
  | st, part :: parts =>
    match parse_field st part with
    | none => none
    | some st' => parse_fields st' parts

/-- Lines 97-110 of `OSC8671::parse`: the type, which is required, checked against the fields the
loop collected; failure when `t` is missing or a collected field is not allowed for the type. -/
def check_fields (st : ParsedFields) : Option SeamlessNavigationRequestType :=
  match st.type with
  | none => none
  | some type =>
    if type ≠ SeamlessNavigationRequestType.Enter ∧ type ≠ SeamlessNavigationRequestType.Navigate ∧
        st.range.isSome then none
    else if type ≠ SeamlessNavigationRequestType.Register ∧ st.hide_cursor_on_enter.isSome then none
    else if type ≠ SeamlessNavigationRequestType.Navigate ∧
        type ≠ SeamlessNavigationRequestType.Acknowledge ∧ st.wrap_mode.isSome then none
    else some type

/-- Lines 112-128 of `OSC8671::parse`: the local `direction` computed from the type and the
segments after the first one (`parts[1]` onwards), or failure. -/
def parse_direction (type : SeamlessNavigationRequestType) (rest : List (List Char)) :
    Option (Option NavigateDirection) :=
  if type = SeamlessNavigationRequestType.Navigate ∨
      type = SeamlessNavigationRequestType.Acknowledge ∨
      type = SeamlessNavigationRequestType.Enter then
    match rest with
    | [] => none
    | seg1 :: _ =>
      match direction_map.find? (fun x => x.1 = seg1) with
      | none => none
      | some x => some (some x.2)
  else if rest.length > 0 then none
  else some none

/-- Lines 97-137 of `OSC8671::parse`: the checks after the field loop and the construction of
the result, with the defaults for `wrap_mode` and `hide_cursor_on_enter`. -/
def parse_finish (st : ParsedFields) (rest : List (List Char)) : Option OSC8671 :=
  match check_fields st with
  | none => none
  | some type =>
    match parse_direction type rest with
    | none => none
    | some direction =>
      some { type := type, direction := direction, id := st.id, range := st.range,
             wrap_mode := st.wrap_mode.getD NavigateWrapMode.Disallow,
             hide_cursor_on_enter := st.hide_cursor_on_enter.getD false }

/-- The function `OSC8671::parse` of `osc_8671.cpp`. A non-empty string always has a first
segment, so the case of no parts is never taken. -/
def OSC8671.parse (data : List Char) : Option OSC8671 :=
  if data = [] then none
  else
    match split ';' data with
    | [] => none
    | seg0 :: rest =>
      if (seg0 :: rest).length > 2 then none
      else
        match parse_fields {} (split ':' seg0) with
        | none => none
        | some st => parse_finish st rest

/-! ## `OSC8671::serialize` -/

/-- The name of a type: the lookup of lines 142-144 in `type_map` by the second component. -/
def type_string (t : SeamlessNavigationRequestType) : List Char :=
  match type_map.find? (fun x => x.2 = t) with
  | some x => x.1
  | none => []

/-- The name of a direction: the lookup of lines 161-163 in `direction_map`. -/
def direction_string (d : NavigateDirection) : List Char :=
  match direction_map.find? (fun x => x.2 = d) with
  | some x => x.1
  | none => []

/-- The function `OSC8671::serialize` of `osc_8671.cpp`. -/
def OSC8671.serialize (m : OSC8671) : List Char :=
  let result := "\x1b]8671;t=".toList
  let result := result ++ type_string m.type
  let result := if m.wrap_mode = NavigateWrapMode.Allow then result ++ ":w=true".toList else result
  let result := if m.hide_cursor_on_enter then result ++ ":h=true".toList else result
  let result :=
    match m.id with
    | some id => result ++ ":id=".toList ++ id
    | none => result
  let result :=
    match m.range with
    | some r => result ++ (":r=".toList ++ present_u32 r.1 ++ ",".toList ++ present_u32 r.2)
    | none => result
  let result :=
    match m.direction with
    | some d => (result ++ [ ';']) ++ direction_string d
    | none => result
  result ++ "\x1b\\".toList

/-! ## Vocabulary of the statements -/

/-- Whether a code point is an ASCII decimal digit. -/
def is_digit (c : Char) : Prop := 48 ≤ c.toNat ∧ c.toNat ≤ 57

instance (c : Char) : Decidable (is_digit c) := by
  unfold is_digit
  infer_instance

/-- Strings joined with the separator `c` between them. -/
def join_with (c : Char) : List (List Char) → List Char
  | [] => []
  | [f] => f
  | f :: g :: fs => f ++ c :: join_with c (g :: fs)

/-- The opening framing `ESC ] 8671 ;` that `serialize` writes. -/
def osc_open : List Char := "\x1b]8671;".toList

/-- The string terminator `ESC \` that `serialize` writes. -/
def osc_close : List Char := "\x1b\\".toList

/-- A serialized message with its framing removed: without the seven code points of
`ESC ] 8671 ;` in front and the two of `ESC \` at the end. -/
def strip_framing (s : List Char) : List Char :=
  ((s.drop 7).reverse.drop 2).reverse

/-- The field-validity matrix of the data model, for a message. -/
def matrix_ok (m : OSC8671) : Prop :=
  (m.direction.isSome ↔
    (m.type = SeamlessNavigationRequestType.Navigate ∨
      m.type = SeamlessNavigationRequestType.Acknowledge ∨
      m.type = SeamlessNavigationRequestType.Enter)) ∧
  (m.range.isSome →
    (m.type = SeamlessNavigationRequestType.Navigate ∨
      m.type = SeamlessNavigationRequestType.Enter)) ∧
  (m.wrap_mode = NavigateWrapMode.Allow →
    (m.type = SeamlessNavigationRequestType.Navigate ∨
      m.type = SeamlessNavigationRequestType.Acknowledge)) ∧
  (m.hide_cursor_on_enter = true → m.type = SeamlessNavigationRequestType.Register)

/-- The fields that `serialize` writes into the first segment, in its order. -/
def fields_of (m : OSC8671) : List (List Char) :=
  (['t', '='] ++ type_string m.type) ::
    ((if m.wrap_mode = NavigateWrapMode.Allow then [[ 'w', '=', 't', 'r', 'u', 'e']] else []) ++
     (if m.hide_cursor_on_enter then [[ 'h', '=', 't', 'r', 'u', 'e']] else []) ++
     (match m.id with
      | some id => [[ 'i', 'd', '='] ++ id]
      | none => []) ++
     (match m.range with
      | some r => [[ 'r', '='] ++ present_u32 r.1 ++ ',' :: present_u32 r.2]
      | none => []))

/-- The text between the framing that `serialize` writes. -/
def body_of (m : OSC8671) : List Char :=
  join_with ':' (fields_of m) ++
    (match m.direction with
     | some d => ';' :: direction_string d
     | none => [])

/-- A message within the domain of the wire format: it satisfies the field-validity matrix, its
id (if present) has at most 36 bytes and contains neither separator, and its range (if present)
is a pair of `u32` values with `1 ≤ start ≤ end`. -/
def well_formed (m : OSC8671) : Prop :=
  matrix_ok m ∧
  (∀ id, m.id = some id → size_bytes id ≤ max_id_byte_size ∧ ':' ∉ id ∧ ';' ∉ id) ∧
  (∀ r, m.range = some r → 1 ≤ r.1 ∧ r.1 ≤ r.2 ∧ r.2 < 2 ^ 32)

/-- The state of the field loop after the fields that `serialize` writes for `m`. -/
def fields_state (m : OSC8671) : ParsedFields :=
  { type := some m.type
    id := m.id
    wrap_mode := if m.wrap_mode = NavigateWrapMode.Allow then some NavigateWrapMode.Allow else none
    range := m.range
    hide_cursor_on_enter := if m.hide_cursor_on_enter then some true else none }

/-- The invariant of the field loop on the collected id and range: the id has at most 36 bytes
and contains neither separator, the range is a pair of `u32` values with `1 ≤ start ≤ end`. -/
def state_ok (st : ParsedFields) : Prop :=
  (∀ id, st.id = some id → size_bytes id ≤ max_id_byte_size ∧ ':' ∉ id ∧ ';' ∉ id) ∧
  (∀ r, st.range = some r → 1 ≤ r.1 ∧ r.1 ≤ r.2 ∧ r.2 < 2 ^ 32)

instance (m : OSC8671) : Decidable (matrix_ok m) := by
  unfold matrix_ok
  infer_instance

/-- A message of type Supported whose id is the single code point `;`. -/
def separator_id_message : OSC8671 :=
  { type := SeamlessNavigationRequestType.Supported, id := some [ ';'] }

/-- Position of a key in the canonical order `t`, `w`, `h`, `id`, `r` of the fields. -/
def key_rank (key : List Char) : Option Nat :=
  if key = "t".toList then some 0
  else if key = "w".toList then some 1
  else if key = "h".toList then some 2
  else if key = "id".toList then some 3
  else if key = "r".toList then some 4
  else none

/-- Position of the key of a field in the canonical order; nothing for a field without `=` or
with an unknown key. -/
def field_rank (f : List Char) : Option Nat :=
  match find_split '=' f with
  | none => none
  | some (k, _) => key_rank k

/-- A number in plain decimal: decimal digits only (so no sign), at least one, and no leading
zero (the single digit `0` has none). -/
def plain_decimal (s : List Char) : Prop :=
  s ≠ [] ∧ (∀ c ∈ s, is_digit c) ∧ (s.head? = some '0' → s = [ '0'])

instance (s : List Char) : Decidable (plain_decimal s) := by
  unfold plain_decimal
  infer_instance

/-- A field written canonically: `w` and `h` only with the value `true`, and the numbers of `r`
in plain decimal. A field without `=` has no key or value to restrict. -/
def canonical_field (f : List Char) : Prop :=
  match find_split '=' f with
  | none => True
  | some (k, v) =>
    ((k = "w".toList ∨ k = "h".toList) → v = "true".toList) ∧
    (k = "r".toList → ∀ n ∈ split ',' v, plain_decimal n)

instance (f : List Char) : Decidable (canonical_field f) := by
  unfold canonical_field
  cases find_split '=' f with
  | none => exact isTrue trivial
  | some kv => exact inferInstanceAs (Decidable (_ ∧ _))

/-- A payload written canonically: the fields of its first segment stand in the order `t`, `w`,
`h`, `id`, `r`, each key at most once, and each field is written canonically. -/
def canonical (p : List Char) : Prop :=
  match split ';' p with
  | [] => True
  | seg0 :: _ =>
    ((split ':' seg0).filterMap field_rank).Pairwise (fun a b => a < b) ∧
    ∀ f ∈ split ':' seg0, canonical_field f

instance (p : List Char) : Decidable (canonical p) := by
  unfold canonical
  cases split ';' p with
  | nil => exact isTrue trivial
  | cons seg0 rest => exact inferInstanceAs (Decidable (_ ∧ _))

/-- The fields that `serialize` writes for the values the field loop collected. -/
def state_fields (st : ParsedFields) : List (List Char) :=
  (match st.type with
   | some t => [ 't' :: '=' :: type_string t]
   | none => []) ++
  (match st.wrap_mode with
   | some NavigateWrapMode.Allow => [[ 'w', '=', 't', 'r', 'u', 'e']]
   | _ => []) ++
  (match st.hide_cursor_on_enter with
   | some true => [[ 'h', '=', 't', 'r', 'u', 'e']]
   | _ => []) ++
  (match st.id with
   | some id => [ 'i' :: 'd' :: '=' :: id]
   | none => []) ++
  (match st.range with
   | some r => [ 'r' :: '=' :: (present_u32 r.1 ++ ',' :: present_u32 r.2)]
   | none => [])

/-- The fields of the loop state whose position in the canonical order is `r` or later are
not set. -/
def unset_from (r : Nat) (st : ParsedFields) : Prop :=
  (r ≤ 0 → st.type = none) ∧ (r ≤ 1 → st.wrap_mode = none) ∧
  (r ≤ 2 → st.hide_cursor_on_enter = none) ∧ (r ≤ 3 → st.id = none) ∧
  (r ≤ 4 → st.range = none)

/-- A field that is invalid on its own: it contains no `=`, or its key (the text
before the first `=`) is none of `t`, `id`, `r`, `w`, `h`, or its key is `t` and its value is
none of the six type names, or its key is `w` or `h` and its value is neither `true` nor
`false`. -/
def bad_field (f : List Char) : Prop :=
  match find_split '=' f with
  | none => True
  | some (k, v) =>
    k ∉ [ "t".toList, "id".toList, "r".toList, "w".toList, "h".toList] ∨
    (k = "t".toList ∧
      v ∉ [ "supported".toList, "register".toList, "unregister".toList, "navigate".toList,
        "acknowledge".toList, "enter".toList]) ∨
    ((k = "w".toList ∨ k = "h".toList) ∧ v ≠ "true".toList ∧ v ≠ "false".toList)

instance (f : List Char) : Decidable (bad_field f) := by
  unfold bad_field
  cases find_split '=' f with
  | none => exact isTrue trivial
  | some kv => exact inferInstanceAs (Decidable (_ ∨ _))

/-- A key that the field-validity matrix forbids for a type: `r` unless the type is Navigate or
Enter, `h` unless it is Register, `w` unless it is Navigate or Acknowledge. -/
def forbidden_key (k : List Char) (t : SeamlessNavigationRequestType) : Prop :=
  (k = "r".toList ∧ t ≠ SeamlessNavigationRequestType.Navigate ∧
    t ≠ SeamlessNavigationRequestType.Enter) ∨
  (k = "h".toList ∧ t ≠ SeamlessNavigationRequestType.Register) ∨
  (k = "w".toList ∧ t ≠ SeamlessNavigationRequestType.Navigate ∧
    t ≠ SeamlessNavigationRequestType.Acknowledge)

instance (k : List Char) (t : SeamlessNavigationRequestType) : Decidable (forbidden_key k t) := by
  unfold forbidden_key
  infer_instance

/-- The key of a field: the text before its first `=`, nothing for a field without `=`. -/
def field_key (f : List Char) : Option (List Char) :=
  match find_split '=' f with
  | none => none
  | some (k, _) => some k

/-- The string `s` is an unsigned decimal number that fits in `u32`, and `n` is the number it
writes: `s` consists of one or more ASCII decimal digits (so it has no sign), and `n` is the
value of these digits in base ten and is at most `2 ^ 32 - 1`. -/
def u32_decimal (s : List Char) (n : Nat) : Prop :=
  s ≠ [] ∧ (∀ c ∈ s, is_digit c) ∧
    Nat.ofDigits 10 (s.reverse.map (fun c => c.toNat - 48)) = n ∧ n < 2 ^ 32

/-! ## Vocabulary of the statements on defaults and on the serialized text -/

/-- The lowercase name of a type on the wire, case by case. -/
def type_name : SeamlessNavigationRequestType → List Char
  | SeamlessNavigationRequestType.Supported => "supported".toList
  | SeamlessNavigationRequestType.Register => "register".toList
  | SeamlessNavigationRequestType.Unregister => "unregister".toList
  | SeamlessNavigationRequestType.Navigate => "navigate".toList
  | SeamlessNavigationRequestType.Acknowledge => "acknowledge".toList
  | SeamlessNavigationRequestType.Enter => "enter".toList

/-- The lowercase name of a direction on the wire, case by case. -/
def direction_name : NavigateDirection → List Char
  | NavigateDirection.Left => "left".toList
  | NavigateDirection.Right => "right".toList
  | NavigateDirection.Up => "up".toList
  | NavigateDirection.Down => "down".toList

/-- The serialized form of a message as the specification words it: `ESC ] 8671 ; t=<type name>`,
then `:w=true` iff the wrap mode is Allow, then `:h=true` iff `hide_cursor_on_enter` is true,
then `:id=<id>` iff the id is present, then `:r=<start>,<end>` in decimal iff the range is
present, then `;<direction name>` iff the direction is present, and `ESC \` at the end. -/
def serialize_text (m : OSC8671) : List Char :=
  "\x1b]8671;t=".toList ++ type_name m.type ++
    (if m.wrap_mode = NavigateWrapMode.Allow then ":w=true".toList else []) ++
    (if m.hide_cursor_on_enter = true then ":h=true".toList else []) ++
    (match m.id with
     | some id => ":id=".toList ++ id
     | none => []) ++
    (match m.range with
     | some r => ":r=".toList ++ Nat.toDigits 10 r.1 ++ ",".toList ++ Nat.toDigits 10 r.2
     | none => []) ++
    (match m.direction with
     | some d => ";".toList ++ direction_name d
     | none => []) ++
    "\x1b\\".toList

/-- Two states of the field loop that agree on every field except that a `wrap_mode` that is
not set in one may be set to Disallow in the other. -/
def same_but_wrap_default (a b : ParsedFields) : Prop :=
  a.type = b.type ∧ a.id = b.id ∧ a.range = b.range ∧
    a.hide_cursor_on_enter = b.hide_cursor_on_enter ∧
    a.wrap_mode.getD NavigateWrapMode.Disallow = b.wrap_mode.getD NavigateWrapMode.Disallow

/-! ## Vocabulary of the statements on the order of the fields -/

/-- The state of the field loop `st` with the values that `d` holds written over it: what the
loop has after the fields that, from the empty state, give `d`. -/
def ParsedFields.merge (st d : ParsedFields) : ParsedFields :=
  { type := match d.type with
      | some t => some t
      | none => st.type
    id := match d.id with
      | some i => some i
      | none => st.id
    wrap_mode := match d.wrap_mode with
      | some w => some w
      | none => st.wrap_mode
    range := match d.range with
      | some r => some r
      | none => st.range
    hide_cursor_on_enter := match d.hide_cursor_on_enter with
      | some b => some b
      | none => st.hide_cursor_on_enter }

/-- Two states of the field loop that hold values for different fields. -/
def ParsedFields.disjoint (d e : ParsedFields) : Prop :=
  (d.type = none ∨ e.type = none) ∧ (d.id = none ∨ e.id = none) ∧
    (d.wrap_mode = none ∨ e.wrap_mode = none) ∧ (d.range = none ∨ e.range = none) ∧
    (d.hide_cursor_on_enter = none ∨ e.hide_cursor_on_enter = none)

end ttx.terminal

namespace ttx

open terminal

/-! ## The input thread: pending events and their dispatch (`input.cpp`) -/

/-- Modelled from the spec: the `Event` variant of `ttx/terminal_input.h` (not under src/), with
one alternative for each `handle_event` overload that `input.h` declares. The content of the
events other than OSC 8671 is a token that only the handlers look into. -/
inductive Event where
  | KeyEvent (token : Nat)
  | MouseEvent (token : Nat)
  | FocusEvent (token : Nat)
  | PasteEvent (token : Nat)
  | PrimaryDeviceAttributes (token : Nat)
  | ModeQueryReply (token : Nat)
  | CursorPositionReport (token : Nat)
  | KittyKeyReport (token : Nat)
  | StatusStringResponse (token : Nat)
  | TerminfoString (token : Nat)
  | OSC52 (token : Nat)
  | OSC8671 (osc : terminal.OSC8671)
deriving DecidableEq, Repr

/-- Struct `InputThread::PendingEvent` of `input.h`. Time points of the steady clock are counted
in milliseconds since the epoch of the clock; the default time point `{}` is `0`. -/
structure PendingEvent where
  event : Event
  receptionTime : Nat
  pending : Bool := false
deriving DecidableEq, Repr

/-- Modelled from the spec: the events that the input thread pushes to the render thread
(`render.h` is not under src/). `request_render()` is the event `RequestRender`; events that
only the handlers of key, mouse, focus and paste events push are `Other`. -/
inductive RenderEvent where
  | WriteString (bytes : List Char)
  | RequestRender
  | InputStatus (mode : Nat)
  | ClipboardRequest (osc52 : Nat)
  | Other (token : Nat)
deriving DecidableEq, Repr

/-- Enum `Tab::SeamlessNavigateMode` of `tab.h`. -/
inductive Tab.SeamlessNavigateMode where
  | Disabled
  | Enabled
deriving DecidableEq, Repr

/-- The members of class `InputThread` (`input.h`) that the dispatch of pending events reads and
writes. `m_pending_events` is a `di::Ring` used as a double-ended queue, front first.
`m_render_thread` lists the events pushed to the render thread so far, oldest first. `L` is the
layout state behind `m_layout_state`, together with whatever else the handlers of key, mouse,
focus and paste events keep (input mode, key binds, drag origin). `now` is the reading of
`dius::SteadyClock::now()`. -/
structure InputThread (L : Type) where
  m_done : Bool := false
  m_layout_state : L
  m_pending_events : List PendingEvent := []
  m_render_thread : List RenderEvent := []
  now : Nat := 0
deriving DecidableEq, Repr

/-- The code that `input.cpp` calls and that is not modelled here, as parameters.
`handle_event` stands for the overloads of `InputThread::handle_event` for key, mouse, focus and
paste events (lines 154-292), which run key binds and may change every member, the queue
(through `request_navigate`) and `m_done` included. `enter` is the body of the `with_lock` call
of lines 305-327 without the render request: `Tab::navigate` on the active tab, or nothing when
there is no active tab. `navigate` is the `with_lock` call of lines 337-360: the result of
`Tab::navigate` on the active tab (`false` without one) and the new layout state. -/
structure Handlers (L : Type) where
  handle_event : Event → InputThread L → InputThread L
  enter : terminal.OSC8671 → L → Option L
  navigate : terminal.OSC8671 → Tab.SeamlessNavigateMode → L → Option Bool × L

/-- The constant `timeout` of `process_pending_events`, 200 ms. -/
def timeout : Nat := 200

/-- A call of a handler by the dispatch loop: the event, and the argument `did_timeout` (for the
overloads without this argument, `false`: they are only called for events that did not time
out). -/
structure HandlerCall where
  event : Event
  did_timeout : Bool
deriving DecidableEq, Repr

/-- The overload `InputThread::handle_event(terminal::OSC8671& event, bool did_timeout)` of
`input.cpp` (lines 303-378): the event as the handler leaves it (it is passed by reference),
the new state, and the result. -/
def InputThread.handle_event {L : Type} (H : Handlers L) (event : terminal.OSC8671)
    (did_timeout : Bool) (self : InputThread L) : terminal.OSC8671 × InputThread L × Bool :=
  if event.type = SeamlessNavigationRequestType.Enter then
    match H.enter event self.m_layout_state with
    | some state =>
      (event,
        { self with
          m_layout_state := state
          m_render_thread := self.m_render_thread ++ [RenderEvent.RequestRender] },
        true)
    | none => (event, self, true)
  else if event.type ≠ SeamlessNavigationRequestType.Navigate then (event, self, true)
  else
    let seamless_navigate_mode :=
      if did_timeout then Tab.SeamlessNavigateMode.Disabled else Tab.SeamlessNavigateMode.Enabled
    let did_navigate := (H.navigate event seamless_navigate_mode self.m_layout_state).1
    let self :=
      { self with
        m_layout_state := (H.navigate event seamless_navigate_mode self.m_layout_state).2 }
    let self :=
      if did_navigate = some true then
        { self with m_render_thread := self.m_render_thread ++ [RenderEvent.RequestRender] }
      else self
    if did_navigate.isSome ∧ event.wrap_mode = NavigateWrapMode.Disallow then
      let event :=
        if did_navigate = some true then
          { event with type := SeamlessNavigationRequestType.Acknowledge, range := none }
        else event
      (event,
        { self with
          m_render_thread := self.m_render_thread ++ [RenderEvent.WriteString event.serialize] },
        true)
    else (event, self, did_navigate.isSome)

/-- The overloads `InputThread::handle_event(X&&)` for the events other than OSC 8671: the
handlers of the protocol replies are empty (`input.h`, lines 54-59), the handler of OSC 52 pushes
a clipboard request (lines 294-301), the others are parameters. -/
def InputThread.handle_event_rvalue {L : Type} (H : Handlers L) (event : Event)
    (self : InputThread L) : InputThread L :=
  match event with
  | Event.KeyEvent _ => H.handle_event event self
  | Event.MouseEvent _ => H.handle_event event self
  | Event.FocusEvent _ => H.handle_event event self
  | Event.PasteEvent _ => H.handle_event event self
  | Event.OSC52 token =>
    { self with m_render_thread := self.m_render_thread ++ [RenderEvent.ClipboardRequest token] }
  | _ => self

/-- The function `InputThread::process_pending_events` of `input.cpp` (lines 108-152), run for at
most `fuel` iterations of its loop: the state it leaves and the handler calls it made, in
order. -/
def InputThread.process_pending_events {L : Type} (H : Handlers L) :
    Nat → InputThread L → InputThread L × List HandlerCall
  | 0, self => (self, [])
  | fuel + 1, self =>
    if self.m_done then (self, [])
    else
      match self.m_pending_events with
      | [] => (self, [])
      | first :: rest =>
        let self := { self with m_pending_events := rest }
        if first.pending ∧ self.now > first.receptionTime + timeout then
          match first.event with
          | Event.OSC8671 x =>
            let r := InputThread.process_pending_events H fuel
              (InputThread.handle_event H x true self).2.1
            (r.1, { event := first.event, did_timeout := true } :: r.2)
          | _ => InputThread.process_pending_events H fuel self
        else if first.pending then
          ({ self with m_pending_events := self.m_pending_events ++ [first] }, [])
        else
          match first.event with
          | Event.OSC8671 x =>
            let h := InputThread.handle_event H x false self
            if h.2.2 then
              let r := InputThread.process_pending_events H fuel h.2.1
              (r.1, { event := first.event, did_timeout := false } :: r.2)
            else
              ({ h.2.1 with
                  m_pending_events := h.2.1.m_pending_events ++
                    [{ first with event := Event.OSC8671 h.1, pending := true }] },
                [{ event := first.event, did_timeout := false }])
          | e =>
            let r := InputThread.process_pending_events H fuel
              (InputThread.handle_event_rvalue H e self)
            (r.1, { event := e, did_timeout := false } :: r.2)

/-- Lines 92-104 of `InputThread::input_thread`: the events parsed from one read are pushed to
the back of the queue with the current time as reception time, then the queue is processed. -/
def InputThread.input_thread_read {L : Type} (H : Handlers L) (fuel : Nat)
    (events : List Event) (self : InputThread L) : InputThread L × List HandlerCall :=
  InputThread.process_pending_events H fuel
    { self with
      m_pending_events := self.m_pending_events ++
        events.map (fun event => { event := event, receptionTime := self.now }) }

/-- Modelled from the spec: `di::to_string` of a `u64` (library `di`, not under src/): its
decimal digits. -/
def to_string_u64 (n : Nat) : List Char :=
  present_u32 n

/-- The function `InputThread::request_navigate` of `input.cpp` (lines 380-398). `drawn` is the
number that `dist(m_rng)` returns. -/
def InputThread.request_navigate {L : Type} (drawn : Nat) (direction : NavigateDirection)
    (self : InputThread L) : InputThread L :=
  let id := to_string_u64 drawn
  { self with
    m_pending_events :=
      { event := Event.OSC8671
          { type := SeamlessNavigationRequestType.Navigate
            direction := some direction
            id := some id
            wrap_mode := NavigateWrapMode.Allow }
        receptionTime := self.now } :: self.m_pending_events }

/-- The `with_lock` call of `InputThread::notify_osc_8671` (lines 443-459): the queue it leaves
and the value of `should_process`. -/
def InputThread.notify_locked (osc_8671 : terminal.OSC8671) :
    List PendingEvent → List PendingEvent × Bool
  | [] => ([], false)
  | ev :: rest =>
    match ev.event with
    | Event.OSC8671 event =>
      if event.id = osc_8671.id then
        if osc_8671.type = SeamlessNavigationRequestType.Acknowledge then (rest, true)
        else
          ({ ev with
              receptionTime := 0
              event := Event.OSC8671 { event with range := osc_8671.range } } :: rest,
            true)
      else (ev :: rest, false)
    | _ => (ev :: rest, false)

/-- The function `InputThread::notify_osc_8671` of `input.cpp` (lines 437-463), with `fuel` for
the run of `process_pending_events`: the state it leaves and the handler calls made. -/
def InputThread.notify_osc_8671 {L : Type} (H : Handlers L) (fuel : Nat)
    (osc_8671 : terminal.OSC8671) (self : InputThread L) :
    InputThread L × List HandlerCall :=
  if osc_8671.type ≠ SeamlessNavigationRequestType.Navigate ∧
      osc_8671.type ≠ SeamlessNavigationRequestType.Acknowledge then (self, [])
  else
    let locked := InputThread.notify_locked osc_8671 self.m_pending_events
    let self := { self with m_pending_events := locked.1 }
    if locked.2 then InputThread.process_pending_events H fuel self
    else (self, [])

/-- Handlers that do nothing: key, mouse, focus and paste events leave the state as it is, and
`Tab::navigate` reports no navigation (`false`) without changing the layout. -/
def idle_handlers : Handlers Unit :=
  { handle_event := fun _ self => self
    enter := fun _ state => some state
    navigate := fun _ _ state => (some false, state) }

/-- An input thread whose queue holds one entry, as `request_navigate` inserts it: a Navigate
with id `7` and wrap mode Allow, received at time 5 and not pending. -/
def fresh_navigate_thread : InputThread Unit :=
  { m_layout_state := ()
    m_pending_events :=
      [{ event := Event.OSC8671
           { type := SeamlessNavigationRequestType.Navigate
             direction := some NavigateDirection.Down
             id := some [ '7']
             wrap_mode := NavigateWrapMode.Allow }
         receptionTime := 5 }]
    now := 5 }

/-- An Acknowledge reply with id `7`. -/
def acknowledge_seven : terminal.OSC8671 :=
  { type := SeamlessNavigationRequestType.Acknowledge
    direction := some NavigateDirection.Down
    id := some [ '7'] }

/-- A Navigate with id `7` and wrap mode Disallow, as an application receives it. -/
def navigate_seven : terminal.OSC8671 :=
  { type := SeamlessNavigationRequestType.Navigate
    direction := some NavigateDirection.Down
    id := some [ '7'] }

/-- An input thread at time 1100 whose queue holds `navigate_seven`, pending since time 1000,
and a key event behind it. -/
def pending_navigate_thread : InputThread Unit :=
  { m_layout_state := ()
    m_pending_events :=
      [{ event := Event.OSC8671 navigate_seven, receptionTime := 1000, pending := true },
       { event := Event.KeyEvent 1, receptionTime := 1050 }]
    now := 1100 }

/-- Vocabulary of the statements on the order of dispatch: the state after `event` was handled
once with `did_timeout = false`, written out for each kind of event. Key, mouse, focus and paste
events go to their handlers, an OSC 52 event pushes its clipboard request, an OSC 8671 event
goes to its handler, and the protocol replies change nothing. -/
def InputThread.handled_once {L : Type} (H : Handlers L) (event : Event)
    (self : InputThread L) : InputThread L :=
  match event with
  | Event.KeyEvent _ => H.handle_event event self
  | Event.MouseEvent _ => H.handle_event event self
  | Event.FocusEvent _ => H.handle_event event self
  | Event.PasteEvent _ => H.handle_event event self
  | Event.OSC52 token =>
    { self with m_render_thread := self.m_render_thread ++ [RenderEvent.ClipboardRequest token] }
  | Event.OSC8671 x => (InputThread.handle_event H x false self).2.1
  | _ => self

/-- Vocabulary of the statements on the order of dispatch: the state after every entry of
`entries` was handled once, from front to back; the handler of an entry finds the entries behind
it in the queue. -/
def InputThread.handled_in_order {L : Type} (H : Handlers L) :
    List PendingEvent → InputThread L → InputThread L
  | [], self => self
  | first :: rest, self =>
    InputThread.handled_in_order H rest
      (InputThread.handled_once H first.event { self with m_pending_events := rest })

/-- Handlers of a thread with a key bind that quits: the action bound to key 1 sets the exit
flag, which it gets as `.done = m_done` (line 173); the other key, mouse, focus and paste events
leave the state as it is, and `Tab::navigate` reports no navigation. -/
def quit_handlers : Handlers Unit :=
  { handle_event := fun event self =>
      if event = Event.KeyEvent 1 then { self with m_done := true } else self
    enter := fun _ state => some state
    navigate := fun _ _ state => (some false, state) }

/-- Handlers that record the key, mouse, focus and paste events they get, latest first, in the
state behind `m_layout_state`. -/
def recording_handlers : Handlers (List Event) :=
  { handle_event := fun event self =>
      { self with m_layout_state := event :: self.m_layout_state }
    enter := fun _ state => some state
    navigate := fun _ _ state => (some false, state) }

/-! ## Pane navigation in a tab (`tab.cpp`) and its callers in the OSC 8671 handler -/

/-- The sum of two `u32` values: addition modulo `2 ^ 32`. -/
def u32_add (a b : Nat) : Nat := (a + b) % 4294967296

/-- The difference of two `u32` values, both below `2 ^ 32`: subtraction modulo `2 ^ 32`. -/
def u32_sub (a b : Nat) : Nat := (a + 4294967296 - b) % 4294967296

/-- Modelled from the spec: struct `Size` of `ttx/size.h` (not under src/), of which the tab reads
the cell counts `rows` and `cols`. -/
structure Size where
  rows : Nat := 0
  cols : Nat := 0
deriving DecidableEq, Repr

/-- Modelled from the spec: struct `LayoutEntry` of `ttx/layout.h` (not under src/): the rectangle
of a pane, with the members `row`, `col`, `size` and `pane` that `tab.cpp` and `input.cpp` read.
A `Pane*` is the number of the pane it points to. -/
structure LayoutEntry where
  row : Nat
  col : Nat
  size : Size
  pane : Nat
deriving DecidableEq, Repr

/-- Modelled from the spec: class `LayoutNode` of `ttx/layout.h` (not under src/), kept as the
list of the entries of the tree. -/
structure LayoutNode where
  entries : List LayoutEntry := []
deriving DecidableEq, Repr

/-- Modelled from the spec: `LayoutNode::find_pane`, the entry of the tree that holds the pane;
no entry holds the null pointer. -/
def LayoutNode.find_pane (self : LayoutNode) (pane : Option Nat) : Option LayoutEntry :=
  match pane with
  | none => none
  | some p => self.entries.find? (fun e => decide (e.pane = p))

/-- Modelled from the spec: `LayoutNode::hit_test_vertical_line`, the entries that have a cell in
column `col` in one of the rows `row_start`, ..., `row_end - 1`. -/
def LayoutNode.hit_test_vertical_line (self : LayoutNode) (col row_start row_end : Nat) :
    List LayoutEntry :=
  self.entries.filter (fun e =>
    decide (e.col ≤ col ∧ col < e.col + e.size.cols ∧
      max row_start e.row < min row_end (e.row + e.size.rows)))

/-- Modelled from the spec: `LayoutNode::hit_test_horizontal_line`, the entries that have a cell
in row `row` in one of the columns `col_start`, ..., `col_end - 1`. -/
def LayoutNode.hit_test_horizontal_line (self : LayoutNode) (row col_start col_end : Nat) :
    List LayoutEntry :=
  self.entries.filter (fun e =>
    decide (e.row ≤ row ∧ row < e.row + e.size.rows ∧
      max col_start e.col < min col_end (e.col + e.size.cols)))

/-- The calls that `tab.cpp` makes on a pane (`ttx/pane.h` is not under src/). -/
inductive PaneCall where
  | seamless_navigate (osc_8671 : terminal.OSC8671)
  | focus_in
  | focus_out
  | resize (size : Size)
  | invalidate_all
deriving DecidableEq, Repr

/-- The members of class `Tab` (`tab.h`) that pane navigation reads and writes. A `Pane*` is the
number of the pane, `nullptr` is `none`. `m_layout_root` stands for the tree that
`m_layout_root.layout(size, 0, 0)` returns (`LayoutGroup` is not under src/). `pane_calls` lists
the calls made on panes through the pointers of the tab, oldest first, with the pane called;
`layout_did_update_calls` counts the calls of `layout_did_update`. The popup is not modelled: a
popup pane is a pane without an entry in the layout tree. The entry that `find_pane(m_active)`
finds holds the active pane, so `m_active->` is a call on the pane of that entry. -/
structure Tab where
  m_size : Size := {}
  m_layout_root : LayoutNode := {}
  m_layout_tree : Option LayoutNode := none
  m_panes_ordered_by_recency : List Nat := []
  m_is_active : Bool := false
  m_active : Option Nat := none
  m_full_screen_pane : Option Nat := none
  pane_calls : List (Nat × PaneCall) := []
  layout_did_update_calls : Nat := 0
deriving DecidableEq, Repr

/-- The function `Tab::invalidate_all` of `tab.cpp` (lines 39-43). -/
def Tab.invalidate_all (self : Tab) : Tab :=
  { self with
    pane_calls :=
      self.pane_calls ++
        self.m_panes_ordered_by_recency.map (fun pane => (pane, PaneCall.invalidate_all)) }

/-- The function `Tab::layout` of `tab.cpp` (lines 18-37), without the popup. -/
def Tab.layout (size : Size) (self : Tab) : Tab :=
  let self := { self with m_size := size }
  let self :=
    match self.m_full_screen_pane with
    | some pane =>
      { self with
        pane_calls := self.pane_calls ++ [(pane, PaneCall.resize self.m_size)]
        m_layout_tree :=
          some { entries := [{ row := 0, col := 0, size := size, pane := pane }] } }
    | none => { self with m_layout_tree := some self.m_layout_root }
  self.invalidate_all

/-- The call `m_active->event(...)` under the guard `is_active() && m_active` of `set_active`. -/
def Tab.focus_event (call : PaneCall) (self : Tab) : Tab :=
  match self.m_active with
  | some active =>
    if self.m_is_active then { self with pane_calls := self.pane_calls ++ [(active, call)] }
    else self
  | none => self

/-- The function `Tab::set_active` of `tab.cpp` (lines 321-347): the result and the new state.
`di::erase` removes every occurrence of the pane from the recency list. -/
def Tab.set_active (pane : Option Nat) (self : Tab) : Bool × Tab :=
  if self.m_active = pane then (false, self)
  else
    let self :=
      if self.m_full_screen_pane.isSome ∧ self.m_full_screen_pane ≠ pane then
        Tab.layout self.m_size { self with m_full_screen_pane := none }
      else self
    let self := self.focus_event PaneCall.focus_out
    let self := { self with m_active := pane }
    let self :=
      match pane with
      | some p =>
        { self with
          m_panes_ordered_by_recency :=
            p :: self.m_panes_ordered_by_recency.filter (fun q => decide (q ≠ p)) }
      | none => self
    let self := self.focus_event PaneCall.focus_in
    (true, { self with layout_did_update_calls := self.layout_did_update_calls + 1 })

/-- The local `wraps` of the four cases of the switch of `Tab::navigate` (lines 182, 196-197,
210 and 224-225): whether the move leaves the tab on the side of the direction, in `u32`
arithmetic. -/
def Tab.navigate_wraps (direction : NavigateDirection) (force_wrap : Bool)
    (layout_entry : LayoutEntry) (self : Tab) : Bool :=
  match direction with
  | NavigateDirection.Left => decide (layout_entry.col ≤ 1) || force_wrap
  | NavigateDirection.Right =>
    decide (self.m_size.cols < 2) ||
      decide (u32_sub self.m_size.cols 2 ≤ u32_add layout_entry.col layout_entry.size.cols) ||
      force_wrap
  | NavigateDirection.Up => decide (layout_entry.row ≤ 1) || force_wrap
  | NavigateDirection.Down =>
    decide (self.m_size.rows < 2) ||
      decide (u32_sub self.m_size.rows 2 ≤ u32_add layout_entry.row layout_entry.size.rows) ||
      force_wrap

/-- The lambda of `Tab::navigate` that computes `candidates` and `blocked` (lines 177-239): the
panes of the hit test along the probe line, as a set, and whether the move wraps while wrapping
is disallowed. -/
def Tab.navigate_candidates (direction : NavigateDirection) (wrap_mode : NavigateWrapMode)
    (override_range : Option (Nat × Nat)) (force_wrap : Bool) (layout_entry : LayoutEntry)
    (tree : LayoutNode) (self : Tab) : List Nat × Bool :=
  let override_start := override_range.map Prod.fst
  let override_end := override_range.map Prod.snd
  match direction with
  | NavigateDirection.Left =>
    let wraps := self.navigate_wraps NavigateDirection.Left force_wrap layout_entry
    if wraps = true ∧ wrap_mode = NavigateWrapMode.Disallow then ([], true)
    else
      let col := if wraps then u32_sub self.m_size.cols 1 else u32_sub layout_entry.col 2
      (((tree.hit_test_vertical_line col (override_start.getD layout_entry.row)
          (override_end.getD (u32_add layout_entry.row layout_entry.size.rows))).map
          LayoutEntry.pane).dedup, false)
  | NavigateDirection.Right =>
    let wraps := self.navigate_wraps NavigateDirection.Right force_wrap layout_entry
    if wraps = true ∧ wrap_mode = NavigateWrapMode.Disallow then ([], true)
    else
      let col :=
        if wraps then 0 else u32_add (u32_add layout_entry.col layout_entry.size.cols) 1
      (((tree.hit_test_vertical_line col (override_start.getD layout_entry.row)
          (override_end.getD (u32_add layout_entry.row layout_entry.size.rows))).map
          LayoutEntry.pane).dedup, false)
  | NavigateDirection.Up =>
    let wraps := self.navigate_wraps NavigateDirection.Up force_wrap layout_entry
    if wraps = true ∧ wrap_mode = NavigateWrapMode.Disallow then ([], true)
    else
      let row := if wraps then u32_sub self.m_size.rows 1 else u32_sub layout_entry.row 2
      (((tree.hit_test_horizontal_line row (override_start.getD layout_entry.col)
          (override_end.getD (u32_add layout_entry.col layout_entry.size.cols))).map
          LayoutEntry.pane).dedup, false)
  | NavigateDirection.Down =>
    let wraps := self.navigate_wraps NavigateDirection.Down force_wrap layout_entry
    if wraps = true ∧ wrap_mode = NavigateWrapMode.Disallow then ([], true)
    else
      let row :=
        if wraps then 0 else u32_add (u32_add layout_entry.row layout_entry.size.rows) 1
      (((tree.hit_test_horizontal_line row (override_start.getD layout_entry.col)
          (override_end.getD (u32_add layout_entry.col layout_entry.size.cols))).map
          LayoutEntry.pane).dedup, false)

/-- The lambda of `Tab::navigate` that computes the range of the Enter message (lines 278-295),
in `u32` arithmetic. -/
def Tab.navigate_range (direction : NavigateDirection)
    (layout_entry candidate_layout_entry : LayoutEntry) : Nat × Nat :=
  if direction = NavigateDirection.Left ∨ direction = NavigateDirection.Right then
    (u32_add (u32_sub (max layout_entry.row candidate_layout_entry.row)
        candidate_layout_entry.row) 1,
      u32_sub
        (min (u32_add layout_entry.row layout_entry.size.rows)
          (u32_add candidate_layout_entry.row candidate_layout_entry.size.rows))
        candidate_layout_entry.row)
  else
    (u32_add (u32_sub (max layout_entry.col candidate_layout_entry.col)
        candidate_layout_entry.col) 1,
      u32_sub
        (min (u32_add layout_entry.col layout_entry.size.cols)
          (u32_add candidate_layout_entry.col candidate_layout_entry.size.cols))
        candidate_layout_entry.col)

/-- The loop of `Tab::navigate` over `m_panes_ordered_by_recency` (lines 268-301), from the
panes that are left to visit. A candidate of the hit test has an entry in the tree, so the
assertion of line 275 holds; were it to fail, no navigation is made. -/
def Tab.navigate_loop (direction : NavigateDirection) (force_wrap : Bool)
    (layout_entry : LayoutEntry) (tree : LayoutNode) (candidates : List Nat) (self : Tab) :
    List Nat → Option Bool × Tab
  | [] => (some false, self)
  | candidate :: rest =>
    if force_wrap = true ∧ some candidate = self.m_active then (some false, self)
    else if some candidate ≠ self.m_active ∧ candidate ∈ candidates then
      match tree.find_pane (some candidate) with
      | none => (some false, self)
      | some candidate_layout_entry =>
        let osc_8671 : terminal.OSC8671 :=
          { type := SeamlessNavigationRequestType.Enter
            direction := some direction
            range := some (Tab.navigate_range direction layout_entry candidate_layout_entry) }
        let self :=
          { self with
            pane_calls :=
              self.pane_calls ++ [(candidate, PaneCall.seamless_navigate osc_8671)] }
        (some true, (self.set_active (some candidate)).2)
    else Tab.navigate_loop direction force_wrap layout_entry tree candidates self rest

/-- The message `osc_8671` that `Tab::navigate` offers to the active pane in seamless mode
(lines 243-253); `valid_candidates_count` counts the panes of the hit test other than the active
pane. -/
def Tab.navigate_offer (direction : NavigateDirection) (wrap_mode : NavigateWrapMode)
    (id : Option (List Char)) (candidates : List Nat) (self : Tab) : terminal.OSC8671 :=
  let valid_candidates_count := candidates.countP (fun c => decide (some c ≠ self.m_active))
  { type := SeamlessNavigationRequestType.Navigate
    direction := some direction
    id := id
    wrap_mode :=
      if wrap_mode = NavigateWrapMode.Allow ∧ valid_candidates_count = 0 then
        NavigateWrapMode.Allow
      else NavigateWrapMode.Disallow }

/-- The function `Tab::navigate` of `tab.cpp` (lines 163-302): the result (`none` is the empty
optional) and the new state. `seamless_navigate pane osc_8671` is the result of
`Pane::seamless_navigate` (`ttx/pane.h` is not under src/): whether the pane accepts the message.
The entry found for `m_active` holds the active pane, so the call `m_active->seamless_navigate`
is recorded for the pane of that entry. The source dereferences `m_layout_tree` without a test;
for a tab without a layout tree the model makes no navigation, and no claim below is about such
a tab. -/
def Tab.navigate (seamless_navigate : Nat → terminal.OSC8671 → Bool)
    (direction : NavigateDirection) (wrap_mode : NavigateWrapMode) (id : Option (List Char))
    (override_range : Option (Nat × Nat)) (seamless_navigate_mode : Tab.SeamlessNavigateMode)
    (force_wrap : Bool) (self : Tab) : Option Bool × Tab :=
  match self.m_layout_tree with
  | none => (some false, self)
  | some tree =>
    match tree.find_pane self.m_active with
    | none => (some false, self)
    | some layout_entry =>
      let candidates :=
        (self.navigate_candidates direction wrap_mode override_range force_wrap layout_entry
          tree).1
      let blocked :=
        (self.navigate_candidates direction wrap_mode override_range force_wrap layout_entry
          tree).2
      let osc_8671 := self.navigate_offer direction wrap_mode id candidates
      let is_async := osc_8671.wrap_mode = NavigateWrapMode.Disallow
      let offered : Tab :=
        { self with
          pane_calls :=
            self.pane_calls ++ [(layout_entry.pane, PaneCall.seamless_navigate osc_8671)] }
      if seamless_navigate_mode = Tab.SeamlessNavigateMode.Enabled ∧
          seamless_navigate layout_entry.pane osc_8671 = true then
        if is_async then (none, offered) else (some true, offered)
      else
        let self :=
          if seamless_navigate_mode = Tab.SeamlessNavigateMode.Enabled then offered else self
        if blocked = true then (some false, self)
        else
          Tab.navigate_loop direction force_wrap layout_entry tree candidates self
            self.m_panes_ordered_by_recency

/-- The lambda of the Navigate branch of the OSC 8671 handler that translates the range of the
event to cells of the layout (`input.cpp`, lines 342-355), in `u32` arithmetic; `entry` is the
entry of the active pane. -/
def navigate_override_range (direction : NavigateDirection) (entry : LayoutEntry)
    (x : Nat × Nat) : Nat × Nat :=
  let limit :=
    if direction = NavigateDirection.Left ∨ direction = NavigateDirection.Right then
      entry.size.rows
    else entry.size.cols
  let base :=
    if direction = NavigateDirection.Left ∨ direction = NavigateDirection.Right then entry.row
    else entry.col
  (u32_add base (min (u32_sub x.1 1) limit), u32_add base (min x.2 limit))

/-- Modelled from the spec: class `LayoutState` of `ttx/layout_state.h` (not under src/), with
what the OSC 8671 handler reads of it: `size()` and `active_tab()`. -/
structure LayoutState where
  m_size : Size := {}
  m_active_tab : Option Tab := none
deriving DecidableEq, Repr

/-- The body of the `with_lock` call of the Enter branch of the OSC 8671 handler (`input.cpp`,
lines 305-327) without the render request: `none` when there is no active tab. An Enter event
has a direction (`parse` accepts no other); `value()` on an empty optional fails an assertion,
and the model leaves the tab as it is then. -/
def LayoutState.enter (seamless_navigate : Nat → terminal.OSC8671 → Bool)
    (event : terminal.OSC8671) (state : LayoutState) : Option LayoutState :=
  match state.m_active_tab with
  | none => none
  | some tab =>
    let range_start := (event.range.map (fun x => u32_sub x.1 1)).getD 0
    let range_end :=
      (event.range.map (fun x => x.2)).getD
        (if event.direction = some NavigateDirection.Left ∨
            event.direction = some NavigateDirection.Right then state.m_size.rows
          else state.m_size.cols)
    match event.direction with
    | none => some state
    | some direction =>
      some
        { state with
          m_active_tab :=
            some
              (tab.navigate seamless_navigate direction NavigateWrapMode.Allow none
                (some (range_start, range_end)) Tab.SeamlessNavigateMode.Disabled true).2 }

/-- The `with_lock` call of the Navigate branch of the OSC 8671 handler (`input.cpp`, lines
337-360): the result of `Tab::navigate` on the active tab and the new layout state. A Navigate
event has a direction (`parse` accepts no other); `value()` on an empty optional fails an
assertion, and so does `ASSERT(entry)` when the active pane has no entry: the model makes no
navigation then (without an entry of the active pane `Tab::navigate` makes none either). -/
def LayoutState.navigate (seamless_navigate : Nat → terminal.OSC8671 → Bool)
    (event : terminal.OSC8671) (seamless_navigate_mode : Tab.SeamlessNavigateMode)
    (state : LayoutState) : Option Bool × LayoutState :=
  match state.m_active_tab with
  | none => (some false, state)
  | some tab =>
    match tab.m_layout_tree, tab.m_active with
    | some tree, some active =>
      match event.direction with
      | none => (some false, state)
      | some direction =>
        let range :=
          match event.range with
          | none => none
          | some x =>
            (tree.find_pane (some active)).map (fun entry =>
              navigate_override_range direction entry x)
        ((tab.navigate seamless_navigate direction event.wrap_mode event.id range
            seamless_navigate_mode false).1,
          { state with
            m_active_tab :=
              some
                (tab.navigate seamless_navigate direction event.wrap_mode event.id range
                  seamless_navigate_mode false).2 })
    | _, _ => (some false, state)

/-- The handlers of the input thread over the layout state: `Tab::navigate` on the active tab
for Enter and Navigate events. The handlers of key, mouse, focus and paste events and the
results of `Pane::seamless_navigate` stay parameters. -/
def layout_handlers (seamless_navigate : Nat → terminal.OSC8671 → Bool)
    (handle_event : Event → InputThread LayoutState → InputThread LayoutState) :
    Handlers LayoutState :=
  { handle_event := handle_event
    enter := LayoutState.enter seamless_navigate
    navigate := LayoutState.navigate seamless_navigate }

/-! ## Vocabulary of the statements on pane navigation -/

/-- The origin of an entry on the perpendicular axis of a direction: its row for Left and Right,
its column for Up and Down. -/
def perpendicular_origin (direction : NavigateDirection) (entry : LayoutEntry) : Nat :=
  match direction with
  | NavigateDirection.Left => entry.row
  | NavigateDirection.Right => entry.row
  | NavigateDirection.Up => entry.col
  | NavigateDirection.Down => entry.col

/-- The extent of an entry on the perpendicular axis of a direction: its row count for Left and
Right, its column count for Up and Down. -/
def perpendicular_extent (direction : NavigateDirection) (entry : LayoutEntry) : Nat :=
  match direction with
  | NavigateDirection.Left => entry.size.rows
  | NavigateDirection.Right => entry.size.rows
  | NavigateDirection.Up => entry.size.cols
  | NavigateDirection.Down => entry.size.cols

/-- The calls made on panes while a tab went from the state `before` to the state `after`. -/
def Tab.calls_since (before after : Tab) : List (Nat × PaneCall) :=
  after.pane_calls.drop before.pane_calls.length

/-- The tab with another list of calls made on panes. -/
def Tab.with_calls (calls : List (Nat × PaneCall)) (self : Tab) : Tab :=
  { self with pane_calls := calls }

/-- A layout tree in which every pane has one entry, and every entry lies within the range of
`u32` coordinates. -/
def LayoutNode.well_formed (tree : LayoutNode) : Prop :=
  (tree.entries.map LayoutEntry.pane).Nodup ∧
    ∀ e ∈ tree.entries, e.row + e.size.rows < 4294967296 ∧ e.col + e.size.cols < 4294967296

instance (tree : LayoutNode) : Decidable tree.well_formed := by
  unfold LayoutNode.well_formed
  exact inferInstance

/-- A call of `Pane::seamless_navigate` with a message of the given type. -/
def PaneCall.is_message (type : SeamlessNavigationRequestType) (call : PaneCall) : Bool :=
  match call with
  | PaneCall.seamless_navigate osc_8671 => decide (osc_8671.type = type)
  | _ => false

/-- A tab of 21 rows and 81 columns with three panes: pane 1 at the top left, pane 2 below it
and pane 3 on the right over the full height, with one divider row and one divider column in
between. Pane 2 is the active pane and the first pane of the recency list. -/
def three_pane_tab : Tab :=
  { m_size := { rows := 21, cols := 81 }
    m_layout_tree :=
      some
        { entries :=
            [ { row := 0, col := 0, size := { rows := 10, cols := 40 }, pane := 1 },
              { row := 11, col := 0, size := { rows := 10, cols := 40 }, pane := 2 },
              { row := 0, col := 41, size := { rows := 21, cols := 40 }, pane := 3 } ] }
    m_panes_ordered_by_recency := [2, 1, 3]
    m_is_active := true
    m_active := some 2 }

/-- The layout tree of `three_pane_tab`. -/
def three_pane_tree : LayoutNode :=
  { entries :=
      [ { row := 0, col := 0, size := { rows := 10, cols := 40 }, pane := 1 },
        { row := 11, col := 0, size := { rows := 10, cols := 40 }, pane := 2 },
        { row := 0, col := 41, size := { rows := 21, cols := 40 }, pane := 3 } ] }

/-- The entry of pane 2 in `three_pane_tree`. -/
def three_pane_active_entry : LayoutEntry :=
  { row := 11, col := 0, size := { rows := 10, cols := 40 }, pane := 2 }

/-- The tab `three_pane_tab` with pane 3, the pane on the right, as the active pane and the
first pane of the recency list. -/
def three_pane_tab_right : Tab :=
  { three_pane_tab with m_panes_ordered_by_recency := [3, 2, 1], m_active := some 3 }

/-- The entry of pane 3 in `three_pane_tree`. -/
def three_pane_right_entry : LayoutEntry :=
  { row := 0, col := 41, size := { rows := 21, cols := 40 }, pane := 3 }

/-- An input thread whose active tab is `three_pane_tab_right`. -/
def three_pane_thread : InputThread LayoutState :=
  { m_layout_state :=
      { m_size := { rows := 21, cols := 81 }, m_active_tab := some three_pane_tab_right } }

/-- Handlers of key, mouse, focus and paste events that do nothing. -/
def no_key_binds : Event → InputThread LayoutState → InputThread LayoutState :=
  fun _ self => self

/-- A tab of 21 rows and 81 columns with the single pane 1, which is the active pane. -/
def single_pane_tab : Tab :=
  { m_size := { rows := 21, cols := 81 }
    m_layout_tree :=
      some { entries := [{ row := 0, col := 0, size := { rows := 21, cols := 81 }, pane := 1 }] }
    m_panes_ordered_by_recency := [1]
    m_is_active := true
    m_active := some 1 }

/-- The layout tree of `single_pane_tab`. -/
def single_pane_tree : LayoutNode :=
  { entries := [{ row := 0, col := 0, size := { rows := 21, cols := 81 }, pane := 1 }] }

/-- The entry of pane 1 in `single_pane_tree`. -/
def single_pane_entry : LayoutEntry :=
  { row := 0, col := 0, size := { rows := 21, cols := 81 }, pane := 1 }

/-- A pane that accepts no OSC 8671 message: it is not registered for seamless navigation. -/
def no_pane_accepts : Nat → terminal.OSC8671 → Bool := fun _ _ => false

/-- Panes that accept every OSC 8671 message. -/
def every_pane_accepts : Nat → terminal.OSC8671 → Bool := fun _ _ => true

/-! ## Removing panes, and the vocabulary of the statements on the geometry of navigation -/

/-- The function `Tab::remove_pane` of `tab.cpp` (lines 45-73) for a pane that is not the popup
(the popup is not modelled): the new state; the box that is returned is not modelled.
`candidates.front().value_or(nullptr)` is the first pane of the recency list, if any.
Modelled from the spec: `LayoutGroup::remove_pane` (`ttx/layout.h` is not under src/) takes the
entries of the pane out of what `m_layout_root` lays out. -/
def Tab.remove_pane (pane : Option Nat) (self : Tab) : Tab :=
  let self :=
    if self.m_full_screen_pane = pane then { self with m_full_screen_pane := none } else self
  let self :=
    match pane with
    | some p =>
      { self with
        m_panes_ordered_by_recency :=
          self.m_panes_ordered_by_recency.filter (fun q => decide (q ≠ p)) }
    | none => self
  let self :=
    if self.m_active = pane then
      (self.set_active self.m_panes_ordered_by_recency.head?).2
    else self
  { self with
    m_layout_root :=
      { entries := self.m_layout_root.entries.filter (fun e => decide (some e.pane ≠ pane)) } }

/-- The invariant of the recency list: it contains no pane twice, and when the tab has an active
pane, this pane is the first pane of the list. -/
def Tab.recency_invariant (self : Tab) : Prop :=
  self.m_panes_ordered_by_recency.Nodup ∧
    (self.m_active = none ∨ self.m_panes_ordered_by_recency.head? = self.m_active)

instance (self : Tab) : Decidable self.recency_invariant := by
  unfold Tab.recency_invariant
  exact inferInstance

/-- The probe coordinate of a move over the integers: for Left the column `A.col - 2`, or the
last column `width - 1` when the move wraps; for Right the column `A.col + A.width + 1`, or
column 0 when the move wraps; for Up and Down the same with rows and the height. -/
def probe_coordinate (direction : NavigateDirection) (wraps : Bool) (entry : LayoutEntry)
    (size : Size) : Nat :=
  match direction with
  | NavigateDirection.Left => if wraps then size.cols - 1 else entry.col - 2
  | NavigateDirection.Right => if wraps then 0 else entry.col + entry.size.cols + 1
  | NavigateDirection.Up => if wraps then size.rows - 1 else entry.row - 2
  | NavigateDirection.Down => if wraps then 0 else entry.row + entry.size.rows + 1

/-- The span of a hit test on the perpendicular axis: from the start of the override range, or
the origin of the entry, up to and without the end of the override range, or the origin of the
entry plus its extent. -/
def probe_span (direction : NavigateDirection) (override_range : Option (Nat × Nat))
    (entry : LayoutEntry) : Nat × Nat :=
  ((override_range.map Prod.fst).getD (perpendicular_origin direction entry),
    (override_range.map Prod.snd).getD
      (perpendicular_origin direction entry + perpendicular_extent direction entry))

/-- The hit test along the probe line of a direction: a vertical line for Left and Right, a
horizontal line for Up and Down. -/
def LayoutNode.hit_test_line (tree : LayoutNode) (direction : NavigateDirection)
    (coordinate span_start span_end : Nat) : List LayoutEntry :=
  match direction with
  | NavigateDirection.Left => tree.hit_test_vertical_line coordinate span_start span_end
  | NavigateDirection.Right => tree.hit_test_vertical_line coordinate span_start span_end
  | NavigateDirection.Up => tree.hit_test_horizontal_line coordinate span_start span_end
  | NavigateDirection.Down => tree.hit_test_horizontal_line coordinate span_start span_end

/-- A layout of panes that do not overlap and are separated by divider cells: no entry is empty,
and two entries are apart by at least one cell, in rows or in columns. -/
def LayoutNode.separated (tree : LayoutNode) : Prop :=
  (∀ e ∈ tree.entries, 1 ≤ e.size.rows ∧ 1 ≤ e.size.cols) ∧
    ∀ e ∈ tree.entries, ∀ e' ∈ tree.entries, e ≠ e' →
      e.col + e.size.cols < e'.col ∨ e'.col + e'.size.cols < e.col ∨
        e.row + e.size.rows < e'.row ∨ e'.row + e'.size.rows < e.row

instance (tree : LayoutNode) : Decidable tree.separated := by
  unfold LayoutNode.separated
  exact inferInstance

/-- A tab of 21 rows and 81 columns with pane 1 over the columns 0 to 78, a divider in column
79, and pane 2 in column 80; pane 1 is the active pane. -/
def narrow_pane_tab : Tab :=
  { m_size := { rows := 21, cols := 81 }
    m_layout_tree :=
      some
        { entries :=
            [ { row := 0, col := 0, size := { rows := 21, cols := 79 }, pane := 1 },
              { row := 0, col := 80, size := { rows := 21, cols := 1 }, pane := 2 } ] }
    m_panes_ordered_by_recency := [1, 2]
    m_is_active := true
    m_active := some 1 }

/-- The entry of pane 1 in `narrow_pane_tab`. -/
def narrow_pane_entry : LayoutEntry :=
  { row := 0, col := 0, size := { rows := 21, cols := 79 }, pane := 1 }

/-- The mirror image of `narrow_pane_tab`: pane 2 in column 0, a divider in column 1, and pane 1
over the columns 2 to 80; pane 1 is the active pane. -/
def narrow_left_pane_tab : Tab :=
  { m_size := { rows := 21, cols := 81 }
    m_layout_tree :=
      some
        { entries :=
            [ { row := 0, col := 2, size := { rows := 21, cols := 79 }, pane := 1 },
              { row := 0, col := 0, size := { rows := 21, cols := 1 }, pane := 2 } ] }
    m_panes_ordered_by_recency := [1, 2]
    m_is_active := true
    m_active := some 1 }

/-- The entry of pane 1 in `narrow_left_pane_tab`. -/
def narrow_left_pane_entry : LayoutEntry :=
  { row := 0, col := 2, size := { rows := 21, cols := 79 }, pane := 1 }

end ttx

namespace ttx.terminal

/-! ## Lemmas on the library primitives and on the codec -/

theorem split_pieces_ne_nil (c : Char) (s : List Char) : split_pieces c s ≠ [] := by
  induction s with
  | nil => simp [split_pieces]
  | cons x xs ih =>
    unfold split_pieces
    split_ifs with h
    · simp
    · cases hsp : split_pieces c xs <;> simp

theorem split_pieces_append (c : Char) (a b : List Char) (h : c ∉ a) :
    split_pieces c (a ++ c :: b) = a :: split_pieces c b := by
  induction a with
  | nil => simp [split_pieces]
  | cons x xs ih =>
    have hx : x ≠ c := fun e => h (by simp [e])
    have hxs : c ∉ xs := fun e => h (by simp [e])
    simp [split_pieces, hx, ih hxs]

theorem split_pieces_of_not_mem (c : Char) (a : List Char) (h : c ∉ a) :
    split_pieces c a = [a] := by
  induction a with
  | nil => simp [split_pieces]
  | cons x xs ih =>
    have hx : x ≠ c := fun e => h (by simp [e])
    have hxs : c ∉ xs := fun e => h (by simp [e])
    simp [split_pieces, hx, ih hxs]

theorem not_mem_of_mem_split_pieces (c : Char) (s : List Char) :
    ∀ p ∈ split_pieces c s, c ∉ p := by
  induction s with
  | nil => simp [split_pieces]
  | cons x xs ih =>
    intro p hp
    unfold split_pieces at hp
    split_ifs at hp with h
    · rcases List.mem_cons.1 hp with rfl | hp
      · simp
      · exact ih p hp
    · cases hsp : split_pieces c xs with
      | nil => exact absurd hsp (split_pieces_ne_nil c xs)
      | cons q qs =>
        rw [hsp] at hp ih
        rcases List.mem_cons.1 hp with rfl | hp
        · intro hc
          rcases List.mem_cons.1 hc with e | hc
          · exact h e.symm
          · exact ih q (by simp) hc
        · exact ih p (by simp [hp])

theorem not_mem_of_mem_split (c : Char) (s p : List Char) (hp : p ∈ split c s) : c ∉ p := by
  unfold split at hp
  split_ifs at hp with h
  · simp at hp
  · exact not_mem_of_mem_split_pieces c s p hp

theorem find_split_append (c : Char) (k v : List Char) (h : c ∉ k) :
    find_split c (k ++ c :: v) = some (k, v) := by
  induction k with
  | nil => simp [find_split]
  | cons x xs ih =>
    have hx : x ≠ c := fun e => h (by simp [e])
    have hxs : c ∉ xs := fun e => h (by simp [e])
    simp [find_split, hx, ih hxs]

theorem find_split_some (c : Char) (s k v : List Char) (h : find_split c s = some (k, v)) :
    s = k ++ c :: v ∧ c ∉ k := by
  induction s generalizing k with
  | nil => simp [find_split] at h
  | cons x xs ih =>
    unfold find_split at h
    split_ifs at h with hx
    · simp at h
      obtain ⟨rfl, rfl⟩ := h
      simp [hx]
    · cases hf : find_split c xs with
      | none => simp [hf] at h
      | some kv =>
        obtain ⟨k', v'⟩ := kv
        simp [hf] at h
        obtain ⟨rfl, rfl⟩ := h
        obtain ⟨e, hk⟩ := ih k' hf
        refine ⟨by simp [e], ?_⟩
        intro hc
        rcases List.mem_cons.1 hc with e' | hc
        · exact hx e'.symm
        · exact hk hc

theorem find_split_sub (c : Char) (s k v : List Char) (h : find_split c s = some (k, v)) :
    ∀ x ∈ v, x ∈ s := by
  obtain ⟨e, _⟩ := find_split_some c s k v h
  intro x hx
  simp [e, hx]

theorem digit_value_digit_char (d : Nat) (h : d < 10) : digit_value (digit_char d) = some d := by
  interval_cases d <;> decide

theorem digit_value_some_iff (c : Char) (d : Nat) (h : digit_value c = some d) :
    48 ≤ c.toNat ∧ c.toNat ≤ 57 ∧ d = c.toNat - 48 := by
  unfold digit_value at h
  split_ifs at h with hc
  simp at h
  exact ⟨hc.1, hc.2, h.symm⟩

theorem present_digits_eq (n : Nat) :
    ∀ fuel acc, n < fuel → present_digits fuel n acc = present_u32 n ++ acc := by
  induction n using Nat.strong_induction_on with
  | _ n ih =>
    intro fuel acc hf
    obtain ⟨f, rfl⟩ : ∃ f, fuel = f + 1 := ⟨fuel - 1, by omega⟩
    by_cases h0 : n / 10 = 0
    · simp [present_u32, present_digits, h0]
    · have hlt : n / 10 < n := by omega
      have h1 := ih (n / 10) hlt f (digit_char (n % 10) :: acc) (by omega)
      have h2 := ih (n / 10) hlt n [digit_char (n % 10)] hlt
      simp only [present_u32, present_digits, h0, if_false] at h1 h2 ⊢
      rw [h1, h2]
      simp

theorem present_u32_step (n : Nat) :
    present_u32 n =
      if n / 10 = 0 then [digit_char (n % 10)]
      else present_u32 (n / 10) ++ [digit_char (n % 10)] := by
  by_cases h0 : n / 10 = 0
  · simp [present_u32, present_digits, h0]
  · have hlt : n / 10 < n := by omega
    have h2 := present_digits_eq (n / 10) n [digit_char (n % 10)] hlt
    simp only [h0, if_false]
    rw [← h2]
    simp [present_u32, present_digits, h0]

theorem digits_value_append (a : Nat) (xs ys : List Char) :
    digits_value a (xs ++ ys) =
      match digits_value a xs with
      | none => none
      | some v => digits_value v ys := by
  induction xs generalizing a with
  | nil => simp [digits_value]
  | cons x xs ih =>
    simp only [List.cons_append, digits_value]
    cases digit_value x with
    | none => simp
    | some d => simp [ih]

theorem digits_value_present_u32 (n : Nat) : digits_value 0 (present_u32 n) = some n := by
  induction n using Nat.strong_induction_on with
  | _ n ih =>
    rw [present_u32_step]
    by_cases h0 : n / 10 = 0
    · have hn : n % 10 = n := by omega
      have : n < 10 := by omega
      simp [h0, digits_value, hn, digit_value_digit_char n this]
    · have hlt : n / 10 < n := by omega
      simp only [h0, if_false, digits_value_append, ih (n / 10) hlt, digits_value]
      rw [digit_value_digit_char (n % 10) (Nat.mod_lt _ (by decide))]
      simp
      omega

theorem present_u32_ne_nil (n : Nat) : present_u32 n ≠ [] := by
  rw [present_u32_step]
  split_ifs <;> simp

theorem parse_u32_present_u32 (n : Nat) (h : n < 2 ^ 32) : parse_u32 (present_u32 n) = some n := by
  simp only [parse_u32, present_u32_ne_nil, digits_value_present_u32, if_false, h, if_true]

theorem is_digit_digit_char (d : Nat) (h : d < 10) : is_digit (digit_char d) := by
  unfold is_digit
  interval_cases d <;> decide

theorem present_u32_digits (n : Nat) : ∀ c ∈ present_u32 n, is_digit c := by
  induction n using Nat.strong_induction_on with
  | _ n ih =>
    rw [present_u32_step]
    intro c hc
    by_cases h0 : n / 10 = 0
    · simp [h0] at hc
      subst hc
      exact is_digit_digit_char _ (Nat.mod_lt _ (by decide))
    · simp [h0] at hc
      rcases hc with hc | rfl
      · exact ih (n / 10) (by omega) c hc
      · exact is_digit_digit_char _ (Nat.mod_lt _ (by decide))

theorem split_pieces_join_with (c : Char) (fs : List (List Char)) (hne : fs ≠ [])
    (h : ∀ f ∈ fs, c ∉ f) : split_pieces c (join_with c fs) = fs := by
  induction fs with
  | nil => exact absurd rfl hne
  | cons f gs ih =>
    cases gs with
    | nil => simpa [join_with] using split_pieces_of_not_mem c f (h f (by simp))
    | cons g gs =>
      have h1 := ih (by simp) (fun x hx => h x (by simp [List.mem_cons.1 hx]))
      simp only [join_with]
      rw [split_pieces_append c f _ (h f (by simp)), h1]

theorem mem_join_with (c : Char) (fs : List (List Char)) (x : Char) (hx : x ∈ join_with c fs) :
    x = c ∨ ∃ f ∈ fs, x ∈ f := by
  induction fs with
  | nil => simp [join_with] at hx
  | cons f gs ih =>
    cases gs with
    | nil => exact Or.inr ⟨f, by simp, by simpa [join_with] using hx⟩
    | cons g gs =>
      simp only [join_with, List.mem_append, List.mem_cons] at hx
      rcases hx with hx | hx | hx
      · exact Or.inr ⟨f, by simp, hx⟩
      · exact Or.inl hx
      · rcases ih hx with e | ⟨f', hf', hxf⟩
        · exact Or.inl e
        · exact Or.inr ⟨f', by simp [List.mem_cons.1 hf'], hxf⟩

theorem serialize_eq_body (m : OSC8671) :
    m.serialize = osc_open ++ (body_of m ++ osc_close) := by
  obtain ⟨t, d, id, r, w, h⟩ := m
  cases w <;> cases h <;> cases id <;> cases r <;> cases d <;>
    simp [OSC8671.serialize, body_of, fields_of, join_with, osc_open, osc_close]

theorem strip_framing_serialize (m : OSC8671) : strip_framing m.serialize = body_of m := by
  rw [serialize_eq_body]
  simp [strip_framing, osc_open, osc_close]

theorem not_mem_present_u32 (n : Nat) (x : Char) (hx : ¬ is_digit x) : x ∉ present_u32 n :=
  fun h => hx (present_u32_digits n x h)

theorem type_string_chars (t : SeamlessNavigationRequestType) :
    ':' ∉ type_string t ∧ ';' ∉ type_string t := by
  cases t <;> decide

theorem direction_string_chars (d : NavigateDirection) : ';' ∉ direction_string d := by
  cases d <;> decide

theorem find_type_string (t : SeamlessNavigationRequestType) :
    type_map.find? (fun x => x.1 = type_string t) = some (type_string t, t) := by
  cases t <;> decide

theorem find_direction_string (d : NavigateDirection) :
    direction_map.find? (fun x => x.1 = direction_string d) = some (direction_string d, d) := by
  cases d <;> decide

theorem parse_field_t (st : ParsedFields) (t : SeamlessNavigationRequestType) :
    parse_field st ('t' :: '=' :: type_string t) = some { st with type := some t } := by
  have h := find_split_append '=' ['t'] (type_string t) (by decide)
  simp only [List.cons_append, List.nil_append] at h ⊢
  simp [parse_field, h, find_type_string]

theorem parse_field_w_true (st : ParsedFields) :
    parse_field st ['w', '=', 't', 'r', 'u', 'e'] =
      some { st with wrap_mode := some NavigateWrapMode.Allow } := by
  simp [parse_field, find_split]

theorem parse_field_h_true (st : ParsedFields) :
    parse_field st ['h', '=', 't', 'r', 'u', 'e'] =
      some { st with hide_cursor_on_enter := some true } := by
  simp [parse_field, find_split]

theorem parse_field_id (st : ParsedFields) (id : List Char)
    (h : size_bytes id ≤ max_id_byte_size) :
    parse_field st ('i' :: 'd' :: '=' :: id) = some { st with id := some id } := by
  have h1 := find_split_append '=' ['i', 'd'] id (by decide)
  simp only [List.cons_append, List.nil_append] at h1 ⊢
  simp [parse_field, h1, Nat.not_lt.2 h]

theorem parse_range_present (s e : Nat) (h1 : 1 ≤ s) (h2 : s ≤ e) (h3 : e < 2 ^ 32) :
    parse_range (present_u32 s ++ ',' :: present_u32 e) = some (s, e) := by
  have hc : ¬ is_digit ',' := by decide
  have hs : split ',' (present_u32 s ++ ',' :: present_u32 e) = [present_u32 s, present_u32 e] := by
    unfold split
    rw [if_neg (by simp)]
    rw [split_pieces_append _ _ _ (not_mem_present_u32 s _ hc),
      split_pieces_of_not_mem _ _ (not_mem_present_u32 e _ hc)]
  unfold parse_range
  rw [hs]
  simp only [parse_u32_present_u32 s (by omega), parse_u32_present_u32 e h3]
  rw [if_neg (by omega), if_neg (by omega)]

theorem parse_field_r (st : ParsedFields) (s e : Nat) (h1 : 1 ≤ s) (h2 : s ≤ e)
    (h3 : e < 2 ^ 32) :
    parse_field st ('r' :: '=' :: (present_u32 s ++ ',' :: present_u32 e)) =
      some { st with range := some (s, e) } := by
  have h := find_split_append '=' ['r'] (present_u32 s ++ ',' :: present_u32 e) (by decide)
  simp only [List.cons_append, List.nil_append, List.append_assoc] at h ⊢
  simp [parse_field, h, parse_range_present s e h1 h2 h3]

theorem parse_fields_fields_of (m : OSC8671) (hm : well_formed m) :
    parse_fields {} (fields_of m) = some (fields_state m) := by
  obtain ⟨t, d, id, r, w, h⟩ := m
  obtain ⟨-, hid, hr⟩ := hm
  cases id with
  | none =>
    cases r with
    | none =>
      cases w <;> cases h <;>
        simp [fields_of, fields_state, parse_fields, parse_field_t, parse_field_w_true,
          parse_field_h_true]
    | some r =>
      obtain ⟨r1, r2, r3⟩ := hr r rfl
      cases w <;> cases h <;>
        simp [fields_of, fields_state, parse_fields, parse_field_t, parse_field_w_true,
          parse_field_h_true, parse_field_r _ _ _ r1 r2 r3]
  | some id =>
    obtain ⟨i1, -, -⟩ := hid id rfl
    cases r with
    | none =>
      cases w <;> cases h <;>
        simp [fields_of, fields_state, parse_fields, parse_field_t, parse_field_w_true,
          parse_field_h_true, parse_field_id _ _ i1]
    | some r =>
      obtain ⟨r1, r2, r3⟩ := hr r rfl
      cases w <;> cases h <;>
        simp [fields_of, fields_state, parse_fields, parse_field_t, parse_field_w_true,
          parse_field_h_true, parse_field_id _ _ i1, parse_field_r _ _ _ r1 r2 r3]

theorem fields_of_chars (m : OSC8671) (hm : well_formed m) :
    ∀ f ∈ fields_of m, ':' ∉ f ∧ ';' ∉ f := by
  obtain ⟨t, d, id, r, w, h⟩ := m
  obtain ⟨-, hid, -⟩ := hm
  have ht := type_string_chars t
  have hc1 : ¬ is_digit ':' := by decide
  have hc2 : ¬ is_digit ';' := by decide
  have hp1 := fun n => not_mem_present_u32 n _ hc1
  have hp2 := fun n => not_mem_present_u32 n _ hc2
  intro f hf
  simp only [fields_of, List.mem_cons, List.mem_append] at hf
  rcases hf with rfl | ((hf | hf) | hf) | hf
  · simp [ht.1, ht.2]
  · split_ifs at hf
    · simp at hf
      subst hf
      decide
    · simp at hf
  · split_ifs at hf
    · simp at hf
      subst hf
      decide
    · simp at hf
  · cases id with
    | none => simp at hf
    | some id =>
      obtain ⟨-, i2, i3⟩ := hid id rfl
      simp at hf
      subst hf
      simp [i2, i3]
  · cases r with
    | none => simp at hf
    | some r =>
      simp at hf
      subst hf
      simp [hp1, hp2]

theorem join_fields_of_ne_nil (m : OSC8671) : join_with ':' (fields_of m) ≠ [] := by
  unfold fields_of
  generalize ((if m.wrap_mode = NavigateWrapMode.Allow then [[ 'w', '=', 't', 'r', 'u', 'e']] else []) ++
     (if m.hide_cursor_on_enter then [[ 'h', '=', 't', 'r', 'u', 'e']] else []) ++
     (match m.id with
      | some id => [[ 'i', 'd', '='] ++ id]
      | none => []) ++
     (match m.range with
      | some r => [[ 'r', '='] ++ present_u32 r.1 ++ ',' :: present_u32 r.2]
      | none => [])) = tl
  cases tl <;> simp [join_with]

theorem split_colon_fields_of (m : OSC8671) (hm : well_formed m) :
    split ':' (join_with ':' (fields_of m)) = fields_of m := by
  unfold split
  rw [if_neg (join_fields_of_ne_nil m)]
  exact split_pieces_join_with ':' (fields_of m) (by simp [fields_of])
    (fun f hf => (fields_of_chars m hm f hf).1)

theorem split_semicolon_body_of (m : OSC8671) (hm : well_formed m) :
    split ';' (body_of m) =
      join_with ':' (fields_of m) ::
        (match m.direction with
         | some d => [direction_string d]
         | none => []) := by
  have hs : ';' ∉ join_with ':' (fields_of m) := by
    intro h
    rcases mem_join_with _ _ _ h with e | ⟨f, hf, hx⟩
    · exact absurd e (by decide)
    · exact (fields_of_chars m hm f hf).2 hx
  have hne := join_fields_of_ne_nil m
  unfold split body_of
  cases hd : m.direction with
  | none =>
    simp only [List.append_nil]
    rw [if_neg hne, split_pieces_of_not_mem _ _ hs]
  | some d =>
    simp only
    rw [if_neg (by simp), split_pieces_append _ _ _ hs,
      split_pieces_of_not_mem _ _ (direction_string_chars d)]

theorem parse_finish_fields_state (m : OSC8671) (hm : matrix_ok m) :
    parse_finish (fields_state m)
      (match m.direction with
       | some d => [direction_string d]
       | none => []) = some m := by
  obtain ⟨t, d, id, r, w, h⟩ := m
  obtain ⟨h1, h2, h3, h4⟩ := hm
  simp only at h1 h2 h3 h4
  cases t <;> cases d <;> cases w <;> cases h <;> cases r <;>
    simp_all [parse_finish, check_fields, parse_direction, fields_state, find_direction_string]

/-- Parsing what `serialize` writes between the framing gives the message back, for every
message within the domain of the wire format. -/
theorem parse_body_of (m : OSC8671) (hm : well_formed m) : OSC8671.parse (body_of m) = some m := by
  have hne : body_of m ≠ [] := by
    unfold body_of
    simp [join_fields_of_ne_nil m]
  unfold OSC8671.parse
  rw [if_neg hne, split_semicolon_body_of m hm]
  simp only
  have hlen : ¬ (join_with ':' (fields_of m) ::
      (match m.direction with
       | some d => [direction_string d]
       | none => [])).length > 2 := by
    cases m.direction <;> simp
  rw [if_neg hlen, split_colon_fields_of m hm, parse_fields_fields_of m hm]
  exact parse_finish_fields_state m hm.1

/-! ### What a successful iteration of the field loop did -/

theorem mem_of_mem_split_pieces (c : Char) (s : List Char) :
    ∀ p ∈ split_pieces c s, ∀ x ∈ p, x ∈ s := by
  induction s with
  | nil => simp [split_pieces]
  | cons y ys ih =>
    intro p hp x hx
    unfold split_pieces at hp
    split_ifs at hp with h
    · rcases List.mem_cons.1 hp with rfl | hp
      · simp at hx
      · exact List.mem_cons_of_mem _ (ih p hp x hx)
    · cases hsp : split_pieces c ys with
      | nil => exact absurd hsp (split_pieces_ne_nil c ys)
      | cons q qs =>
        rw [hsp] at hp ih
        rcases List.mem_cons.1 hp with rfl | hp
        · rcases List.mem_cons.1 hx with e | hx
          · simp [e]
          · exact List.mem_cons_of_mem _ (ih q (by simp) x hx)
        · exact List.mem_cons_of_mem _ (ih p (by simp [hp]) x hx)

theorem mem_of_mem_split (c : Char) (s p : List Char) (hp : p ∈ split c s) :
    ∀ x ∈ p, x ∈ s := by
  unfold split at hp
  split_ifs at hp with h
  · simp at hp
  · exact mem_of_mem_split_pieces c s p hp

theorem split_cons_ne_nil (c : Char) (s seg0 : List Char) (rest : List (List Char))
    (h : split c s = seg0 :: rest) : s ≠ [] := by
  rintro rfl
  simp [split] at h

theorem parse_u32_lt (s : List Char) (n : Nat) (h : parse_u32 s = some n) : n < 2 ^ 32 := by
  unfold parse_u32 at h
  split_ifs at h with h0
  cases hd : digits_value 0 s with
  | none => simp [hd] at h
  | some v =>
    simp only [hd] at h
    split_ifs at h with hv
    simp at h
    omega

theorem parse_range_some (v : List Char) (r : Nat × Nat) (h : parse_range v = some r) :
    1 ≤ r.1 ∧ r.1 ≤ r.2 ∧ r.2 < 2 ^ 32 ∧
      ∃ a b, split ',' v = [a, b] ∧ parse_u32 a = some r.1 ∧ parse_u32 b = some r.2 := by
  unfold parse_range at h
  split at h
  · rename_i v0 v1 hs
    split at h
    · rename_i s e hs0 he0
      split_ifs at h with h1 h2
      simp at h
      subst h
      have := parse_u32_lt _ _ he0
      exact ⟨by simp at h1 ⊢; omega, by simp at h2 ⊢; omega, this, v0, v1, hs, hs0, he0⟩
    · simp at h
  · simp at h

/-- What one iteration of the field loop does when it does not fail. -/
theorem parse_field_some (st st' : ParsedFields) (f : List Char)
    (h : parse_field st f = some st') :
    ∃ k v, find_split '=' f = some (k, v) ∧
      ((k = ['w'] ∧ v = ['t', 'r', 'u', 'e'] ∧
          st' = { st with wrap_mode := some NavigateWrapMode.Allow }) ∨
       (k = ['w'] ∧ v = ['f', 'a', 'l', 's', 'e'] ∧
          st' = { st with wrap_mode := some NavigateWrapMode.Disallow }) ∨
       (k = ['h'] ∧ v = ['t', 'r', 'u', 'e'] ∧
          st' = { st with hide_cursor_on_enter := some true }) ∨
       (k = ['h'] ∧ v = ['f', 'a', 'l', 's', 'e'] ∧
          st' = { st with hide_cursor_on_enter := some false }) ∨
       (k = ['t'] ∧ ∃ x, type_map.find? (fun x => x.1 = v) = some x ∧
          st' = { st with type := some x.2 }) ∨
       (k = ['i', 'd'] ∧ size_bytes v ≤ max_id_byte_size ∧ st' = { st with id := some v }) ∨
       (k = ['r'] ∧ ∃ r, parse_range v = some r ∧ st' = { st with range := some r })) := by
  unfold parse_field at h
  cases hf : find_split '=' f with
  | none => simp [hf] at h
  | some kv =>
    obtain ⟨k, v⟩ := kv
    refine ⟨k, v, rfl, ?_⟩
    simp only [hf] at h
    split_ifs at h with h1 h2 h3 h4 h5 h6 h7 h8 h9 h10
    · simp at h1 h2 h
      exact Or.inl ⟨h1, h2, h.symm⟩
    · simp at h1 h3 h
      exact Or.inr (Or.inl ⟨h1, h3, h.symm⟩)
    · simp at h4 h5 h
      exact Or.inr (Or.inr (Or.inl ⟨h4, h5, h.symm⟩))
    · simp at h4 h6 h
      exact Or.inr (Or.inr (Or.inr (Or.inl ⟨h4, h6, h.symm⟩)))
    · simp at h7
      cases hx : type_map.find? (fun x => x.1 = v) with
      | none => simp [hx] at h
      | some x =>
        simp [hx] at h
        exact Or.inr (Or.inr (Or.inr (Or.inr (Or.inl ⟨h7, x, rfl, h.symm⟩))))
    · simp at h8 h
      exact Or.inr (Or.inr (Or.inr (Or.inr (Or.inr (Or.inl ⟨h8, Nat.not_lt.1 h9, h.symm⟩)))))
    · simp at h10
      cases hr : parse_range v with
      | none => simp [hr] at h
      | some r =>
        simp [hr] at h
        exact Or.inr (Or.inr (Or.inr (Or.inr (Or.inr (Or.inr ⟨h10, r, rfl, h.symm⟩)))))

/-! ### Accepting runs of `parse` and the invariant of the field loop -/

theorem parse_field_state_ok (st st' : ParsedFields) (f : List Char) (hst : state_ok st)
    (h1 : ':' ∉ f) (h2 : ';' ∉ f) (h : parse_field st f = some st') : state_ok st' := by
  obtain ⟨k, v, hf, hc⟩ := parse_field_some st st' f h
  obtain ⟨hid, hr⟩ := hst
  have hsub := find_split_sub _ _ _ _ hf
  rcases hc with ⟨-, -, rfl⟩ | ⟨-, -, rfl⟩ | ⟨-, -, rfl⟩ | ⟨-, -, rfl⟩ | ⟨-, x, -, rfl⟩ |
    ⟨-, hs, rfl⟩ | ⟨-, r, hr', rfl⟩
  · exact ⟨hid, hr⟩
  · exact ⟨hid, hr⟩
  · exact ⟨hid, hr⟩
  · exact ⟨hid, hr⟩
  · exact ⟨hid, hr⟩
  · refine ⟨?_, hr⟩
    intro id hid'
    simp only [Option.some.injEq] at hid'
    subst hid'
    exact ⟨hs, fun hx => h1 (hsub _ hx), fun hx => h2 (hsub _ hx)⟩
  · refine ⟨hid, ?_⟩
    intro r' hr''
    simp only [Option.some.injEq] at hr''
    subst hr''
    obtain ⟨a, b, c, -⟩ := parse_range_some v r hr'
    exact ⟨a, b, c⟩

theorem parse_fields_state_ok (fs : List (List Char)) :
    ∀ (st st' : ParsedFields), state_ok st → (∀ f ∈ fs, ':' ∉ f ∧ ';' ∉ f) →
      parse_fields st fs = some st' → state_ok st' := by
  induction fs with
  | nil =>
    intro st st' hst _ h
    simp [parse_fields] at h
    subst h
    exact hst
  | cons f fs ih =>
    intro st st' hst hfs h
    unfold parse_fields at h
    cases hp : parse_field st f with
    | none => simp [hp] at h
    | some st1 =>
      simp only [hp] at h
      have h1 := hfs f (by simp)
      exact ih st1 st' (parse_field_state_ok st st1 f hst h1.1 h1.2 hp)
        (fun g hg => hfs g (by simp [hg])) h

/-- The function `parse` on a payload whose split into segments is known. -/
theorem parse_of_split (p seg0 : List Char) (rest : List (List Char))
    (h : split ';' p = seg0 :: rest) :
    OSC8671.parse p =
      if rest.length > 1 then none
      else
        match parse_fields {} (split ':' seg0) with
        | none => none
        | some st => parse_finish st rest := by
  have hne := split_cons_ne_nil _ _ _ _ h
  unfold OSC8671.parse
  rw [if_neg hne, h]
  simp only [List.length_cons]
  by_cases hl : rest.length > 1
  · rw [if_pos hl, if_pos (by omega)]
  · rw [if_neg hl, if_neg (by omega)]

/-- The steps of an accepting run of `parse`. -/
theorem parse_some (p : List Char) (m : OSC8671) (h : OSC8671.parse p = some m) :
    ∃ seg0 rest st, split ';' p = seg0 :: rest ∧ rest.length ≤ 1 ∧
      parse_fields {} (split ':' seg0) = some st ∧ parse_finish st rest = some m := by
  have hne : p ≠ [] := by
    rintro rfl
    simp [OSC8671.parse] at h
  cases hs : split ';' p with
  | nil =>
    unfold split at hs
    rw [if_neg hne] at hs
    exact absurd hs (split_pieces_ne_nil _ _)
  | cons seg0 rest =>
    rw [parse_of_split p seg0 rest hs] at h
    split_ifs at h with hl
    cases hp : parse_fields {} (split ':' seg0) with
    | none => simp [hp] at h
    | some st =>
      simp only [hp] at h
      exact ⟨seg0, rest, st, rfl, by omega, hp, h⟩

theorem check_fields_some (st : ParsedFields) (t : SeamlessNavigationRequestType)
    (h : check_fields st = some t) :
    st.type = some t ∧
      (st.range.isSome → (t = SeamlessNavigationRequestType.Navigate ∨
        t = SeamlessNavigationRequestType.Enter)) ∧
      (st.hide_cursor_on_enter.isSome → t = SeamlessNavigationRequestType.Register) ∧
      (st.wrap_mode.isSome → (t = SeamlessNavigationRequestType.Navigate ∨
        t = SeamlessNavigationRequestType.Acknowledge)) := by
  unfold check_fields at h
  cases ht : st.type with
  | none => simp [ht] at h
  | some t' =>
    simp only [ht] at h
    split_ifs at h with h1 h2 h3
    simp only [Option.some.injEq] at h
    subst h
    refine ⟨rfl, ?_, ?_, ?_⟩
    · intro hr
      by_contra hc
      exact h1 ⟨fun e => hc (Or.inr e), fun e => hc (Or.inl e), hr⟩
    · intro hh
      by_contra hc
      exact h2 ⟨hc, hh⟩
    · intro hw
      by_contra hc
      exact h3 ⟨fun e => hc (Or.inl e), fun e => hc (Or.inr e), hw⟩

theorem parse_direction_some (t : SeamlessNavigationRequestType) (rest : List (List Char))
    (d : Option NavigateDirection) (h : parse_direction t rest = some d) :
    ((t = SeamlessNavigationRequestType.Navigate ∨ t = SeamlessNavigationRequestType.Acknowledge ∨
        t = SeamlessNavigationRequestType.Enter) ∧
      ∃ seg1 tl x, rest = seg1 :: tl ∧ direction_map.find? (fun x => x.1 = seg1) = some x ∧
        d = some x.2) ∨
    (¬ (t = SeamlessNavigationRequestType.Navigate ∨ t = SeamlessNavigationRequestType.Acknowledge ∨
        t = SeamlessNavigationRequestType.Enter) ∧ rest = [] ∧ d = none) := by
  unfold parse_direction at h
  split_ifs at h with h1 h2
  · cases rest with
    | nil => simp at h
    | cons seg1 tl =>
      simp only at h
      cases hx : direction_map.find? (fun x => x.1 = seg1) with
      | none => simp [hx] at h
      | some x =>
        simp [hx] at h
        exact Or.inl ⟨h1, seg1, tl, x, rfl, hx, h.symm⟩
  · simp at h
    exact Or.inr ⟨h1, by cases rest <;> simp_all, h.symm⟩

theorem parse_finish_some (st : ParsedFields) (rest : List (List Char)) (m : OSC8671)
    (h : parse_finish st rest = some m) :
    check_fields st = some m.type ∧ parse_direction m.type rest = some m.direction ∧
      m.id = st.id ∧ m.range = st.range ∧
      m.wrap_mode = st.wrap_mode.getD NavigateWrapMode.Disallow ∧
      m.hide_cursor_on_enter = st.hide_cursor_on_enter.getD false := by
  unfold parse_finish at h
  cases hc : check_fields st with
  | none => simp [hc] at h
  | some t =>
    simp only [hc] at h
    cases hd : parse_direction t rest with
    | none => simp [hd] at h
    | some d =>
      simp only [hd, Option.some.injEq] at h
      subst h
      exact ⟨rfl, hd, rfl, rfl, rfl, rfl⟩

theorem parse_finish_matrix_ok (st : ParsedFields) (rest : List (List Char)) (m : OSC8671)
    (h : parse_finish st rest = some m) : matrix_ok m := by
  obtain ⟨hc, hd, -, hr, hw, hh⟩ := parse_finish_some st rest m h
  obtain ⟨-, c1, c2, c3⟩ := check_fields_some st m.type hc
  refine ⟨?_, ?_, ?_, ?_⟩
  · rcases parse_direction_some _ _ _ hd with ⟨ht, _, _, x, _, _, hx⟩ | ⟨ht, _, hx⟩
    · simp [hx, ht]
    · simp [hx, ht]
  · intro hr'
    exact c1 (hr ▸ hr')
  · intro hw'
    apply c3
    rw [hw'] at hw
    cases hs : st.wrap_mode with
    | none => simp [hs] at hw
    | some _ => rfl
  · intro hh'
    apply c2
    rw [hh'] at hh
    cases hs : st.hide_cursor_on_enter with
    | none => simp [hs] at hh
    | some _ => rfl

/-- Every message that `parse` returns is within the domain of the wire format. -/
theorem parse_well_formed (p : List Char) (m : OSC8671) (h : OSC8671.parse p = some m) :
    well_formed m := by
  obtain ⟨seg0, rest, st, hs, -, hf, hfin⟩ := parse_some p m h
  have hseg : ';' ∉ seg0 := not_mem_of_mem_split _ _ _ (by rw [hs]; simp)
  have hfs : ∀ f ∈ split ':' seg0, ':' ∉ f ∧ ';' ∉ f := fun f hf' =>
    ⟨not_mem_of_mem_split _ _ _ hf', fun hx => hseg (mem_of_mem_split _ _ _ hf' _ hx)⟩
  have hok : state_ok st :=
    parse_fields_state_ok _ {} st ⟨by simp, by simp⟩ hfs hf
  obtain ⟨-, -, hid, hr, -, -⟩ := parse_finish_some st rest m hfin
  refine ⟨parse_finish_matrix_ok st rest m hfin, ?_, ?_⟩
  · rw [hid]
    exact hok.1
  · rw [hr]
    exact hok.2

/-! ### Joining split strings, printing plain decimal numbers, table lookups -/

theorem join_with_split_pieces (c : Char) (s : List Char) :
    join_with c (split_pieces c s) = s := by
  induction s with
  | nil => simp [split_pieces, join_with]
  | cons x xs ih =>
    unfold split_pieces
    split_ifs with h
    · cases hsp : split_pieces c xs with
      | nil => exact absurd hsp (split_pieces_ne_nil c xs)
      | cons q qs =>
        rw [hsp] at ih
        simp [join_with, ih, h]
    · cases hsp : split_pieces c xs with
      | nil => exact absurd hsp (split_pieces_ne_nil c xs)
      | cons q qs =>
        rw [hsp] at ih
        cases qs with
        | nil =>
          simp only [join_with] at ih ⊢
          rw [ih]
        | cons q' qs' =>
          simp only [join_with, List.cons_append] at ih ⊢
          rw [ih]

theorem join_with_split (c : Char) (s : List Char) : join_with c (split c s) = s := by
  unfold split
  split_ifs with h
  · simp [join_with, h]
  · exact join_with_split_pieces c s

theorem digit_char_of_digit_value (c : Char) (d : Nat) (h : digit_value c = some d) :
    digit_char d = c ∧ d < 10 ∧ (c ≠ '0' → d ≠ 0) := by
  obtain ⟨h1, h2, h3⟩ := digit_value_some_iff c d h
  have e : 48 + d = c.toNat := by omega
  refine ⟨?_, by omega, ?_⟩
  · unfold digit_char
    rw [e]
    exact Char.ofNat_toNat c
  · intro hc hd
    apply hc
    have e' : c.toNat = 48 := by omega
    have := Char.ofNat_toNat c
    rw [e'] at this
    rw [← this]

theorem present_u32_of_digits (s : List Char) :
    s ≠ [] → s.head? ≠ some '0' → ∀ n, digits_value 0 s = some n →
      present_u32 n = s ∧ 1 ≤ n := by
  induction s using List.reverseRecOn with
  | nil => intro h; exact absurd rfl h
  | append_singleton s c ih =>
    intro _ hhead n hn
    rw [digits_value_append] at hn
    cases hv : digits_value 0 s with
    | none => simp [hv] at hn
    | some v =>
      simp only [hv, digits_value] at hn
      cases hd : digit_value c with
      | none => simp [hd] at hn
      | some d =>
        simp only [hd, Option.some.injEq] at hn
        obtain ⟨e1, e2, e3⟩ := digit_char_of_digit_value c d hd
        subst hn
        by_cases hs : s = []
        · subst hs
          simp [digits_value] at hv
          subst hv
          have hc : c ≠ '0' := by
            intro e
            apply hhead
            simp [e]
          have hd0 := e3 hc
          rw [present_u32_step]
          have h1 : (0 * 10 + d) / 10 = 0 := by omega
          have h2 : (0 * 10 + d) % 10 = d := by omega
          rw [if_pos h1, h2, e1]
          exact ⟨by simp, by omega⟩
        · have hhead' : s.head? ≠ some '0' := by
            intro e
            apply hhead
            cases s with
            | nil => exact absurd rfl hs
            | cons x xs => simpa using e
          obtain ⟨i1, i2⟩ := ih hs hhead' v hv
          rw [present_u32_step]
          have h1 : ¬ (v * 10 + d) / 10 = 0 := by omega
          have h2 : (v * 10 + d) % 10 = d := by omega
          have h3 : (v * 10 + d) / 10 = v := by omega
          rw [if_neg h1, h2, h3, e1, i1]
          exact ⟨rfl, by omega⟩

theorem present_u32_of_plain_decimal (s : List Char) (n : Nat) (hs : plain_decimal s)
    (h : parse_u32 s = some n) : present_u32 n = s := by
  obtain ⟨h1, -, h3⟩ := hs
  unfold parse_u32 at h
  rw [if_neg h1] at h
  cases hv : digits_value 0 s with
  | none => simp [hv] at h
  | some v =>
    simp only [hv] at h
    split_ifs at h with hlt
    simp only [Option.some.injEq] at h
    subst h
    by_cases h0 : s.head? = some '0'
    · have := h3 h0
      subst this
      have : v = 0 := by
        have h' : digits_value 0 [ '0'] = some 0 := by decide
        rw [h'] at hv
        simpa using hv.symm
      subst this
      decide
    · exact (present_u32_of_digits s h1 h0 v hv).1

theorem type_string_of_find (v : List Char) (x : List Char × SeamlessNavigationRequestType)
    (h : type_map.find? (fun x => x.1 = v) = some x) : type_string x.2 = v := by
  have h1 := List.find?_some h
  have h2 := List.mem_of_find?_eq_some h
  simp only [decide_eq_true_eq] at h1
  subst h1
  simp only [type_map, List.mem_cons, List.mem_singleton, List.not_mem_nil, or_false] at h2
  rcases h2 with rfl | rfl | rfl | rfl | rfl | rfl <;> decide

theorem direction_string_of_find (v : List Char) (x : List Char × NavigateDirection)
    (h : direction_map.find? (fun x => x.1 = v) = some x) : direction_string x.2 = v := by
  have h1 := List.find?_some h
  have h2 := List.mem_of_find?_eq_some h
  simp only [decide_eq_true_eq] at h1
  subst h1
  simp only [direction_map, List.mem_cons, List.mem_singleton, List.not_mem_nil, or_false] at h2
  rcases h2 with rfl | rfl | rfl | rfl <;> decide

/-! ### Canonical payloads -/

theorem parse_field_canonical (st st1 : ParsedFields) (f : List Char) (r : Nat)
    (hr : ∀ x, field_rank f = some x → r ≤ x) (hc : canonical_field f) (hu : unset_from r st)
    (h : parse_field st f = some st1) :
    ∃ x, field_rank f = some x ∧ unset_from (x + 1) st1 ∧
      state_fields st1 = state_fields st ++ [f] := by
  obtain ⟨k, v, hf, hcase⟩ := parse_field_some st st1 f h
  obtain ⟨hfe, -⟩ := find_split_some _ _ _ _ hf
  unfold canonical_field at hc
  rw [hf] at hc
  obtain ⟨hcw, hcr⟩ := hc
  obtain ⟨u0, u1, u2, u3, u4⟩ := hu
  rcases hcase with ⟨rfl, rfl, rfl⟩ | ⟨rfl, rfl, rfl⟩ | ⟨rfl, rfl, rfl⟩ | ⟨rfl, rfl, rfl⟩ |
    ⟨rfl, x, hx, rfl⟩ | ⟨rfl, -, rfl⟩ | ⟨rfl, r', hr', rfl⟩
  · have hrank : field_rank f = some 1 := by simp [field_rank, hf, key_rank]
    have hle := hr 1 hrank
    refine ⟨1, hrank, ⟨by omega, by omega, fun _ => u2 (by omega), fun _ => u3 (by omega),
      fun _ => u4 (by omega)⟩, ?_⟩
    simp [state_fields, u1 (by omega), u2 (by omega), u3 (by omega), u4 (by omega), hfe]
  · exact absurd (hcw (Or.inl rfl)) (by decide)
  · have hrank : field_rank f = some 2 := by simp [field_rank, hf, key_rank]
    have hle := hr 2 hrank
    refine ⟨2, hrank, ⟨by omega, by omega, by omega, fun _ => u3 (by omega),
      fun _ => u4 (by omega)⟩, ?_⟩
    simp [state_fields, u2 (by omega), u3 (by omega), u4 (by omega), hfe]
  · exact absurd (hcw (Or.inr rfl)) (by decide)
  · have hrank : field_rank f = some 0 := by simp [field_rank, hf, key_rank]
    have hle := hr 0 hrank
    refine ⟨0, hrank, ⟨by omega, fun _ => u1 (by omega), fun _ => u2 (by omega),
      fun _ => u3 (by omega), fun _ => u4 (by omega)⟩, ?_⟩
    simp [state_fields, u0 (by omega), u1 (by omega), u2 (by omega), u3 (by omega),
      u4 (by omega), hfe, type_string_of_find v x hx]
  · have hrank : field_rank f = some 3 := by simp [field_rank, hf, key_rank]
    have hle := hr 3 hrank
    refine ⟨3, hrank, ⟨by omega, by omega, by omega, by omega, fun _ => u4 (by omega)⟩, ?_⟩
    simp [state_fields, u3 (by omega), u4 (by omega), hfe]
  · have hrank : field_rank f = some 4 := by simp [field_rank, hf, key_rank]
    have hle := hr 4 hrank
    obtain ⟨-, -, -, a, b, hs, ha, hb⟩ := parse_range_some v r' hr'
    have hpl := hcr rfl
    rw [hs] at hpl
    have ea := present_u32_of_plain_decimal a _ (hpl a (by simp)) ha
    have eb := present_u32_of_plain_decimal b _ (hpl b (by simp)) hb
    have hv : v = a ++ ',' :: b := by
      have := join_with_split ',' v
      rw [hs] at this
      simpa [join_with] using this.symm
    refine ⟨4, hrank, ⟨by omega, by omega, by omega, by omega, by omega⟩, ?_⟩
    simp [state_fields, u4 (by omega), hfe, ea, eb, hv]

theorem parse_fields_canonical (fs : List (List Char)) :
    ∀ (r : Nat) (st st' : ParsedFields), (∀ x ∈ fs.filterMap field_rank, r ≤ x) →
      (fs.filterMap field_rank).Pairwise (fun a b => a < b) →
      (∀ f ∈ fs, canonical_field f) → unset_from r st → parse_fields st fs = some st' →
      state_fields st' = state_fields st ++ fs := by
  induction fs with
  | nil =>
    intro r st st' _ _ _ _ h
    simp [parse_fields] at h
    subst h
    simp
  | cons f fs ih =>
    intro r st st' hle hpw hcan hu h
    unfold parse_fields at h
    cases hp : parse_field st f with
    | none => simp [hp] at h
    | some st1 =>
      simp only [hp] at h
      obtain ⟨x, hx, hu1, hsf⟩ := parse_field_canonical st st1 f r
        (fun y hy => hle y (by simp [List.filterMap_cons, hy]))
        (hcan f (by simp)) hu hp
      rw [List.filterMap_cons, hx] at hpw
      simp only at hpw
      obtain ⟨hlt, hpw'⟩ := List.pairwise_cons.1 hpw
      have := ih (x + 1) st1 st' (fun y hy => hlt y hy) hpw'
        (fun g hg => hcan g (by simp [hg])) hu1 h
      rw [this, hsf]
      simp

theorem fields_of_eq_state_fields (st : ParsedFields) (rest : List (List Char)) (m : OSC8671)
    (h : parse_finish st rest = some m) : fields_of m = state_fields st := by
  obtain ⟨hc, -, hid, hr, hw, hh⟩ := parse_finish_some st rest m h
  obtain ⟨ht, -, -, -⟩ := check_fields_some st m.type hc
  obtain ⟨t, d, id, r, w, hd⟩ := m
  obtain ⟨st_t, st_id, st_w, st_r, st_h⟩ := st
  simp only at ht hid hr hw hh
  subst ht hid hr hw hh
  rcases st_w with _ | _ | _ <;> rcases st_h with _ | _ | _ <;> cases id <;> cases r <;>
    simp [fields_of, state_fields]

/-! ### Fields that make `parse` fail, fields that set an optional -/

theorem parse_fields_none_of_mem (fs : List (List Char)) (f : List Char) (hf : f ∈ fs)
    (h : ∀ st, parse_field st f = none) : ∀ st, parse_fields st fs = none := by
  induction fs with
  | nil => simp at hf
  | cons g gs ih =>
    intro st
    unfold parse_fields
    rcases List.mem_cons.1 hf with rfl | hf'
    · rw [h st]
    · cases parse_field st g with
      | none => rfl
      | some st1 => exact ih hf' st1

theorem parse_none_of_fields_none (p seg0 : List Char) (rest : List (List Char))
    (hs : split ';' p = seg0 :: rest) (h : parse_fields {} (split ':' seg0) = none) :
    OSC8671.parse p = none := by
  rw [parse_of_split p seg0 rest hs, h]
  simp

theorem parse_field_bad (f : List Char) (hb : bad_field f) (st : ParsedFields) :
    parse_field st f = none := by
  unfold bad_field at hb
  unfold parse_field
  cases hf : find_split '=' f with
  | none => rfl
  | some kv =>
    obtain ⟨k, v⟩ := kv
    rw [hf] at hb
    simp only at hb ⊢
    rcases hb with hk | ⟨rfl, hv⟩ | ⟨hk, hv1, hv2⟩
    · simp only [List.mem_cons, List.mem_singleton, List.not_mem_nil, or_false, not_or] at hk
      obtain ⟨k1, k2, k3, k4, k5⟩ := hk
      rw [if_neg k4, if_neg k5, if_neg k1, if_neg k2, if_neg k3]
    · have hfind : type_map.find? (fun x => x.1 = v) = none := by
        rw [List.find?_eq_none]
        intro x hx
        simp only [List.mem_cons, List.mem_singleton, List.not_mem_nil, or_false, not_or] at hv
        simp only [type_map, List.mem_cons, List.mem_singleton, List.not_mem_nil, or_false] at hx
        obtain ⟨v1, v2, v3, v4, v5, v6⟩ := hv
        rcases hx with rfl | rfl | rfl | rfl | rfl | rfl <;> simp only [decide_eq_true_eq] <;>
          intro e
        · exact v1 e.symm
        · exact v2 e.symm
        · exact v3 e.symm
        · exact v4 e.symm
        · exact v5 e.symm
        · exact v6 e.symm
      rw [if_neg (by decide), if_neg (by decide), if_pos rfl, hfind]
    · rcases hk with rfl | rfl
      · rw [if_pos rfl, if_neg hv1, if_neg hv2]
      · rw [if_neg (by decide), if_pos rfl, if_neg hv1, if_neg hv2]

theorem parse_field_sets (st st' : ParsedFields) (f k v : List Char)
    (hf : find_split '=' f = some (k, v)) (h : parse_field st f = some st') :
    (k = ['r'] → st'.range.isSome) ∧ (k = ['h'] → st'.hide_cursor_on_enter.isSome) ∧
      (k = ['w'] → st'.wrap_mode.isSome) ∧
      (st.range.isSome → st'.range.isSome) ∧
      (st.hide_cursor_on_enter.isSome → st'.hide_cursor_on_enter.isSome) ∧
      (st.wrap_mode.isSome → st'.wrap_mode.isSome) := by
  obtain ⟨k', v', hf', hc⟩ := parse_field_some st st' f h
  rw [hf] at hf'
  simp only [Option.some.injEq, Prod.mk.injEq] at hf'
  obtain ⟨rfl, rfl⟩ := hf'
  rcases hc with ⟨rfl, -, rfl⟩ | ⟨rfl, -, rfl⟩ | ⟨rfl, -, rfl⟩ | ⟨rfl, -, rfl⟩ | ⟨rfl, x, -, rfl⟩ |
    ⟨rfl, -, rfl⟩ | ⟨rfl, r, -, rfl⟩ <;> simp

theorem parse_field_mono (st st' : ParsedFields) (f : List Char)
    (h : parse_field st f = some st') :
    (st.range.isSome → st'.range.isSome) ∧
      (st.hide_cursor_on_enter.isSome → st'.hide_cursor_on_enter.isSome) ∧
      (st.wrap_mode.isSome → st'.wrap_mode.isSome) := by
  obtain ⟨k, v, hf, -⟩ := parse_field_some st st' f h
  obtain ⟨-, -, -, a, b, c⟩ := parse_field_sets st st' f k v hf h
  exact ⟨a, b, c⟩

theorem parse_fields_mono (fs : List (List Char)) :
    ∀ st st', parse_fields st fs = some st' →
      (st.range.isSome → st'.range.isSome) ∧
        (st.hide_cursor_on_enter.isSome → st'.hide_cursor_on_enter.isSome) ∧
        (st.wrap_mode.isSome → st'.wrap_mode.isSome) := by
  induction fs with
  | nil =>
    intro st st' h
    simp [parse_fields] at h
    subst h
    exact ⟨id, id, id⟩
  | cons g gs ih =>
    intro st st' h
    unfold parse_fields at h
    cases hp : parse_field st g with
    | none => simp [hp] at h
    | some st1 =>
      simp only [hp] at h
      obtain ⟨a, b, c⟩ := parse_field_mono st st1 g hp
      obtain ⟨a', b', c'⟩ := ih st1 st' h
      exact ⟨fun x => a' (a x), fun x => b' (b x), fun x => c' (c x)⟩

theorem parse_fields_sets (fs : List (List Char)) (f k v : List Char) (hmem : f ∈ fs)
    (hf : find_split '=' f = some (k, v)) :
    ∀ st st', parse_fields st fs = some st' →
      (k = ['r'] → st'.range.isSome) ∧ (k = ['h'] → st'.hide_cursor_on_enter.isSome) ∧
        (k = ['w'] → st'.wrap_mode.isSome) := by
  induction fs with
  | nil => simp at hmem
  | cons g gs ih =>
    intro st st' h
    unfold parse_fields at h
    cases hp : parse_field st g with
    | none => simp [hp] at h
    | some st1 =>
      simp only [hp] at h
      rcases List.mem_cons.1 hmem with rfl | hmem'
      · obtain ⟨a, b, c, -, -, -⟩ := parse_field_sets st st1 f k v hf hp
        obtain ⟨a', b', c'⟩ := parse_fields_mono gs st1 st' h
        exact ⟨fun x => a' (a x), fun x => b' (b x), fun x => c' (c x)⟩
      · exact ih hmem' st1 st' h

theorem parse_fields_type_of_no_t (fs : List (List Char))
    (hno : ∀ f ∈ fs, ∀ k v, find_split '=' f = some (k, v) → k ≠ ['t']) :
    ∀ st st', parse_fields st fs = some st' → st'.type = st.type := by
  induction fs with
  | nil =>
    intro st st' h
    simp [parse_fields] at h
    subst h
    rfl
  | cons g gs ih =>
    intro st st' h
    unfold parse_fields at h
    cases hp : parse_field st g with
    | none => simp [hp] at h
    | some st1 =>
      simp only [hp] at h
      have e1 := ih (fun f hf => hno f (by simp [hf])) st1 st' h
      obtain ⟨k, v, hf, hc⟩ := parse_field_some st st1 g hp
      have hk := hno g (by simp) k v hf
      rw [e1]
      rcases hc with ⟨-, -, rfl⟩ | ⟨-, -, rfl⟩ | ⟨-, -, rfl⟩ | ⟨-, -, rfl⟩ | ⟨rfl, x, -, rfl⟩ |
        ⟨-, -, rfl⟩ | ⟨-, r, -, rfl⟩
      · rfl
      · rfl
      · rfl
      · rfl
      · exact absurd rfl hk
      · rfl
      · rfl

/-! ### The direction segment -/

theorem find_direction_cases (seg1 : List Char) :
    (seg1 = "left".toList ∧ direction_map.find? (fun x => x.1 = seg1) =
        some ("left".toList, NavigateDirection.Left)) ∨
    (seg1 = "right".toList ∧ direction_map.find? (fun x => x.1 = seg1) =
        some ("right".toList, NavigateDirection.Right)) ∨
    (seg1 = "up".toList ∧ direction_map.find? (fun x => x.1 = seg1) =
        some ("up".toList, NavigateDirection.Up)) ∨
    (seg1 = "down".toList ∧ direction_map.find? (fun x => x.1 = seg1) =
        some ("down".toList, NavigateDirection.Down)) ∨
    (seg1 ≠ "left".toList ∧ seg1 ≠ "right".toList ∧ seg1 ≠ "up".toList ∧
      seg1 ≠ "down".toList ∧ direction_map.find? (fun x => x.1 = seg1) = none) := by
  by_cases h1 : seg1 = "left".toList
  · subst h1
    exact Or.inl ⟨rfl, by decide⟩
  by_cases h2 : seg1 = "right".toList
  · subst h2
    exact Or.inr (Or.inl ⟨rfl, by decide⟩)
  by_cases h3 : seg1 = "up".toList
  · subst h3
    exact Or.inr (Or.inr (Or.inl ⟨rfl, by decide⟩))
  by_cases h4 : seg1 = "down".toList
  · subst h4
    exact Or.inr (Or.inr (Or.inr (Or.inl ⟨rfl, by decide⟩)))
  refine Or.inr (Or.inr (Or.inr (Or.inr ⟨h1, h2, h3, h4, ?_⟩)))
  rw [List.find?_eq_none]
  intro x hx
  simp only [direction_map, List.mem_cons, List.mem_singleton, List.not_mem_nil, or_false] at hx
  rcases hx with rfl | rfl | rfl | rfl <;> simp only [decide_eq_true_eq] <;> intro e
  · exact h1 e.symm
  · exact h2 e.symm
  · exact h4 e.symm
  · exact h3 e.symm

/-- The function `parse` on a payload of at most two segments whose first segment passes the
field loop and the checks of the fields against the type. -/
theorem parse_of_checked (p seg0 : List Char) (rest : List (List Char)) (st : ParsedFields)
    (T : SeamlessNavigationRequestType) (hs : split ';' p = seg0 :: rest)
    (hl : rest.length ≤ 1) (hst : parse_fields {} (split ':' seg0) = some st)
    (hT : check_fields st = some T) :
    OSC8671.parse p =
      match parse_direction T rest with
      | none => none
      | some direction =>
        some { type := T, direction := direction, id := st.id, range := st.range,
               wrap_mode := st.wrap_mode.getD NavigateWrapMode.Disallow,
               hide_cursor_on_enter := st.hide_cursor_on_enter.getD false } := by
  rw [parse_of_split p seg0 rest hs, if_neg (by omega), hst]
  simp only [parse_finish, hT]

/-! ### The numbers written in a range field -/

theorem digits_value_eq (s : List Char) :
    ∀ a v, digits_value a s = some v ↔
      (∀ c ∈ s, is_digit c) ∧
        v = a * 10 ^ s.length + Nat.ofDigits 10 (s.reverse.map (fun c => c.toNat - 48)) := by
  induction s with
  | nil =>
    intro a v
    simp [digits_value, eq_comm]
  | cons c cs ih =>
    intro a v
    unfold digits_value digit_value
    by_cases hc : 48 ≤ c.toNat ∧ c.toNat ≤ 57
    · rw [if_pos hc]
      simp only
      rw [ih]
      have hd : is_digit c := hc
      simp only [List.mem_cons, forall_eq_or_imp, hd, true_and, List.reverse_cons, List.map_append,
        List.map_cons, List.map_nil, Nat.ofDigits_append, Nat.ofDigits_singleton,
        List.length_map, List.length_reverse, List.length_cons]
      constructor
      · rintro ⟨h1, h2⟩
        refine ⟨h1, ?_⟩
        rw [h2]
        ring
      · rintro ⟨h1, h2⟩
        refine ⟨h1, ?_⟩
        rw [h2]
        ring
    · rw [if_neg hc]
      constructor
      · intro h
        simp at h
      · rintro ⟨h, -⟩
        exact absurd (h c (by simp)) hc

theorem parse_u32_iff (s : List Char) (n : Nat) : parse_u32 s = some n ↔ u32_decimal s n := by
  unfold parse_u32 u32_decimal
  by_cases h0 : s = []
  · simp [h0]
  · rw [if_neg h0]
    cases hv : digits_value 0 s with
    | none =>
      constructor
      · intro h
        simp at h
      · rintro ⟨-, hd, he, -⟩
        have := (digits_value_eq s 0 n).2 ⟨hd, by rw [he, zero_mul, zero_add]⟩
        rw [hv] at this
        simp at this
    | some v =>
      obtain ⟨hd, he⟩ := (digits_value_eq s 0 v).1 hv
      simp only [zero_mul, zero_add] at he
      simp only
      constructor
      · intro h
        split_ifs at h with hlt
        simp only [Option.some.injEq] at h
        subst h
        exact ⟨h0, hd, he.symm, hlt⟩
      · rintro ⟨-, -, e, hlt⟩
        rw [← he] at e
        subst e
        rw [if_pos hlt]

theorem parse_range_written (v : List Char) (r : Nat × Nat) (h : parse_range v = some r) :
    ∃ a b, v = a ++ ',' :: b ∧ u32_decimal a r.1 ∧ u32_decimal b r.2 ∧ 1 ≤ r.1 ∧ r.1 ≤ r.2 := by
  obtain ⟨h1, h2, -, a, b, hs, ha, hb⟩ := parse_range_some v r h
  refine ⟨a, b, ?_, (parse_u32_iff a _).1 ha, (parse_u32_iff b _).1 hb, h1, h2⟩
  have := join_with_split ',' v
  rw [hs] at this
  simpa [join_with] using this.symm

theorem parse_fields_each (fs : List (List Char)) :
    ∀ st st', parse_fields st fs = some st' →
      ∀ f ∈ fs, ∃ s1 s2, parse_field s1 f = some s2 := by
  induction fs with
  | nil =>
    intro _ _ _ f hf
    simp at hf
  | cons g gs ih =>
    intro st st' h f hf
    unfold parse_fields at h
    cases hp : parse_field st g with
    | none => simp [hp] at h
    | some st1 =>
      simp only [hp] at h
      rcases List.mem_cons.1 hf with rfl | hf'
      · exact ⟨st, st1, hp⟩
      · exact ih st1 st' h f hf'

theorem parse_field_range (s1 s2 : ParsedFields) (f v : List Char)
    (hf : find_split '=' f = some (['r'], v)) (h : parse_field s1 f = some s2) :
    ∃ r, parse_range v = some r ∧ s2 = { s1 with range := some r } := by
  obtain ⟨k', v', hf', hc⟩ := parse_field_some s1 s2 f h
  rw [hf] at hf'
  simp only [Option.some.injEq, Prod.mk.injEq] at hf'
  obtain ⟨rfl, rfl⟩ := hf'
  rcases hc with ⟨hk, -⟩ | ⟨hk, -⟩ | ⟨hk, -⟩ | ⟨hk, -⟩ | ⟨hk, -⟩ | ⟨hk, -⟩ | ⟨-, r, hr, e⟩
  · exact absurd hk (by decide)
  · exact absurd hk (by decide)
  · exact absurd hk (by decide)
  · exact absurd hk (by decide)
  · exact absurd hk (by decide)
  · exact absurd hk (by decide)
  · exact ⟨r, hr, e⟩

theorem parse_fields_range_origin (fs : List (List Char)) :
    ∀ st st' r, parse_fields st fs = some st' → st'.range = some r →
      st.range = some r ∨
        ∃ f ∈ fs, ∃ v, find_split '=' f = some (['r'], v) ∧ parse_range v = some r := by
  induction fs with
  | nil =>
    intro st st' r h hr
    simp [parse_fields] at h
    subst h
    exact Or.inl hr
  | cons g gs ih =>
    intro st st' r h hr
    unfold parse_fields at h
    cases hp : parse_field st g with
    | none => simp [hp] at h
    | some st1 =>
      simp only [hp] at h
      rcases ih st1 st' r h hr with h1 | ⟨f, hf, v, hv, hpr⟩
      · obtain ⟨k, v, hf, hc⟩ := parse_field_some st st1 g hp
        rcases hc with ⟨-, -, rfl⟩ | ⟨-, -, rfl⟩ | ⟨-, -, rfl⟩ | ⟨-, -, rfl⟩ | ⟨-, x, -, rfl⟩ |
          ⟨-, -, rfl⟩ | ⟨rfl, r', hr', rfl⟩
        · exact Or.inl h1
        · exact Or.inl h1
        · exact Or.inl h1
        · exact Or.inl h1
        · exact Or.inl h1
        · exact Or.inl h1
        · simp only [Option.some.injEq] at h1
          subst h1
          exact Or.inr ⟨g, by simp, v, hf, hr'⟩
      · exact Or.inr ⟨f, by simp [hf], v, hv, hpr⟩

/-! ### Id fields -/

theorem parse_fields_append (a b : List (List Char)) :
    ∀ st, parse_fields st (a ++ b) =
      match parse_fields st a with
      | none => none
      | some s => parse_fields s b := by
  induction a with
  | nil =>
    intro st
    simp [parse_fields]
  | cons g gs ih =>
    intro st
    simp only [List.cons_append, parse_fields]
    cases parse_field st g with
    | none => rfl
    | some st1 => exact ih st1

theorem parse_field_with_id (st : ParsedFields) (f : List Char) (x : Option (List Char))
    (hk : field_key f ≠ some "id".toList) :
    parse_field { st with id := x } f =
      match parse_field st f with
      | none => none
      | some s => some { s with id := x } := by
  unfold field_key at hk
  unfold parse_field
  cases hf : find_split '=' f with
  | none => rfl
  | some kv =>
    obtain ⟨k, v⟩ := kv
    rw [hf] at hk
    simp only [ne_eq, Option.some.injEq] at hk
    simp only
    by_cases h1 : k = "w".toList
    · rw [if_pos h1, if_pos h1]
      split_ifs <;> rfl
    rw [if_neg h1, if_neg h1]
    by_cases h2 : k = "h".toList
    · rw [if_pos h2, if_pos h2]
      split_ifs <;> rfl
    rw [if_neg h2, if_neg h2]
    by_cases h3 : k = "t".toList
    · rw [if_pos h3, if_pos h3]
      cases type_map.find? (fun x => x.1 = v) <;> rfl
    rw [if_neg h3, if_neg h3, if_neg hk, if_neg hk]
    by_cases h5 : k = "r".toList
    · rw [if_pos h5, if_pos h5]
      cases parse_range v <;> rfl
    rw [if_neg h5, if_neg h5]

theorem parse_fields_with_id (fs : List (List Char)) (x : Option (List Char))
    (hk : ∀ f ∈ fs, field_key f ≠ some "id".toList) :
    ∀ st, parse_fields { st with id := x } fs =
      match parse_fields st fs with
      | none => none
      | some s => some { s with id := x } := by
  induction fs with
  | nil =>
    intro st
    simp [parse_fields]
  | cons g gs ih =>
    intro st
    simp only [parse_fields]
    rw [parse_field_with_id st g x (hk g (by simp))]
    cases parse_field st g with
    | none => rfl
    | some st1 => exact ih (fun f hf => hk f (by simp [hf])) st1

theorem parse_finish_with_id (st : ParsedFields) (rest : List (List Char))
    (x : Option (List Char)) :
    parse_finish { st with id := x } rest =
      match parse_finish st rest with
      | none => none
      | some m => some { m with id := x } := by
  have hc : check_fields { st with id := x } = check_fields st := rfl
  unfold parse_finish
  rw [hc]
  cases check_fields st with
  | none => rfl
  | some t =>
    simp only
    cases parse_direction t rest <;> rfl

theorem parse_field_id_any (st : ParsedFields) (v : List Char)
    (h : size_bytes v ≤ max_id_byte_size) :
    parse_field st ("id=".toList ++ v) = some { st with id := some v } :=
  parse_field_id st v h

theorem parse_field_id_long (st : ParsedFields) (f v : List Char)
    (hf : find_split '=' f = some ("id".toList, v)) (h : size_bytes v > 36) :
    parse_field st f = none := by
  unfold parse_field
  rw [hf]
  simp only
  rw [if_neg (by decide), if_neg (by decide), if_neg (by decide), if_pos trivial]
  exact if_pos h

/-! ## Round trips -/

/-- C1: for every payload `p` that `parse` accepts with result `m`, `m.serialize()` is the
framing `ESC ] 8671 ;` ... `ESC \` around a body, and parsing that body returns exactly `m`
again, whatever the order of the fields of `p`, repeated keys or explicit default values. -/
theorem parse_serialize_parse (p : List Char) (m : OSC8671)
    (h : OSC8671.parse p = some m) :
    m.serialize = osc_open ++ strip_framing m.serialize ++ osc_close ∧
      OSC8671.parse (strip_framing m.serialize) = some m := by
  refine ⟨?_, ?_⟩
  · rw [strip_framing_serialize, serialize_eq_body, List.append_assoc]
  · rw [strip_framing_serialize]
    exact parse_body_of m (parse_well_formed p m h)

/-- Witness of C1 at a payload with a repeated key, `t` not in front and an explicit
`w=false`. -/
theorem parse_serialize_parse_witness :
    OSC8671.parse "w=true:t=acknowledge:id=7:t=navigate:w=false;down".toList =
        some { type := SeamlessNavigationRequestType.Navigate,
               direction := some NavigateDirection.Down, id := some [ '7'] } ∧
      OSC8671.parse (strip_framing (OSC8671.serialize
          { type := SeamlessNavigationRequestType.Navigate,
            direction := some NavigateDirection.Down, id := some [ '7'] })) =
        some { type := SeamlessNavigationRequestType.Navigate,
               direction := some NavigateDirection.Down, id := some [ '7'] } :=
  ⟨by decide,
    (parse_serialize_parse "w=true:t=acknowledge:id=7:t=navigate:w=false;down".toList _
      (by decide)).2⟩

/-- C2, as stated, fails: the message of type Supported whose id is `;` satisfies the
field-validity matrix and its id has one byte, but its serialization `t=supported:id=;` does
not parse at all. -/
theorem roundtrip_fails_for_separator_id :
    matrix_ok separator_id_message ∧
      separator_id_message.id = some [ ';'] ∧ size_bytes [ ';'] ≤ 36 ∧
      separator_id_message.range = none ∧
      separator_id_message.serialize = "\x1b]8671;t=supported:id=;\x1b\\".toList ∧
      OSC8671.parse (strip_framing separator_id_message.serialize) = none ∧
      OSC8671.parse (strip_framing separator_id_message.serialize) ≠
        some separator_id_message := by
  decide

/-- C2, amended: for every message `m` that satisfies the field-validity matrix, whose id (if
present) has at most 36 bytes and contains neither `:` nor `;`, and whose range (if present) is
a pair of `u32` values with `1 ≤ start ≤ end`, parsing `m.serialize()` minus its framing
returns `m`. -/
theorem serialize_parse_roundtrip (m : OSC8671) (hm : matrix_ok m)
    (hid : ∀ id, m.id = some id → size_bytes id ≤ 36 ∧ ':' ∉ id ∧ ';' ∉ id)
    (hr : ∀ s e, m.range = some (s, e) → 1 ≤ s ∧ s ≤ e ∧ e < 2 ^ 32) :
    OSC8671.parse (strip_framing m.serialize) = some m := by
  rw [strip_framing_serialize]
  exact parse_body_of m ⟨hm, hid, fun r h => hr r.1 r.2 h⟩

/-- Witness of the amended C2 at a Navigate with every allowed field set. -/
theorem serialize_parse_roundtrip_witness :
    OSC8671.parse (strip_framing (OSC8671.serialize
        { type := SeamlessNavigationRequestType.Navigate,
          direction := some NavigateDirection.Down, id := some "asdf".toList,
          range := some (1, 100), wrap_mode := NavigateWrapMode.Allow })) =
      some { type := SeamlessNavigationRequestType.Navigate,
             direction := some NavigateDirection.Down, id := some "asdf".toList,
             range := some (1, 100), wrap_mode := NavigateWrapMode.Allow } :=
  serialize_parse_roundtrip _ (by decide)
    (by
      intro id h
      simp only [Option.some.injEq] at h
      subst h
      decide)
    (by
      intro s e h
      simp only [Option.some.injEq, Prod.mk.injEq] at h
      obtain ⟨rfl, rfl⟩ := h
      decide)

/-- C3: for every payload `p` accepted by `parse` that is written canonically (fields in the
order `t`, `w`, `h`, `id`, `r`, each at most once; `w` and `h` only with the value `true`; range
numbers in plain decimal without sign or leading zeros), `parse(p).serialize()` is
`ESC ] 8671 ;` followed by `p` followed by `ESC \`, code point for code point. -/
theorem parse_serialize_canonical (p : List Char) (m : OSC8671)
    (h : OSC8671.parse p = some m) (hc : canonical p) :
    m.serialize = osc_open ++ p ++ osc_close := by
  obtain ⟨seg0, rest, st, hs, hl, hf, hfin⟩ := parse_some p m h
  unfold canonical at hc
  rw [hs] at hc
  obtain ⟨hpw, hcf⟩ := hc
  have e1 : state_fields st = split ':' seg0 := by
    have := parse_fields_canonical _ 0 {} st (fun _ _ => Nat.zero_le _) hpw hcf
      ⟨fun _ => rfl, fun _ => rfl, fun _ => rfl, fun _ => rfl, fun _ => rfl⟩ hf
    simpa [state_fields] using this
  have e2 := fields_of_eq_state_fields st rest m hfin
  have hp : join_with ';' (seg0 :: rest) = p := by
    rw [← hs]
    exact join_with_split ';' p
  obtain ⟨-, hd, -, -, -, -⟩ := parse_finish_some st rest m hfin
  have key : body_of m = p := by
    rw [body_of, e2, e1, join_with_split]
    rcases parse_direction_some _ _ _ hd with ⟨-, seg1, tl, x, hr, hx, hdir⟩ | ⟨-, hr, hdir⟩
    · subst hr
      have htl : tl = [] := by
        cases tl with
        | nil => rfl
        | cons a b => simp at hl
      subst htl
      rw [hdir, ← hp]
      simp [join_with, direction_string_of_find seg1 x hx]
    · subst hr
      rw [hdir, ← hp]
      simp [join_with]
  rw [serialize_eq_body, key, List.append_assoc]

/-- Witness of C3 at the payload `t=navigate:w=true:id=asdf:r=1,100;down`. -/
theorem parse_serialize_canonical_witness :
    canonical "t=navigate:w=true:id=asdf:r=1,100;down".toList ∧
      OSC8671.serialize
          { type := SeamlessNavigationRequestType.Navigate,
            direction := some NavigateDirection.Down, id := some "asdf".toList,
            range := some (1, 100), wrap_mode := NavigateWrapMode.Allow } =
        osc_open ++ "t=navigate:w=true:id=asdf:r=1,100;down".toList ++ osc_close :=
  ⟨by decide,
    parse_serialize_canonical "t=navigate:w=true:id=asdf:r=1,100;down".toList _ (by decide)
      (by decide)⟩

/-! ## The field-validity matrix -/

/-- C4: every message `m` returned by `parse` satisfies the field-validity matrix: the direction
is present iff the type is Navigate, Acknowledge or Enter; the range is absent unless the type is
Navigate or Enter; the wrap mode is Disallow unless the type is Navigate or Acknowledge;
`hide_cursor_on_enter` is false unless the type is Register. -/
theorem parse_satisfies_matrix (p : List Char) (m : OSC8671)
    (h : OSC8671.parse p = some m) :
    (m.direction.isSome ↔
      (m.type = SeamlessNavigationRequestType.Navigate ∨
        m.type = SeamlessNavigationRequestType.Acknowledge ∨
        m.type = SeamlessNavigationRequestType.Enter)) ∧
    (¬ (m.type = SeamlessNavigationRequestType.Navigate ∨
        m.type = SeamlessNavigationRequestType.Enter) → m.range = none) ∧
    (¬ (m.type = SeamlessNavigationRequestType.Navigate ∨
        m.type = SeamlessNavigationRequestType.Acknowledge) →
      m.wrap_mode = NavigateWrapMode.Disallow) ∧
    (m.type ≠ SeamlessNavigationRequestType.Register → m.hide_cursor_on_enter = false) := by
  obtain ⟨h1, h2, h3, h4⟩ := (parse_well_formed p m h).1
  refine ⟨h1, ?_, ?_, ?_⟩
  · intro hn
    cases hr : m.range with
    | none => rfl
    | some r => exact absurd (h2 (by simp [hr])) hn
  · intro hn
    cases hw : m.wrap_mode with
    | Disallow => rfl
    | Allow => exact absurd (h3 hw) hn
  · intro hn
    cases hh : m.hide_cursor_on_enter with
    | false => rfl
    | true => exact absurd (h4 hh) hn

/-- Witness of C4 at the payload `t=register:h=true`. -/
theorem parse_satisfies_matrix_witness :
    OSC8671.parse "t=register:h=true".toList =
        some { type := SeamlessNavigationRequestType.Register, hide_cursor_on_enter := true } ∧
      ((none : Option NavigateDirection).isSome ↔
        (SeamlessNavigationRequestType.Register = SeamlessNavigationRequestType.Navigate ∨
          SeamlessNavigationRequestType.Register = SeamlessNavigationRequestType.Acknowledge ∨
          SeamlessNavigationRequestType.Register = SeamlessNavigationRequestType.Enter)) :=
  ⟨by decide,
    (parse_satisfies_matrix "t=register:h=true".toList
      { type := SeamlessNavigationRequestType.Register, hide_cursor_on_enter := true }
      (by decide)).1⟩

/-! ## Strictness of `parse` -/

/-- C5: `parse` fails whenever the first segment contains a key that the matrix forbids for the
parsed type (the type the field loop ends with), whatever the value of that key and wherever it
stands relative to the `t` field: `r` with a type other than Navigate/Enter, `h` with a type
other than Register, `w` with a type other than Navigate/Acknowledge. Equally, no accepted
message has a type for which a key of the first segment is forbidden. -/
theorem parse_fails_on_forbidden_key (p seg0 : List Char) (rest : List (List Char))
    (f k v : List Char) (hs : split ';' p = seg0 :: rest) (hmem : f ∈ split ':' seg0)
    (hf : find_split '=' f = some (k, v)) :
    (∀ st T, parse_fields {} (split ':' seg0) = some st → st.type = some T →
        forbidden_key k T → OSC8671.parse p = none) ∧
      (∀ m, OSC8671.parse p = some m → ¬ forbidden_key k m.type) := by
  have key : ∀ st T, parse_fields {} (split ':' seg0) = some st → st.type = some T →
      forbidden_key k T → check_fields st = none := by
    intro st T hst hT hk
    obtain ⟨a, b, c⟩ := parse_fields_sets _ f k v hmem hf {} st hst
    unfold check_fields
    rw [hT]
    simp only
    rcases hk with ⟨rfl, h1, h2⟩ | ⟨rfl, h1⟩ | ⟨rfl, h1, h2⟩
    · rw [if_pos ⟨h2, h1, a rfl⟩]
    · by_cases hr : T ≠ SeamlessNavigationRequestType.Enter ∧
          T ≠ SeamlessNavigationRequestType.Navigate ∧ st.range.isSome
      · rw [if_pos hr]
      · rw [if_neg hr, if_pos ⟨h1, b rfl⟩]
    · by_cases hr : T ≠ SeamlessNavigationRequestType.Enter ∧
          T ≠ SeamlessNavigationRequestType.Navigate ∧ st.range.isSome
      · rw [if_pos hr]
      · rw [if_neg hr]
        by_cases hh : T ≠ SeamlessNavigationRequestType.Register ∧
            st.hide_cursor_on_enter.isSome
        · rw [if_pos hh]
        · rw [if_neg hh, if_pos ⟨h1, h2, c rfl⟩]
  refine ⟨?_, ?_⟩
  · intro st T hst hT hk
    rw [parse_of_split p seg0 rest hs, hst]
    simp only [parse_finish, key st T hst hT hk]
    split_ifs <;> rfl
  · intro m hm hk
    obtain ⟨seg0', rest', st, hs', -, hst, hfin⟩ := parse_some p m hm
    rw [hs] at hs'
    simp only [List.cons.injEq] at hs'
    obtain ⟨rfl, rfl⟩ := hs'
    obtain ⟨hc, -⟩ := parse_finish_some st rest m hfin
    obtain ⟨hT, -⟩ := check_fields_some st m.type hc
    rw [key st m.type hst hT hk] at hc
    simp at hc

/-- Witness of C5: `t=enter:w=false;down` and `t=supported:h=false` (a forbidden key with its
default value) and `r=1,2:t=acknowledge;up` (the forbidden key in front of `t`) are rejected. -/
theorem parse_fails_on_forbidden_key_witness :
    OSC8671.parse "t=enter:w=false;down".toList = none ∧
      OSC8671.parse "t=supported:h=false".toList = none ∧
      OSC8671.parse "r=1,2:t=acknowledge;up".toList = none :=
  ⟨(parse_fails_on_forbidden_key "t=enter:w=false;down".toList "t=enter:w=false".toList
      [ "down".toList] "w=false".toList "w".toList "false".toList (by decide) (by decide)
      (by decide)).1
      { type := some SeamlessNavigationRequestType.Enter,
        wrap_mode := some NavigateWrapMode.Disallow }
      SeamlessNavigationRequestType.Enter (by decide) rfl (by decide),
    (parse_fails_on_forbidden_key "t=supported:h=false".toList "t=supported:h=false".toList
      [] "h=false".toList "h".toList "false".toList (by decide) (by decide)
      (by decide)).1
      { type := some SeamlessNavigationRequestType.Supported,
        hide_cursor_on_enter := some false }
      SeamlessNavigationRequestType.Supported (by decide) rfl (by decide),
    (parse_fails_on_forbidden_key "r=1,2:t=acknowledge;up".toList "r=1,2:t=acknowledge".toList
      [ "up".toList] "r=1,2".toList "r".toList "1,2".toList (by decide) (by decide)
      (by decide)).1
      { type := some SeamlessNavigationRequestType.Acknowledge, range := some (1, 2) }
      SeamlessNavigationRequestType.Acknowledge (by decide) rfl (by decide)⟩

/-- C6, as stated, fails: in `t=navigate;down;x` the first segment `t=navigate` is valid for its
type Navigate and the second segment is exactly the token `down`, but `parse` fails because
the payload has three segments. -/
theorem direction_segment_fails_with_three_segments :
    split ';' "t=navigate;down;x".toList =
        [ "t=navigate".toList, "down".toList, "x".toList] ∧
      parse_fields {} (split ':' "t=navigate".toList) =
        some { type := some SeamlessNavigationRequestType.Navigate } ∧
      check_fields { type := some SeamlessNavigationRequestType.Navigate } =
        some SeamlessNavigationRequestType.Navigate ∧
      OSC8671.parse "t=navigate;down;x".toList = none := by
  decide

/-- C6, amended: for every payload of at most two segments whose first segment is valid for
its type `T` (the field loop succeeds and the checks of the fields against `T` pass): if `T`
is Navigate, Acknowledge or Enter, `parse` succeeds iff a second segment is present and is
exactly one of `left`, `right`, `up`, `down`, and the direction of the result is the matching
one; if `T` is Supported, Register or Unregister, `parse` succeeds iff there is no second segment
(an empty second segment fails too). -/
theorem parse_direction_segment (p seg0 : List Char) (rest : List (List Char))
    (st : ParsedFields) (T : SeamlessNavigationRequestType)
    (hs : split ';' p = seg0 :: rest) (hl : rest.length ≤ 1)
    (hst : parse_fields {} (split ':' seg0) = some st) (hT : check_fields st = some T) :
    ((T = SeamlessNavigationRequestType.Navigate ∨ T = SeamlessNavigationRequestType.Acknowledge ∨
        T = SeamlessNavigationRequestType.Enter) →
      ((∃ m, OSC8671.parse p = some m) ↔
        (rest = [ "left".toList] ∨ rest = [ "right".toList] ∨ rest = [ "up".toList] ∨
          rest = [ "down".toList])) ∧
      (∀ m, OSC8671.parse p = some m →
        (rest = [ "left".toList] ∧ m.direction = some NavigateDirection.Left) ∨
        (rest = [ "right".toList] ∧ m.direction = some NavigateDirection.Right) ∨
        (rest = [ "up".toList] ∧ m.direction = some NavigateDirection.Up) ∨
        (rest = [ "down".toList] ∧ m.direction = some NavigateDirection.Down))) ∧
    ((T = SeamlessNavigationRequestType.Supported ∨ T = SeamlessNavigationRequestType.Register ∨
        T = SeamlessNavigationRequestType.Unregister) →
      ((∃ m, OSC8671.parse p = some m) ↔ rest = [])) := by
  have hp := parse_of_checked p seg0 rest st T hs hl hst hT
  refine ⟨?_, ?_⟩
  · intro hdir
    cases rest with
    | nil =>
      rw [hp]
      simp [parse_direction, hdir]
    | cons seg1 tl =>
      have htl : tl = [] := by
        cases tl with
        | nil => rfl
        | cons a b => simp at hl
      subst htl
      rw [hp]
      simp only [parse_direction, if_pos hdir]
      rcases find_direction_cases seg1 with ⟨rfl, hfind⟩ | ⟨rfl, hfind⟩ | ⟨rfl, hfind⟩ |
        ⟨rfl, hfind⟩ | ⟨n1, n2, n3, n4, hfind⟩
      · rw [hfind]
        refine ⟨⟨fun _ => Or.inl rfl, fun _ => ⟨_, rfl⟩⟩, ?_⟩
        intro m hm
        simp only [Option.some.injEq] at hm
        subst hm
        exact Or.inl ⟨rfl, rfl⟩
      · rw [hfind]
        refine ⟨⟨fun _ => Or.inr (Or.inl rfl), fun _ => ⟨_, rfl⟩⟩, ?_⟩
        intro m hm
        simp only [Option.some.injEq] at hm
        subst hm
        exact Or.inr (Or.inl ⟨rfl, rfl⟩)
      · rw [hfind]
        refine ⟨⟨fun _ => Or.inr (Or.inr (Or.inl rfl)), fun _ => ⟨_, rfl⟩⟩, ?_⟩
        intro m hm
        simp only [Option.some.injEq] at hm
        subst hm
        exact Or.inr (Or.inr (Or.inl ⟨rfl, rfl⟩))
      · rw [hfind]
        refine ⟨⟨fun _ => Or.inr (Or.inr (Or.inr rfl)), fun _ => ⟨_, rfl⟩⟩, ?_⟩
        intro m hm
        simp only [Option.some.injEq] at hm
        subst hm
        exact Or.inr (Or.inr (Or.inr ⟨rfl, rfl⟩))
      · rw [hfind]
        simp only [List.cons.injEq, and_true]
        refine ⟨⟨fun h => ?_, fun h => ?_⟩, fun m hm => ?_⟩
        · obtain ⟨m, hm⟩ := h
          simp at hm
        · rcases h with h | h | h | h
          · exact absurd h n1
          · exact absurd h n2
          · exact absurd h n3
          · exact absurd h n4
        · simp at hm
  · intro hnd
    have hno : ¬ (T = SeamlessNavigationRequestType.Navigate ∨
        T = SeamlessNavigationRequestType.Acknowledge ∨
        T = SeamlessNavigationRequestType.Enter) := by
      rcases hnd with rfl | rfl | rfl <;> decide
    rw [hp]
    simp only [parse_direction, if_neg hno]
    cases rest with
    | nil => simp
    | cons seg1 tl => simp

/-- Witness of the amended C6: `t=acknowledge:id=7;up` is accepted with direction Up. -/
theorem parse_direction_segment_witness :
    (∃ m, OSC8671.parse "t=acknowledge:id=7;up".toList = some m) ∧
      ((∃ m, OSC8671.parse "t=register:h=true;".toList = some m) ↔
        [([] : List Char)] = []) :=
  ⟨((parse_direction_segment "t=acknowledge:id=7;up".toList "t=acknowledge:id=7".toList
      [ "up".toList]
      { type := some SeamlessNavigationRequestType.Acknowledge, id := some [ '7'] }
      SeamlessNavigationRequestType.Acknowledge (by decide) (by decide) (by decide)
      (by decide)).1 (Or.inr (Or.inl rfl))).1.2 (Or.inr (Or.inr (Or.inl rfl))),
    (parse_direction_segment "t=register:h=true;".toList "t=register:h=true".toList
      [[]]
      { type := some SeamlessNavigationRequestType.Register,
        hide_cursor_on_enter := some true }
      SeamlessNavigationRequestType.Register (by decide) (by decide) (by decide)
      (by decide)).2 (Or.inr (Or.inl rfl))⟩

/-- C7: `parse` fails if any `:`-separated field of the first segment contains no `=`, has a
key (the text before the first `=`) other than `t`, `id`, `r`, `w`, `h`, has key `t` with a value
other than one of the six lowercase type names, or has key `w` or `h` with a value other than
the exact strings `true` or `false`. -/
theorem parse_fails_on_bad_field (p seg0 : List Char) (rest : List (List Char)) (f : List Char)
    (hs : split ';' p = seg0 :: rest) (hmem : f ∈ split ':' seg0) (hb : bad_field f) :
    OSC8671.parse p = none :=
  parse_none_of_fields_none p seg0 rest hs
    (parse_fields_none_of_mem _ f hmem (parse_field_bad f hb) {})

/-- Witness of C7: an unknown key, a field without `=`, a wrong type name, a wrong boolean. -/
theorem parse_fails_on_bad_field_witness :
    OSC8671.parse "t=supported:invalid=bad".toList = none ∧
      OSC8671.parse "t=supported:id".toList = none ∧
      OSC8671.parse "t=Navigate;left".toList = none ∧
      OSC8671.parse "t=navigate:w=TRUE;left".toList = none :=
  ⟨parse_fails_on_bad_field "t=supported:invalid=bad".toList "t=supported:invalid=bad".toList []
      "invalid=bad".toList (by decide) (by decide) (by decide),
    parse_fails_on_bad_field "t=supported:id".toList "t=supported:id".toList []
      "id".toList (by decide) (by decide) (by decide),
    parse_fails_on_bad_field "t=Navigate;left".toList "t=Navigate".toList [ "left".toList]
      "t=Navigate".toList (by decide) (by decide) (by decide),
    parse_fails_on_bad_field "t=navigate:w=TRUE;left".toList "t=navigate:w=TRUE".toList
      [ "left".toList] "w=TRUE".toList (by decide) (by decide) (by decide)⟩

/-- C8: `parse` fails when the value of an `r` field is not exactly two comma-separated
unsigned decimal numbers that fit in `u32` with `1 ≤ start ≤ end` (so negative or non-numeric
parts, `start < 1` and `end < start` all fail). Consequently every range `(start, end)` of a
message returned by `parse` satisfies `1 ≤ start ≤ end ≤ 2 ^ 32 - 1` and is the pair of numbers
written in an `r` field of the payload. -/
theorem parse_range_strict :
    (∀ p seg0 rest f v, split ';' p = seg0 :: rest → f ∈ split ':' seg0 →
        find_split '=' f = some ("r".toList, v) →
        (¬ ∃ a b s e, v = a ++ ',' :: b ∧ u32_decimal a s ∧ u32_decimal b e ∧ 1 ≤ s ∧ s ≤ e) →
        OSC8671.parse p = none) ∧
      (∀ p m s e, OSC8671.parse p = some m → m.range = some (s, e) →
        1 ≤ s ∧ s ≤ e ∧ e ≤ 2 ^ 32 - 1 ∧
          ∃ seg0 rest a b, split ';' p = seg0 :: rest ∧
            ('r' :: '=' :: (a ++ ',' :: b)) ∈ split ':' seg0 ∧
            u32_decimal a s ∧ u32_decimal b e) := by
  refine ⟨?_, ?_⟩
  · intro p seg0 rest f v hs hmem hf hno
    apply parse_none_of_fields_none p seg0 rest hs
    cases hst : parse_fields {} (split ':' seg0) with
    | none => rfl
    | some st =>
      exfalso
      obtain ⟨s1, s2, h12⟩ := parse_fields_each _ {} st hst f hmem
      obtain ⟨r, hr, -⟩ := parse_field_range s1 s2 f v hf h12
      obtain ⟨a, b, hv, ha, hb, h1, h2⟩ := parse_range_written v r hr
      exact hno ⟨a, b, r.1, r.2, hv, ha, hb, h1, h2⟩
  · intro p m s e hm hr
    obtain ⟨seg0, rest, st, hs, -, hst, hfin⟩ := parse_some p m hm
    obtain ⟨-, -, -, hrange, -, -⟩ := parse_finish_some st rest m hfin
    rw [hrange] at hr
    rcases parse_fields_range_origin _ {} st (s, e) hst hr with h0 | ⟨f, hf, v, hv, hpr⟩
    · simp at h0
    · obtain ⟨a, b, hv', ha, hb, h1, h2⟩ := parse_range_written v (s, e) hpr
      obtain ⟨hfe, -⟩ := find_split_some _ _ _ _ hv
      have hlt := hb.2.2.2
      simp only at h1 h2 ha hb hlt
      refine ⟨h1, h2, by omega, seg0, rest, a, b, hs, ?_, ha, hb⟩
      rw [hfe, hv'] at hf
      simpa using hf

/-- Witness of C8: `t=enter:r=100,1;down` (inverted range) and `t=enter:r=-1,5;down` (negative
number) are rejected, and in the accepted `t=enter:r=1,100;down` the range `(1, 100)` is within
bounds and written in the field `r=1,100`. -/
theorem parse_range_strict_witness :
    OSC8671.parse "t=enter:r=100,1;down".toList = none ∧
      OSC8671.parse "t=enter:r=-1,5;down".toList = none ∧
      (1 ≤ 1 ∧ 1 ≤ 100 ∧ 100 ≤ 2 ^ 32 - 1 ∧
        ∃ seg0 rest a b, split ';' "t=enter:r=1,100;down".toList = seg0 :: rest ∧
          ('r' :: '=' :: (a ++ ',' :: b)) ∈ split ':' seg0 ∧
          u32_decimal a 1 ∧ u32_decimal b 100) :=
  ⟨parse_range_strict.1 "t=enter:r=100,1;down".toList "t=enter:r=100,1".toList
      [ "down".toList] "r=100,1".toList "100,1".toList (by decide) (by decide) (by decide)
      (by
        rintro ⟨a, b, s, e, hv, ha, hb, -, hle⟩
        have h1 : split ',' "100,1".toList = [ "100".toList, "1".toList] := by decide
        have hc : ¬ is_digit ',' := by decide
        have h2 : split ',' (a ++ ',' :: b) = [a, b] := by
          unfold split
          rw [if_neg (by simp), split_pieces_append _ _ _ (fun h => hc (ha.2.1 _ h)),
            split_pieces_of_not_mem _ _ (fun h => hc (hb.2.1 _ h))]
        rw [← hv, h1] at h2
        simp only [List.cons.injEq, and_true] at h2
        obtain ⟨rfl, rfl⟩ := h2
        have e1 := ha.2.2.1
        have e2 := hb.2.2.1
        have e3 : Nat.ofDigits 10 (List.map (fun c => c.toNat - 48) "100".toList.reverse) = 100 := by
          decide
        have e4 : Nat.ofDigits 10 (List.map (fun c => c.toNat - 48) "1".toList.reverse) = 1 := by
          decide
        rw [e3] at e1
        rw [e4] at e2
        omega),
    parse_range_strict.1 "t=enter:r=-1,5;down".toList "t=enter:r=-1,5".toList
      [ "down".toList] "r=-1,5".toList "-1,5".toList (by decide) (by decide) (by decide)
      (by
        rintro ⟨a, b, s, e, hv, ha, -, -, -⟩
        have hd := ha.2.1
        cases a with
        | nil => exact ha.1 rfl
        | cons x xs =>
          have hx : x = '-' := by
            have := congrArg List.head? hv
            simpa using this.symm
          have := hd x (by simp)
          rw [hx] at this
          exact absurd this (by decide)),
    parse_range_strict.2 "t=enter:r=1,100;down".toList
      { type := SeamlessNavigationRequestType.Enter, direction := some NavigateDirection.Down,
        range := some (1, 100) } 1 100 (by decide) rfl⟩

/-- C9: `parse` fails when the value of an `id` field is longer than 36 bytes. When an id field
whose value `v` has at most 36 bytes is put into the first segment of a payload that `parse`
accepts without it, `parse` accepts the payload too, and the id of the result is `v`, the text
after the first `=` of the field, verbatim (no later field being an id field); the other
fields of the result are unchanged. The payload `t=supported:id=` followed by 37 letters `A`
is rejected. -/
theorem parse_id_field :
    (∀ p seg0 rest f v, split ';' p = seg0 :: rest → f ∈ split ':' seg0 →
        find_split '=' f = some ("id".toList, v) → size_bytes v > 36 →
        OSC8671.parse p = none) ∧
      (∀ p p0 seg0 seg0' rest pre post v m,
        split ';' p = seg0 :: rest → split ':' seg0 = pre ++ ("id=".toList ++ v) :: post →
        split ';' p0 = seg0' :: rest → split ':' seg0' = pre ++ post →
        (∀ f ∈ post, field_key f ≠ some "id".toList) → size_bytes v ≤ 36 →
        OSC8671.parse p0 = some m →
        OSC8671.parse p = some { m with id := some v }) ∧
      OSC8671.parse ("t=supported:id=".toList ++ List.replicate 37 'A') = none := by
  refine ⟨?_, ?_, by decide⟩
  · intro p seg0 rest f v hs hmem hf hlong
    exact parse_none_of_fields_none p seg0 rest hs
      (parse_fields_none_of_mem _ f hmem (fun st => parse_field_id_long st f v hf hlong) {})
  · intro p p0 seg0 seg0' rest pre post v m hs hfs hs0 hfs0 hpost hv hm
    rw [parse_of_split p0 seg0' rest hs0] at hm
    rw [parse_of_split p seg0 rest hs]
    by_cases hl : rest.length > 1
    · rw [if_pos hl] at hm
      simp at hm
    · rw [if_neg hl] at hm ⊢
      rw [hfs0, parse_fields_append] at hm
      rw [hfs, parse_fields_append]
      cases h1 : parse_fields {} pre with
      | none => simp [h1] at hm
      | some s1 =>
        simp only [h1] at hm ⊢
        simp only [parse_fields]
        rw [parse_field_id_any s1 v hv]
        simp only
        rw [parse_fields_with_id post (some v) hpost s1]
        cases h2 : parse_fields s1 post with
        | none => simp [h2] at hm
        | some s2 =>
          simp only [h2] at hm ⊢
          rw [parse_finish_with_id, hm]

/-- Witness of C9: an id of exactly 36 bytes in the middle of a Navigate payload, and the empty
id. -/
theorem parse_id_field_witness :
    OSC8671.parse
        ("t=navigate:id=".toList ++ List.replicate 36 'A' ++ ":w=true;down".toList) =
      some { type := SeamlessNavigationRequestType.Navigate,
             direction := some NavigateDirection.Down, id := some (List.replicate 36 'A'),
             wrap_mode := NavigateWrapMode.Allow } ∧
    OSC8671.parse "t=supported:id=".toList =
      some { type := SeamlessNavigationRequestType.Supported, id := some [] } ∧
    OSC8671.parse "t=supported:id=0123456789012345678901234567890123456".toList = none :=
  ⟨parse_id_field.2.1
      ("t=navigate:id=".toList ++ List.replicate 36 'A' ++ ":w=true;down".toList)
      "t=navigate:w=true;down".toList
      ("t=navigate:id=".toList ++ List.replicate 36 'A' ++ ":w=true".toList)
      "t=navigate:w=true".toList [ "down".toList] [ "t=navigate".toList] [ "w=true".toList]
      (List.replicate 36 'A')
      { type := SeamlessNavigationRequestType.Navigate,
        direction := some NavigateDirection.Down, wrap_mode := NavigateWrapMode.Allow }
      (by decide) (by decide) (by decide) (by decide) (by decide) (by decide) (by decide),
    parse_id_field.2.1 "t=supported:id=".toList "t=supported".toList
      "t=supported:id=".toList "t=supported".toList [] [ "t=supported".toList] [] []
      { type := SeamlessNavigationRequestType.Supported }
      (by decide) (by decide) (by decide) (by decide) (by decide) (by decide) (by decide),
    parse_id_field.1 "t=supported:id=0123456789012345678901234567890123456".toList
      "t=supported:id=0123456789012345678901234567890123456".toList []
      "id=0123456789012345678901234567890123456".toList
      "0123456789012345678901234567890123456".toList (by decide) (by decide) (by decide)
      (by decide)⟩

/-- C10: `parse` fails on the empty payload, on every payload that splits into more than two
`;`-separated segments, and on every payload whose first segment contains no `t` field, for
example `;` and `;t=supported`. -/
theorem parse_fails_without_type :
    OSC8671.parse [] = none ∧
      (∀ p, (split ';' p).length > 2 → OSC8671.parse p = none) ∧
      (∀ p seg0 rest, split ';' p = seg0 :: rest →
        (∀ f ∈ split ':' seg0, field_key f ≠ some "t".toList) →
        OSC8671.parse p = none) ∧
      OSC8671.parse ";".toList = none ∧
      OSC8671.parse ";t=supported".toList = none := by
  refine ⟨by decide, ?_, ?_, by decide, by decide⟩
  · intro p hl
    cases hs : split ';' p with
    | nil => simp [hs] at hl
    | cons seg0 rest =>
      rw [parse_of_split p seg0 rest hs]
      rw [hs] at hl
      simp only [List.length_cons] at hl
      rw [if_pos (by omega)]
  · intro p seg0 rest hs hno
    rw [parse_of_split p seg0 rest hs]
    split_ifs
    · rfl
    · cases hst : parse_fields {} (split ':' seg0) with
      | none => rfl
      | some st =>
        have hno' : ∀ f ∈ split ':' seg0, ∀ k v, find_split '=' f = some (k, v) → k ≠ ['t'] := by
          intro f hf k v hkv hk
          apply hno f hf
          simp [field_key, hkv, hk]
        have ht := parse_fields_type_of_no_t _ hno' {} st hst
        simp only [parse_finish, check_fields, ht]

/-- Witness of C10: three segments, and a first segment whose only field is an id. -/
theorem parse_fails_without_type_witness :
    OSC8671.parse "t=navigate;down;down".toList = none ∧
      OSC8671.parse "id=5:w=true;down".toList = none :=
  ⟨parse_fails_without_type.2.1 "t=navigate;down;down".toList (by decide),
    parse_fails_without_type.2.2.1 "id=5:w=true;down".toList "id=5:w=true".toList
      [ "down".toList] (by decide) (by decide)⟩

/-! ### Defaults of `wrap_mode` and `hide_cursor_on_enter` -/

theorem parse_fields_wrap_of_no_w (fs : List (List Char))
    (hno : ∀ f ∈ fs, field_key f ≠ some "w".toList) :
    ∀ st st', parse_fields st fs = some st' → st'.wrap_mode = st.wrap_mode := by
  induction fs with
  | nil =>
    intro st st' h
    simp [parse_fields] at h
    subst h
    rfl
  | cons g gs ih =>
    intro st st' h
    unfold parse_fields at h
    cases hp : parse_field st g with
    | none => simp [hp] at h
    | some st1 =>
      simp only [hp] at h
      have e1 := ih (fun f hf => hno f (by simp [hf])) st1 st' h
      obtain ⟨k, v, hf, hc⟩ := parse_field_some st st1 g hp
      have hk : k ≠ ['w'] := by
        intro e
        apply hno g (by simp)
        simp [field_key, hf, e]
      rw [e1]
      rcases hc with ⟨rfl, -, -⟩ | ⟨rfl, -, -⟩ | ⟨-, -, rfl⟩ | ⟨-, -, rfl⟩ | ⟨-, x, -, rfl⟩ |
        ⟨-, -, rfl⟩ | ⟨-, r, -, rfl⟩
      · exact absurd rfl hk
      · exact absurd rfl hk
      · rfl
      · rfl
      · rfl
      · rfl
      · rfl

theorem parse_fields_hide_of_no_h (fs : List (List Char))
    (hno : ∀ f ∈ fs, field_key f ≠ some "h".toList) :
    ∀ st st', parse_fields st fs = some st' →
      st'.hide_cursor_on_enter = st.hide_cursor_on_enter := by
  induction fs with
  | nil =>
    intro st st' h
    simp [parse_fields] at h
    subst h
    rfl
  | cons g gs ih =>
    intro st st' h
    unfold parse_fields at h
    cases hp : parse_field st g with
    | none => simp [hp] at h
    | some st1 =>
      simp only [hp] at h
      have e1 := ih (fun f hf => hno f (by simp [hf])) st1 st' h
      obtain ⟨k, v, hf, hc⟩ := parse_field_some st st1 g hp
      have hk : k ≠ ['h'] := by
        intro e
        apply hno g (by simp)
        simp [field_key, hf, e]
      rw [e1]
      rcases hc with ⟨-, -, rfl⟩ | ⟨-, -, rfl⟩ | ⟨rfl, -, -⟩ | ⟨rfl, -, -⟩ | ⟨-, x, -, rfl⟩ |
        ⟨-, -, rfl⟩ | ⟨-, r, -, rfl⟩
      · rfl
      · rfl
      · exact absurd rfl hk
      · exact absurd rfl hk
      · rfl
      · rfl
      · rfl

theorem parse_fields_wrap_not_allow (fs : List (List Char))
    (hno : "w=true".toList ∉ fs) :
    ∀ st st', st.wrap_mode ≠ some NavigateWrapMode.Allow → parse_fields st fs = some st' →
      st'.wrap_mode ≠ some NavigateWrapMode.Allow := by
  induction fs with
  | nil =>
    intro st st' hst h
    simp [parse_fields] at h
    subst h
    exact hst
  | cons g gs ih =>
    intro st st' hst h
    unfold parse_fields at h
    cases hp : parse_field st g with
    | none => simp [hp] at h
    | some st1 =>
      simp only [hp] at h
      refine ih (fun hm => hno (List.mem_cons_of_mem _ hm)) st1 st' ?_ h
      obtain ⟨k, v, hf, hc⟩ := parse_field_some st st1 g hp
      obtain ⟨hge, -⟩ := find_split_some _ _ _ _ hf
      rcases hc with ⟨rfl, rfl, -⟩ | ⟨-, -, rfl⟩ | ⟨-, -, rfl⟩ | ⟨-, -, rfl⟩ | ⟨-, x, -, rfl⟩ |
        ⟨-, -, rfl⟩ | ⟨-, r, -, rfl⟩
      · exact absurd (by rw [hge]; exact List.mem_cons_self _ _) hno
      · simp
      · exact hst
      · exact hst
      · exact hst
      · exact hst
      · exact hst

theorem parse_field_same_but_wrap_default (a b : ParsedFields) (f : List Char)
    (h : same_but_wrap_default a b) :
    match parse_field a f, parse_field b f with
    | some a', some b' => same_but_wrap_default a' b'
    | none, none => True
    | _, _ => False := by
  obtain ⟨h1, h2, h3, h4, h5⟩ := h
  unfold parse_field
  cases hf : find_split '=' f with
  | none => simp
  | some kv =>
    obtain ⟨k, v⟩ := kv
    simp only
    by_cases k1 : k = "w".toList
    · rw [if_pos k1, if_pos k1]
      by_cases v1 : v = "true".toList
      · rw [if_pos v1, if_pos v1]
        exact ⟨h1, h2, h3, h4, rfl⟩
      · rw [if_neg v1, if_neg v1]
        by_cases v2 : v = "false".toList
        · rw [if_pos v2, if_pos v2]
          exact ⟨h1, h2, h3, h4, rfl⟩
        · rw [if_neg v2, if_neg v2]
          trivial
    rw [if_neg k1, if_neg k1]
    by_cases k2 : k = "h".toList
    · rw [if_pos k2, if_pos k2]
      by_cases v1 : v = "true".toList
      · rw [if_pos v1, if_pos v1]
        exact ⟨h1, h2, h3, rfl, h5⟩
      · rw [if_neg v1, if_neg v1]
        by_cases v2 : v = "false".toList
        · rw [if_pos v2, if_pos v2]
          exact ⟨h1, h2, h3, rfl, h5⟩
        · rw [if_neg v2, if_neg v2]
          trivial
    rw [if_neg k2, if_neg k2]
    by_cases k3 : k = "t".toList
    · rw [if_pos k3, if_pos k3]
      cases type_map.find? (fun x => x.1 = v) with
      | none => trivial
      | some x => exact ⟨rfl, h2, h3, h4, h5⟩
    rw [if_neg k3, if_neg k3]
    by_cases k4 : k = "id".toList
    · rw [if_pos k4, if_pos k4]
      by_cases hs : size_bytes v > max_id_byte_size
      · rw [if_pos hs, if_pos hs]
        trivial
      · rw [if_neg hs, if_neg hs]
        exact ⟨h1, rfl, h3, h4, h5⟩
    rw [if_neg k4, if_neg k4]
    by_cases k5 : k = "r".toList
    · rw [if_pos k5, if_pos k5]
      cases parse_range v with
      | none => trivial
      | some r => exact ⟨h1, h2, rfl, h4, h5⟩
    rw [if_neg k5, if_neg k5]
    trivial

theorem parse_fields_same_but_wrap_default (fs : List (List Char)) :
    ∀ a b, same_but_wrap_default a b →
      match parse_fields a fs, parse_fields b fs with
      | some a', some b' => same_but_wrap_default a' b'
      | none, none => True
      | _, _ => False := by
  induction fs with
  | nil =>
    intro a b h
    simpa [parse_fields] using h
  | cons g gs ih =>
    intro a b h
    have hg := parse_field_same_but_wrap_default a b g h
    unfold parse_fields
    cases ha : parse_field a g with
    | none =>
      cases hb : parse_field b g with
      | none => trivial
      | some b1 => simp [ha, hb] at hg
    | some a1 =>
      cases hb : parse_field b g with
      | none => simp [ha, hb] at hg
      | some b1 =>
        simp only [ha, hb] at hg
        exact ih a1 b1 hg

theorem parse_finish_same_but_wrap_default (a b : ParsedFields) (rest : List (List Char))
    (m : OSC8671) (h : same_but_wrap_default a b)
    (hm : m.type = SeamlessNavigationRequestType.Navigate ∨
      m.type = SeamlessNavigationRequestType.Acknowledge)
    (ha : parse_finish a rest = some m) : parse_finish b rest = some m := by
  obtain ⟨h1, h2, h3, h4, h5⟩ := h
  obtain ⟨hc, hd, hid, hr, hw, hh⟩ := parse_finish_some a rest m ha
  obtain ⟨ht, c1, c2, -⟩ := check_fields_some a m.type hc
  have hcb : check_fields b = some m.type := by
    unfold check_fields
    rw [← h1, ht]
    simp only
    rw [← h3, ← h4]
    have n1 : ¬ (m.type ≠ SeamlessNavigationRequestType.Enter ∧
        m.type ≠ SeamlessNavigationRequestType.Navigate ∧ a.range.isSome) := by
      rintro ⟨x1, x2, x3⟩
      rcases c1 x3 with e | e
      · exact x2 e
      · exact x1 e
    have n2 : ¬ (m.type ≠ SeamlessNavigationRequestType.Register ∧
        a.hide_cursor_on_enter.isSome) := by
      rintro ⟨x1, x2⟩
      exact x1 (c2 x2)
    have n3 : ¬ (m.type ≠ SeamlessNavigationRequestType.Navigate ∧
        m.type ≠ SeamlessNavigationRequestType.Acknowledge ∧ b.wrap_mode.isSome) := by
      rintro ⟨x1, x2, -⟩
      rcases hm with e | e
      · exact x1 e
      · exact x2 e
    rw [if_neg n1, if_neg n2, if_neg n3]
  unfold parse_finish
  rw [hcb]
  simp only
  rw [hd]
  simp only
  congr 1
  obtain ⟨t, d, id, r, w, hd'⟩ := m
  simp only at hid hr hw hh
  subst hid hr hw hh
  simp [h2, h3, h4, h5]

theorem same_but_wrap_default_symm (a b : ParsedFields) (h : same_but_wrap_default a b) :
    same_but_wrap_default b a :=
  ⟨h.1.symm, h.2.1.symm, h.2.2.1.symm, h.2.2.2.1.symm, h.2.2.2.2.symm⟩

theorem parse_field_w_false (st : ParsedFields) :
    parse_field st "w=false".toList =
      some { st with wrap_mode := some NavigateWrapMode.Disallow } := by
  simp [parse_field, find_split]

/-- C11, as stated, fails: `t=navigate:w=true:w=false;down` is accepted with wrap mode Disallow
(the last `w` field decides), while the same payload with the field `w=false` removed,
`t=navigate:w=true;down`, is accepted with wrap mode Allow. -/
theorem removing_w_false_changes_message :
    OSC8671.parse "t=navigate:w=true:w=false;down".toList =
        some { type := SeamlessNavigationRequestType.Navigate,
               direction := some NavigateDirection.Down,
               wrap_mode := NavigateWrapMode.Disallow } ∧
      OSC8671.parse "t=navigate:w=true;down".toList =
        some { type := SeamlessNavigationRequestType.Navigate,
               direction := some NavigateDirection.Down,
               wrap_mode := NavigateWrapMode.Allow } ∧
      OSC8671.parse "t=navigate:w=true:w=false;down".toList ≠
        OSC8671.parse "t=navigate:w=true;down".toList := by
  decide

/-- C11, amended: when an accepted payload has no `w` field the parsed wrap mode is Disallow,
and when it has no `h` field `hide_cursor_on_enter` is false. A Navigate or Acknowledge payload
containing a field `w=false` with no field `w=true` in front of it parses to the same message
as the payload with that field removed, and `t=register:h=false` parses to the same message as
`t=register`. -/
theorem parse_defaults :
    (∀ p m seg0 rest, OSC8671.parse p = some m → split ';' p = seg0 :: rest →
        ((∀ f ∈ split ':' seg0, field_key f ≠ some "w".toList) →
          m.wrap_mode = NavigateWrapMode.Disallow) ∧
        ((∀ f ∈ split ':' seg0, field_key f ≠ some "h".toList) →
          m.hide_cursor_on_enter = false)) ∧
      (∀ p p0 seg0 seg0' rest pre post m,
        split ';' p = seg0 :: rest → split ':' seg0 = pre ++ "w=false".toList :: post →
        split ';' p0 = seg0' :: rest → split ':' seg0' = pre ++ post →
        "w=true".toList ∉ pre →
        (m.type = SeamlessNavigationRequestType.Navigate ∨
          m.type = SeamlessNavigationRequestType.Acknowledge) →
        (OSC8671.parse p = some m ↔ OSC8671.parse p0 = some m)) ∧
      OSC8671.parse "t=register:h=false".toList = OSC8671.parse "t=register".toList ∧
      OSC8671.parse "t=register".toList =
        some { type := SeamlessNavigationRequestType.Register } := by
  refine ⟨?_, ?_, by decide, by decide⟩
  · intro p m seg0 rest hm hs
    obtain ⟨seg0', rest', st, hs', -, hst, hfin⟩ := parse_some p m hm
    rw [hs] at hs'
    simp only [List.cons.injEq] at hs'
    obtain ⟨rfl, rfl⟩ := hs'
    obtain ⟨-, -, -, -, hw, hh⟩ := parse_finish_some st rest m hfin
    refine ⟨fun hno => ?_, fun hno => ?_⟩
    · rw [hw, parse_fields_wrap_of_no_w _ hno {} st hst]
      rfl
    · rw [hh, parse_fields_hide_of_no_h _ hno {} st hst]
      rfl
  · intro p p0 seg0 seg0' rest pre post m hs hfs hs0 hfs0 hpre hm
    rw [parse_of_split p seg0 rest hs, parse_of_split p0 seg0' rest hs0]
    by_cases hl : rest.length > 1
    · rw [if_pos hl, if_pos hl]
    · rw [if_neg hl, if_neg hl, hfs, hfs0, parse_fields_append, parse_fields_append]
      cases h1 : parse_fields {} pre with
      | none => simp
      | some s1 =>
        simp only [parse_fields]
        rw [parse_field_w_false]
        simp only
        have hs1 : s1.wrap_mode ≠ some NavigateWrapMode.Allow :=
          parse_fields_wrap_not_allow pre hpre {} s1 (by simp) h1
        have hR : same_but_wrap_default
            { s1 with wrap_mode := some NavigateWrapMode.Disallow } s1 := by
          refine ⟨rfl, rfl, rfl, rfl, ?_⟩
          cases hw : s1.wrap_mode with
          | none => rfl
          | some w =>
            cases w with
            | Allow => exact absurd hw hs1
            | Disallow => rfl
        have hpost := parse_fields_same_but_wrap_default post _ _ hR
        cases ha : parse_fields { s1 with wrap_mode := some NavigateWrapMode.Disallow } post with
        | none =>
          cases hb : parse_fields s1 post with
          | none => simp
          | some b => simp [ha, hb] at hpost
        | some a =>
          cases hb : parse_fields s1 post with
          | none => simp [ha, hb] at hpost
          | some b =>
            simp only [ha, hb] at hpost ⊢
            exact ⟨parse_finish_same_but_wrap_default a b rest m hpost hm,
              parse_finish_same_but_wrap_default b a rest m
                (same_but_wrap_default_symm a b hpost) hm⟩

/-- Witness of the amended C11: `t=navigate;down` has no `w` field, and removing `w=false` from
`t=acknowledge:w=false:id=7;up` does not change the message. -/
theorem parse_defaults_witness :
    NavigateWrapMode.Disallow = NavigateWrapMode.Disallow ∧
      (OSC8671.parse "t=acknowledge:w=false:id=7;up".toList =
          some { type := SeamlessNavigationRequestType.Acknowledge,
                 direction := some NavigateDirection.Up, id := some [ '7'] } ↔
        OSC8671.parse "t=acknowledge:id=7;up".toList =
          some { type := SeamlessNavigationRequestType.Acknowledge,
                 direction := some NavigateDirection.Up, id := some [ '7'] }) :=
  ⟨(parse_defaults.1 "t=navigate;down".toList
      { type := SeamlessNavigationRequestType.Navigate,
        direction := some NavigateDirection.Down }
      "t=navigate".toList [ "down".toList] (by decide) (by decide)).1 (by decide),
    parse_defaults.2.1 "t=acknowledge:w=false:id=7;up".toList "t=acknowledge:id=7;up".toList
      "t=acknowledge:w=false:id=7".toList "t=acknowledge:id=7".toList [ "up".toList]
      [ "t=acknowledge".toList] [ "id=7".toList]
      { type := SeamlessNavigationRequestType.Acknowledge,
        direction := some NavigateDirection.Up, id := some [ '7'] }
      (by decide) (by decide) (by decide) (by decide) (by decide) (Or.inr rfl)⟩

/-! ### The serialized text -/

theorem digit_char_eq_digitChar (d : Nat) (h : d < 10) : digit_char d = Nat.digitChar d := by
  interval_cases d <;> rfl

theorem present_digits_eq_toDigitsCore (fuel : Nat) :
    ∀ n acc, present_digits fuel n acc = Nat.toDigitsCore 10 fuel n acc := by
  induction fuel with
  | zero =>
    intro n acc
    rfl
  | succ fuel ih =>
    intro n acc
    simp only [present_digits, Nat.toDigitsCore]
    rw [digit_char_eq_digitChar (n % 10) (Nat.mod_lt _ (by decide)), ih]

theorem present_u32_eq_toDigits (n : Nat) : present_u32 n = Nat.toDigits 10 n :=
  present_digits_eq_toDigitsCore (n + 1) n []

theorem type_string_eq_type_name (t : SeamlessNavigationRequestType) :
    type_string t = type_name t := by
  cases t <;> rfl

theorem direction_string_eq_direction_name (d : NavigateDirection) :
    direction_string d = direction_name d := by
  cases d <;> rfl

/-- C12: for every message `m`, `m.serialize()` is exactly `ESC ] 8671 ; t=<type name>`, then
`:w=true` iff the wrap mode is Allow, then `:h=true` iff `hide_cursor_on_enter` is true, then
`:id=<id>` iff the id is present, then `:r=<start>,<end>` in decimal iff the range is present,
then `;<direction name>` iff the direction is present, in that order, terminated by `ESC \`.
The fields it writes into the first segment never include `w=false` or `h=false`. -/
theorem serialize_exact (m : OSC8671) :
    m.serialize = serialize_text m ∧
      m.serialize = osc_open ++ (join_with ':' (fields_of m) ++
        (match m.direction with
         | some d => ';' :: direction_string d
         | none => []) ++ osc_close) ∧
      "w=false".toList ∉ fields_of m ∧ "h=false".toList ∉ fields_of m := by
  refine ⟨?_, ?_, ?_, ?_⟩
  · obtain ⟨t, d, id, r, w, h⟩ := m
    cases w <;> cases h <;> cases id <;> cases r <;> cases d <;>
      simp [OSC8671.serialize, serialize_text, type_string_eq_type_name,
        direction_string_eq_direction_name, present_u32_eq_toDigits]
  · rw [serialize_eq_body]
    rfl
  · obtain ⟨t, d, id, r, w, h⟩ := m
    cases w <;> cases h <;> cases id <;> cases r <;> cases t <;> simp [fields_of, type_string]
  · obtain ⟨t, d, id, r, w, h⟩ := m
    cases w <;> cases h <;> cases id <;> cases r <;> cases t <;> simp [fields_of, type_string]

/-! ### The order of the fields -/

/-- One iteration of the field loop writes the value of the field over the state: it fails or
succeeds whatever the state is. -/
theorem parse_field_merge (st : ParsedFields) (f : List Char) :
    parse_field st f = (parse_field {} f).map (fun d => st.merge d) := by
  unfold parse_field
  cases find_split '=' f with
  | none => rfl
  | some kv =>
    obtain ⟨k, v⟩ := kv
    simp only
    split_ifs
    · rfl
    · rfl
    · rfl
    · rfl
    · rfl
    · rfl
    · cases type_map.find? (fun x => x.1 = v) <;> rfl
    · rfl
    · rfl
    · cases parse_range v <;> rfl
    · rfl

theorem parse_fields_cons_merge (st : ParsedFields) (f : List Char) (fs : List (List Char)) :
    parse_fields st (f :: fs) =
      match parse_field {} f with
      | none => none
      | some d => parse_fields (st.merge d) fs := by
  rw [parse_fields, parse_field_merge]
  cases parse_field {} f <;> rfl

theorem merge_comm (st d e : ParsedFields) (h : d.disjoint e) :
    (st.merge d).merge e = (st.merge e).merge d := by
  obtain ⟨dt, di, dw, dr, dh⟩ := d
  obtain ⟨et, ei, ew, er, eh⟩ := e
  obtain ⟨h1, h2, h3, h4, h5⟩ := h
  simp only at h1 h2 h3 h4 h5
  unfold ParsedFields.merge
  simp only [ParsedFields.mk.injEq]
  refine ⟨?_, ?_, ?_, ?_, ?_⟩
  · rcases h1 with h | h <;> subst h <;> rfl
  · rcases h2 with h | h <;> subst h <;> rfl
  · rcases h3 with h | h <;> subst h <;> rfl
  · rcases h4 with h | h <;> subst h <;> rfl
  · rcases h5 with h | h <;> subst h <;> rfl

/-- Fields with different keys write to different members of the state. -/
theorem parse_field_disjoint (f g : List Char) (d e : ParsedFields)
    (hf : parse_field {} f = some d) (hg : parse_field {} g = some e)
    (hk : field_key f ≠ field_key g) : d.disjoint e := by
  obtain ⟨k, v, hks, hcase⟩ := parse_field_some _ _ _ hf
  obtain ⟨k', v', hks', hcase'⟩ := parse_field_some _ _ _ hg
  have hne : k ≠ k' := by
    intro e
    apply hk
    unfold field_key
    rw [hks, hks', e]
  unfold ParsedFields.disjoint
  rcases hcase with ⟨h1, -, rfl⟩ | ⟨h1, -, rfl⟩ | ⟨h1, -, rfl⟩ | ⟨h1, -, rfl⟩ |
      ⟨h1, x, -, rfl⟩ | ⟨h1, -, rfl⟩ | ⟨h1, r, -, rfl⟩ <;>
    rcases hcase' with ⟨h2, -, rfl⟩ | ⟨h2, -, rfl⟩ | ⟨h2, -, rfl⟩ | ⟨h2, -, rfl⟩ |
      ⟨h2, x', -, rfl⟩ | ⟨h2, -, rfl⟩ | ⟨h2, r', -, rfl⟩ <;>
    first
    | exact absurd (h1.trans h2.symm) hne
    | simp

/-- The field loop gives the same state for every order of fields with different keys. -/
theorem parse_fields_perm (fs fs' : List (List Char)) (hp : fs.Perm fs') :
    (fs.map field_key).Nodup → ∀ st, parse_fields st fs = parse_fields st fs' := by
  induction hp with
  | nil => intro _ _; rfl
  | cons x _ ih =>
    intro hn st
    rw [parse_fields_cons_merge, parse_fields_cons_merge]
    cases parse_field {} x with
    | none => rfl
    | some d => exact ih (List.nodup_cons.1 hn).2 _
  | swap x y l =>
    intro hn st
    rw [parse_fields_cons_merge, parse_fields_cons_merge st x]
    cases hx : parse_field {} x with
    | none =>
      cases hy : parse_field {} y with
      | none => rfl
      | some e =>
        simp only
        rw [parse_fields_cons_merge, hx]
    | some d =>
      cases hy : parse_field {} y with
      | none =>
        simp only
        rw [parse_fields_cons_merge, hy]
      | some e =>
        simp only
        rw [parse_fields_cons_merge, parse_fields_cons_merge, hx, hy]
        simp only
        have hk : field_key y ≠ field_key x := by
          simp only [List.map_cons, List.nodup_cons, List.mem_cons, not_or] at hn
          exact hn.1.1
        rw [merge_comm st e d (parse_field_disjoint y x e d hy hx hk)]
  | trans h1 _ ih1 ih2 =>
    intro hn st
    rw [ih1 hn st]
    exact ih2 (((h1.map field_key).nodup_iff).1 hn) st

/-- A field whose key does not come again later keeps its value to the end of the loop. -/
theorem parse_fields_keeps (f : List Char) (d : ParsedFields) (hf : parse_field {} f = some d)
    (post : List (List Char)) :
    (∀ g ∈ post, field_key g ≠ field_key f) →
      ∀ s st, parse_fields s post = some st → s.merge d = s → st.merge d = st := by
  induction post with
  | nil =>
    intro _ s st h hs
    simp only [parse_fields, Option.some.injEq] at h
    rw [← h]
    exact hs
  | cons g post ih =>
    intro hno s st h hs
    rw [parse_fields_cons_merge] at h
    cases hg : parse_field {} g with
    | none => rw [hg] at h; cases h
    | some e =>
      rw [hg] at h
      simp only at h
      refine ih (fun g' hg' => hno g' (List.mem_cons_of_mem _ hg')) _ st h ?_
      rw [merge_comm s e d (parse_field_disjoint g f e d hg hf (hno g (List.mem_cons_self _ _))),
        hs]

theorem merge_idem (s d : ParsedFields) : (s.merge d).merge d = s.merge d := by
  obtain ⟨dt, di, dw, dr, dh⟩ := d
  unfold ParsedFields.merge
  simp only [ParsedFields.mk.injEq]
  refine ⟨?_, ?_, ?_, ?_, ?_⟩
  · cases dt <;> rfl
  · cases di <;> rfl
  · cases dw <;> rfl
  · cases dr <;> rfl
  · cases dh <;> rfl

theorem merge_eq_self (st d : ParsedFields) (h : st.merge d = st) :
    (∀ t, d.type = some t → st.type = some t) ∧ (∀ i, d.id = some i → st.id = some i) ∧
      (∀ w, d.wrap_mode = some w → st.wrap_mode = some w) ∧
      (∀ r, d.range = some r → st.range = some r) ∧
      (∀ b, d.hide_cursor_on_enter = some b → st.hide_cursor_on_enter = some b) := by
  obtain ⟨dt, di, dw, dr, dh⟩ := d
  obtain ⟨t, i, w, r, b⟩ := st
  unfold ParsedFields.merge at h
  simp only [ParsedFields.mk.injEq] at h
  obtain ⟨h1, h2, h3, h4, h5⟩ := h
  refine ⟨?_, ?_, ?_, ?_, ?_⟩
  · intro x hx
    simp only at hx
    subst hx
    exact h1.symm
  · intro x hx
    simp only at hx
    subst hx
    exact h2.symm
  · intro x hx
    simp only at hx
    subst hx
    exact h3.symm
  · intro x hx
    simp only at hx
    subst hx
    exact h4.symm
  · intro x hx
    simp only at hx
    subst hx
    exact h5.symm

theorem join_with_cons_ne_nil (c : Char) (f : List Char) (fs : List (List Char))
    (h : f ≠ []) : join_with c (f :: fs) ≠ [] := by
  cases fs with
  | nil => exact h
  | cons g gs =>
    cases f with
    | nil => exact absurd rfl h
    | cons x xs => simp [join_with]

theorem split_join_with (c : Char) (f : List Char) (fs : List (List Char)) (hf : f ≠ [])
    (h : ∀ g ∈ f :: fs, c ∉ g) : split c (join_with c (f :: fs)) = f :: fs := by
  unfold split
  rw [if_neg (join_with_cons_ne_nil c f fs hf)]
  exact split_pieces_join_with c (f :: fs) (by simp) h

/-- C36: `OSC8671::parse` does not depend on the order of the fields of the first segment. For
an accepted payload whose fields have different keys, the payload with the fields in any other
order (and the same direction segment) is accepted with the same result. In every accepted
payload each field is valid on its own, and a field whose key does not occur again after it
gives the value of the message: the last field with a key decides. -/
theorem parse_field_order (p seg0 : List Char) (rest : List (List Char)) (m : OSC8671)
    (hs : split ';' p = seg0 :: rest) (h : OSC8671.parse p = some m) :
    (∀ fs, fs.Perm (split ':' seg0) → ((split ':' seg0).map field_key).Nodup →
        OSC8671.parse (join_with ';' (join_with ':' fs :: rest)) = some m) ∧
      (∀ f ∈ split ':' seg0, ∃ d, parse_field {} f = some d) ∧
      ∀ pre f post d, split ':' seg0 = pre ++ f :: post →
        (∀ g ∈ post, field_key g ≠ field_key f) → parse_field {} f = some d →
          (∀ t, d.type = some t → m.type = t) ∧ (∀ i, d.id = some i → m.id = some i) ∧
            (∀ w, d.wrap_mode = some w → m.wrap_mode = w) ∧
            (∀ r, d.range = some r → m.range = some r) ∧
            (∀ b, d.hide_cursor_on_enter = some b → m.hide_cursor_on_enter = b) := by
  obtain ⟨seg0', rest', st, hs', hlen, hfields, hfin⟩ := parse_some p m h
  rw [hs] at hs'
  simp only [List.cons.injEq] at hs'
  obtain ⟨rfl, rfl⟩ := hs'
  have heach : ∀ f ∈ split ':' seg0, ∃ d, parse_field {} f = some d := by
    intro f hf
    obtain ⟨s1, s2, h12⟩ := parse_fields_each _ _ _ hfields f hf
    rw [parse_field_merge] at h12
    cases hd : parse_field {} f with
    | none => rw [hd] at h12; cases h12
    | some d => exact ⟨d, rfl⟩
  have hseg : ';' ∉ seg0 := not_mem_of_mem_split _ _ _ (by rw [hs]; simp)
  refine ⟨?_, heach, ?_⟩
  · intro fs hperm hnodup
    have hvalid : ∀ f ∈ fs, f ≠ [] ∧ ':' ∉ f ∧ ';' ∉ f := by
      intro f hf
      have hf' : f ∈ split ':' seg0 := hperm.mem_iff.1 hf
      refine ⟨?_, not_mem_of_mem_split _ _ _ hf',
        fun hx => hseg (mem_of_mem_split _ _ _ hf' _ hx)⟩
      intro he
      obtain ⟨d, hd⟩ := heach f hf'
      rw [he] at hd
      have hnil : parse_field {} ([] : List Char) = none := rfl
      rw [hnil] at hd
      cases hd
    cases hfs : fs with
    | nil =>
      rw [hfs] at hperm
      have := hperm.symm.eq_nil
      rw [this] at hfields
      simp only [parse_fields, Option.some.injEq] at hfields
      rw [← hfields] at hfin
      simp [parse_finish, check_fields] at hfin
    | cons f0 fs0 =>
      rw [hfs] at hvalid hperm
      have hsplit0 : split ':' (join_with ':' (f0 :: fs0)) = f0 :: fs0 :=
        split_join_with ':' f0 fs0 (hvalid f0 (List.mem_cons_self _ _)).1
          (fun g hg => (hvalid g hg).2.1)
      have hjoin : ';' ∉ join_with ':' (f0 :: fs0) := by
        intro hx
        rcases mem_join_with _ _ _ hx with h1 | ⟨g, hg, hgx⟩
        · exact absurd h1 (by decide)
        · exact (hvalid g hg).2.2 hgx
      have hsplit : split ';' (join_with ';' (join_with ':' (f0 :: fs0) :: rest)) =
          join_with ':' (f0 :: fs0) :: rest := by
        refine split_join_with ';' _ rest
          (join_with_cons_ne_nil ':' f0 fs0 (hvalid f0 (List.mem_cons_self _ _)).1) ?_
        intro g hg
        rcases List.mem_cons.1 hg with h1 | h1
        · rw [h1]
          exact hjoin
        · exact not_mem_of_mem_split ';' p g (by rw [hs]; exact List.mem_cons_of_mem _ h1)
      rw [parse_of_split _ _ _ hsplit, if_neg (by omega), hsplit0,
        ← parse_fields_perm _ _ hperm.symm hnodup, hfields]
      exact hfin
  · intro pre f post d hsplit hno hd
    rw [hsplit, parse_fields_append] at hfields
    cases hpre : parse_fields {} pre with
    | none => rw [hpre] at hfields; cases hfields
    | some s1 =>
      rw [hpre] at hfields
      simp only at hfields
      rw [parse_fields_cons_merge, hd] at hfields
      simp only at hfields
      have hkeep := parse_fields_keeps f d hd post hno _ st hfields (merge_idem s1 d)
      obtain ⟨k1, k2, k3, k4, k5⟩ := merge_eq_self st d hkeep
      obtain ⟨c1, -, c3, c4, c5, c6⟩ := parse_finish_some st rest m hfin
      refine ⟨?_, ?_, ?_, ?_, ?_⟩
      · intro t ht
        have := k1 t ht
        unfold check_fields at c1
        rw [this] at c1
        simp only at c1
        split_ifs at c1
        simpa using c1.symm
      · intro i hi
        rw [c3, k2 i hi]
      · intro w hw
        rw [c5, k3 w hw]
        rfl
      · intro r hr
        rw [c4, k4 r hr]
      · intro b hb
        rw [c6, k5 b hb]
        rfl

/-- Witness of C36: `w=true:id=7:t=navigate;left` parses to what `t=navigate:id=7:w=true;left`
parses to. -/
theorem parse_field_order_witness :
    OSC8671.parse "w=true:id=7:t=navigate;left".toList =
      some
        { type := SeamlessNavigationRequestType.Navigate
          direction := some NavigateDirection.Left
          id := some [ '7']
          wrap_mode := NavigateWrapMode.Allow } :=
  (parse_field_order "t=navigate:id=7:w=true;left".toList "t=navigate:id=7:w=true".toList
    [ "left".toList] _ (by decide) (by decide)).1
    [ "w=true".toList, "id=7".toList, "t=navigate".toList] (by decide) (by decide)

end ttx.terminal

namespace ttx

open terminal

/-! ## The dispatch of pending events -/

/-! ### One iteration of the dispatch loop -/

theorem handle_event_frame {L : Type} (H : Handlers L) (event : terminal.OSC8671)
    (did_timeout : Bool) (self : InputThread L) :
    (InputThread.handle_event H event did_timeout self).2.1.m_pending_events =
        self.m_pending_events ∧
      (InputThread.handle_event H event did_timeout self).2.1.m_done = self.m_done ∧
      (InputThread.handle_event H event did_timeout self).2.1.now = self.now := by
  unfold InputThread.handle_event
  by_cases h1 : event.type = SeamlessNavigationRequestType.Enter
  · rw [if_pos h1]
    cases H.enter event self.m_layout_state <;> exact ⟨rfl, rfl, rfl⟩
  · rw [if_neg h1]
    by_cases h2 : event.type ≠ SeamlessNavigationRequestType.Navigate
    · rw [if_pos h2]
      exact ⟨rfl, rfl, rfl⟩
    · rw [if_neg h2]
      dsimp only
      split_ifs <;> exact ⟨rfl, rfl, rfl⟩

theorem process_zero {L : Type} (H : Handlers L) (self : InputThread L) :
    InputThread.process_pending_events H 0 self = (self, []) := rfl

theorem process_done {L : Type} (H : Handlers L) (fuel : Nat) (self : InputThread L)
    (h : self.m_done = true) : InputThread.process_pending_events H fuel self = (self, []) := by
  cases fuel with
  | zero => rfl
  | succ n => simp [InputThread.process_pending_events, h]

theorem process_empty {L : Type} (H : Handlers L) (fuel : Nat) (self : InputThread L)
    (h : self.m_pending_events = []) :
    InputThread.process_pending_events H fuel self = (self, []) := by
  cases fuel with
  | zero => rfl
  | succ n =>
    simp only [InputThread.process_pending_events, h]
    split_ifs <;> rfl

/-- The head is pending and its deadline has passed, for an OSC 8671 event. -/
theorem process_timeout {L : Type} (H : Handlers L) (fuel : Nat) (self : InputThread L)
    (first : PendingEvent) (rest : List PendingEvent) (x : terminal.OSC8671)
    (hd : self.m_done = false) (hq : self.m_pending_events = first :: rest)
    (hp : first.pending = true) (hx : first.event = Event.OSC8671 x)
    (ht : self.now > first.receptionTime + timeout) :
    InputThread.process_pending_events H (fuel + 1) self =
      ((InputThread.process_pending_events H fuel
          (InputThread.handle_event H x true { self with m_pending_events := rest }).2.1).1,
        { event := Event.OSC8671 x, did_timeout := true } ::
          (InputThread.process_pending_events H fuel
            (InputThread.handle_event H x true { self with m_pending_events := rest }).2.1).2) := by
  obtain ⟨d, l, q, rt, nw⟩ := self
  obtain ⟨ev, t, p⟩ := first
  simp only at hd hq hp
  subst hd hq hp
  simp only at hx ht
  subst hx
  simp only [InputThread.process_pending_events]
  simp [ht]

/-- The head is pending and its deadline has not passed. -/
theorem process_wait {L : Type} (H : Handlers L) (fuel : Nat) (self : InputThread L)
    (first : PendingEvent) (rest : List PendingEvent)
    (hd : self.m_done = false) (hq : self.m_pending_events = first :: rest)
    (hp : first.pending = true) (ht : ¬ self.now > first.receptionTime + timeout) :
    InputThread.process_pending_events H (fuel + 1) self =
      ({ self with m_pending_events := rest ++ [first] }, []) := by
  obtain ⟨d, l, q, rt, nw⟩ := self
  obtain ⟨ev, t, p⟩ := first
  simp only at hd hq hp
  subst hd hq hp
  simp only at ht
  simp only [InputThread.process_pending_events]
  simp [ht]

/-- The head is not pending and holds an OSC 8671 event that its handler reports processed. -/
theorem process_osc {L : Type} (H : Handlers L) (fuel : Nat) (self : InputThread L)
    (first : PendingEvent) (rest : List PendingEvent) (x : terminal.OSC8671)
    (hd : self.m_done = false) (hq : self.m_pending_events = first :: rest)
    (hp : first.pending = false) (hx : first.event = Event.OSC8671 x)
    (hr : (InputThread.handle_event H x false { self with m_pending_events := rest }).2.2 = true) :
    InputThread.process_pending_events H (fuel + 1) self =
      ((InputThread.process_pending_events H fuel
          (InputThread.handle_event H x false { self with m_pending_events := rest }).2.1).1,
        { event := Event.OSC8671 x, did_timeout := false } ::
          (InputThread.process_pending_events H fuel
            (InputThread.handle_event H x false { self with m_pending_events := rest }).2.1).2) := by
  obtain ⟨d, l, q, rt, nw⟩ := self
  obtain ⟨ev, t, p⟩ := first
  simp only at hd hq hp
  subst hd hq hp
  simp only at hx hr
  subst hx
  simp only [InputThread.process_pending_events]
  simp [hr]

/-- The head is not pending and holds an event other than OSC 8671. -/
theorem process_rvalue {L : Type} (H : Handlers L) (fuel : Nat) (self : InputThread L)
    (first : PendingEvent) (rest : List PendingEvent)
    (hd : self.m_done = false) (hq : self.m_pending_events = first :: rest)
    (hp : first.pending = false) (hx : ∀ x, first.event ≠ Event.OSC8671 x) :
    InputThread.process_pending_events H (fuel + 1) self =
      ((InputThread.process_pending_events H fuel
          (InputThread.handle_event_rvalue H first.event
            { self with m_pending_events := rest })).1,
        { event := first.event, did_timeout := false } ::
          (InputThread.process_pending_events H fuel
            (InputThread.handle_event_rvalue H first.event
              { self with m_pending_events := rest })).2) := by
  obtain ⟨d, l, q, rt, nw⟩ := self
  obtain ⟨ev, t, p⟩ := first
  simp only at hd hq hp
  subst hd hq hp
  simp only at hx
  simp only [InputThread.process_pending_events]
  cases ev with
  | OSC8671 x => exact absurd rfl (hx x)
  | _ => simp

/-- The result of the OSC 8671 handler: `false` only for a Navigate for which `Tab::navigate`
returned no value. -/
theorem handle_event_result {L : Type} (H : Handlers L) (event : terminal.OSC8671)
    (did_timeout : Bool) (self : InputThread L) :
    (InputThread.handle_event H event did_timeout self).2.2 =
      if event.type = SeamlessNavigationRequestType.Navigate then
        (H.navigate event
          (if did_timeout then Tab.SeamlessNavigateMode.Disabled
            else Tab.SeamlessNavigateMode.Enabled) self.m_layout_state).1.isSome
      else true := by
  unfold InputThread.handle_event
  by_cases h1 : event.type = SeamlessNavigationRequestType.Enter
  · rw [if_pos h1, if_neg (by rw [h1]; decide)]
    cases H.enter event self.m_layout_state <;> rfl
  · rw [if_neg h1]
    by_cases h2 : event.type = SeamlessNavigationRequestType.Navigate
    · rw [if_neg (not_not.2 h2), if_pos h2]
      dsimp only
      by_cases h3 : (H.navigate event
          (if did_timeout then Tab.SeamlessNavigateMode.Disabled
            else Tab.SeamlessNavigateMode.Enabled) self.m_layout_state).1.isSome = true ∧
          event.wrap_mode = NavigateWrapMode.Disallow
      · rw [if_pos h3]
        exact h3.1.symm
      · rw [if_neg h3]
    · rw [if_pos h2, if_neg h2]

theorem handle_event_rvalue_frame {L : Type} (H : Handlers L)
    (hframe : ∀ e s, (H.handle_event e s).m_pending_events = s.m_pending_events ∧
      (H.handle_event e s).m_done = s.m_done)
    (event : Event) (self : InputThread L) :
    (InputThread.handle_event_rvalue H event self).m_pending_events = self.m_pending_events ∧
      (InputThread.handle_event_rvalue H event self).m_done = self.m_done := by
  cases event <;> first | exact hframe _ self | exact ⟨rfl, rfl⟩

theorem process_all {L : Type} (H : Handlers L)
    (hframe : ∀ e s, (H.handle_event e s).m_pending_events = s.m_pending_events ∧
      (H.handle_event e s).m_done = s.m_done) (fuel : Nat) :
    ∀ self : InputThread L, self.m_done = false →
      (∀ e ∈ self.m_pending_events, e.pending = false) →
      (∀ e ∈ self.m_pending_events, ∀ x, e.event = Event.OSC8671 x →
        ∀ s, (InputThread.handle_event H x false s).2.2 = true) →
      self.m_pending_events.length < fuel →
      (InputThread.process_pending_events H fuel self).1.m_pending_events = [] ∧
        (InputThread.process_pending_events H fuel self).2 =
          self.m_pending_events.map (fun e => { event := e.event, did_timeout := false }) := by
  induction fuel with
  | zero =>
    intro self _ _ _ hl
    exact absurd hl (Nat.not_lt_zero _)
  | succ fuel ih =>
    intro self hd hp hproc hl
    cases hq : self.m_pending_events with
    | nil =>
      rw [process_empty H _ self hq]
      exact ⟨hq, rfl⟩
    | cons first rest =>
      rw [hq] at hp hproc hl
      have hfp : first.pending = false := hp first (by simp)
      have hrest : ∀ e ∈ rest, e.pending = false := fun e he => hp e (by simp [he])
      have hrproc : ∀ e ∈ rest, ∀ x, e.event = Event.OSC8671 x →
          ∀ s, (InputThread.handle_event H x false s).2.2 = true :=
        fun e he => hproc e (by simp [he])
      have hlen : rest.length < fuel := by
        simp only [List.length_cons] at hl
        omega
      by_cases hx : ∃ x, first.event = Event.OSC8671 x
      · obtain ⟨x, hx⟩ := hx
        have hr := hproc first (by simp) x hx { self with m_pending_events := rest }
        rw [process_osc H fuel self first rest x hd hq hfp hx hr]
        obtain ⟨f1, f2, -⟩ := handle_event_frame H x false { self with m_pending_events := rest }
        have := ih (InputThread.handle_event H x false { self with m_pending_events := rest }).2.1
          (by rw [f2]; exact hd) (by rw [f1]; exact hrest) (by rw [f1]; exact hrproc)
          (by rw [f1]; exact hlen)
        rw [f1] at this
        simp only [List.map_cons, hx]
        exact ⟨this.1, by rw [this.2]⟩
      · have hx' : ∀ x, first.event ≠ Event.OSC8671 x := fun x e => hx ⟨x, e⟩
        rw [process_rvalue H fuel self first rest hd hq hfp hx']
        obtain ⟨f1, f2⟩ :=
          handle_event_rvalue_frame H hframe first.event { self with m_pending_events := rest }
        have := ih (InputThread.handle_event_rvalue H first.event
            { self with m_pending_events := rest })
          (by rw [f2]; exact hd) (by rw [f1]; exact hrest) (by rw [f1]; exact hrproc)
          (by rw [f1]; exact hlen)
        rw [f1] at this
        simp only [List.map_cons]
        exact ⟨this.1, by rw [this.2]⟩

theorem handled_once_osc {L : Type} (H : Handlers L) (x : terminal.OSC8671)
    (self : InputThread L) :
    InputThread.handled_once H (Event.OSC8671 x) self =
      (InputThread.handle_event H x false self).2.1 := rfl

theorem handled_once_rvalue {L : Type} (H : Handlers L) (event : Event)
    (self : InputThread L) (h : ∀ x, event ≠ Event.OSC8671 x) :
    InputThread.handled_once H event self = InputThread.handle_event_rvalue H event self := by
  cases event <;> first | rfl | exact absurd rfl (h _)

theorem process_all_state {L : Type} (H : Handlers L)
    (hframe : ∀ e s, (H.handle_event e s).m_pending_events = s.m_pending_events ∧
      (H.handle_event e s).m_done = s.m_done) (fuel : Nat) :
    ∀ self : InputThread L, self.m_done = false →
      (∀ e ∈ self.m_pending_events, e.pending = false) →
      (∀ e ∈ self.m_pending_events, ∀ x, e.event = Event.OSC8671 x →
        ∀ s, (InputThread.handle_event H x false s).2.2 = true) →
      self.m_pending_events.length < fuel →
      (InputThread.process_pending_events H fuel self).1 =
        InputThread.handled_in_order H self.m_pending_events self := by
  induction fuel with
  | zero =>
    intro self _ _ _ hl
    exact absurd hl (Nat.not_lt_zero _)
  | succ fuel ih =>
    intro self hd hp hproc hl
    cases hq : self.m_pending_events with
    | nil =>
      rw [process_empty H _ self hq]
      rfl
    | cons first rest =>
      rw [hq] at hp hproc hl
      have hfp : first.pending = false := hp first (by simp)
      have hrest : ∀ e ∈ rest, e.pending = false := fun e he => hp e (by simp [he])
      have hrproc : ∀ e ∈ rest, ∀ x, e.event = Event.OSC8671 x →
          ∀ s, (InputThread.handle_event H x false s).2.2 = true :=
        fun e he => hproc e (by simp [he])
      have hlen : rest.length < fuel := by
        simp only [List.length_cons] at hl
        omega
      by_cases hx : ∃ x, first.event = Event.OSC8671 x
      · obtain ⟨x, hx⟩ := hx
        have hr := hproc first (by simp) x hx { self with m_pending_events := rest }
        rw [process_osc H fuel self first rest x hd hq hfp hx hr]
        obtain ⟨f1, f2, -⟩ := handle_event_frame H x false { self with m_pending_events := rest }
        have := ih (InputThread.handle_event H x false { self with m_pending_events := rest }).2.1
          (by rw [f2]; exact hd) (by rw [f1]; exact hrest) (by rw [f1]; exact hrproc)
          (by rw [f1]; exact hlen)
        rw [f1] at this
        simp only [InputThread.handled_in_order, hx, handled_once_osc]
        exact this
      · have hx' : ∀ x, first.event ≠ Event.OSC8671 x := fun x e => hx ⟨x, e⟩
        rw [process_rvalue H fuel self first rest hd hq hfp hx']
        obtain ⟨f1, f2⟩ :=
          handle_event_rvalue_frame H hframe first.event { self with m_pending_events := rest }
        have := ih (InputThread.handle_event_rvalue H first.event
            { self with m_pending_events := rest })
          (by rw [f2]; exact hd) (by rw [f1]; exact hrest) (by rw [f1]; exact hrproc)
          (by rw [f1]; exact hlen)
        rw [f1] at this
        simp only [InputThread.handled_in_order, handled_once_rvalue H _ _ hx']
        exact this

theorem with_pending_events_self {L : Type} (self : InputThread L) :
    { self with m_pending_events := self.m_pending_events } = self := by
  cases self
  rfl

/-! ### Claims on the dispatch loop -/

/-- C13 does not hold for the code. A pending Navigate `x` received at time `t` is alone in the
queue, neither answered nor past its deadline (`now ≤ t + 200`). A key event is read: the run
that follows pops the Navigate and pushes it to the back, behind the key event, without calling
a handler. Any later run, at whatever time `now'` and without a reply, calls the handler of
the key event first. -/
theorem pending_navigate_is_overtaken {L : Type} (H : Handlers L) (state : L)
    (x : terminal.OSC8671) (t now now' key fuel fuel' : Nat) (h : now ≤ t + timeout) :
    InputThread.input_thread_read H (fuel + 1) [Event.KeyEvent key]
        { m_layout_state := state
          m_pending_events := [{ event := Event.OSC8671 x, receptionTime := t, pending := true }]
          now := now } =
      ({ m_layout_state := state
         m_pending_events :=
           [{ event := Event.KeyEvent key, receptionTime := now },
            { event := Event.OSC8671 x, receptionTime := t, pending := true }]
         now := now }, []) ∧
    ∃ calls,
      (InputThread.process_pending_events H (fuel' + 1)
        { m_layout_state := state
          m_pending_events :=
            [{ event := Event.KeyEvent key, receptionTime := now },
             { event := Event.OSC8671 x, receptionTime := t, pending := true }]
          now := now' }).2 =
        { event := Event.KeyEvent key, did_timeout := false } :: calls := by
  refine ⟨?_, ?_⟩
  · unfold InputThread.input_thread_read
    rw [process_wait H fuel _ { event := Event.OSC8671 x, receptionTime := t, pending := true }
      [{ event := Event.KeyEvent key, receptionTime := now }] rfl rfl rfl
      (by simp only [gt_iff_lt, not_lt]; exact h)]
    rfl
  · rw [process_rvalue H fuel' _ { event := Event.KeyEvent key, receptionTime := now }
      [{ event := Event.OSC8671 x, receptionTime := t, pending := true }] rfl rfl rfl
      (by intro y hy; cases hy)]
    exact ⟨_, rfl⟩

/-- Witness of the scenario of C13 with the idle handlers: the Navigate was received at time 0,
the key event is read at time 100, and a second run at time 150 handles the key event. -/
theorem pending_navigate_is_overtaken_witness :
    ∃ calls,
      (InputThread.process_pending_events idle_handlers 3
        { m_layout_state := ()
          m_pending_events :=
            [{ event := Event.KeyEvent 1, receptionTime := 100 },
             { event := Event.OSC8671 acknowledge_seven, receptionTime := 0, pending := true }]
          now := 150 }).2 =
        { event := Event.KeyEvent 1, did_timeout := false } :: calls :=
  (pending_navigate_is_overtaken idle_handlers () acknowledge_seven 0 100 150 1 0 2
    (by decide)).2

/-- C15: if the exit flag is not set and the entry at the head of the queue is pending and holds
an OSC 8671 event `x` (only these are ever left pending): when `now > receptionTime + 200`,
`process_pending_events` calls the handler of `x` with `did_timeout = true`, the entry is gone
from the queue whatever the handler returns, and the loop continues with the rest of the
queue; when `now = receptionTime + 200` exactly, the entry is not timed out: no handler is
called, and the entry stays in the queue, still pending. -/
theorem process_timed_out_head {L : Type} (H : Handlers L) (fuel : Nat) (self : InputThread L)
    (first : PendingEvent) (rest : List PendingEvent) (x : terminal.OSC8671)
    (hdone : self.m_done = false) (hqueue : self.m_pending_events = first :: rest)
    (hpending : first.pending = true) (hevent : first.event = Event.OSC8671 x) :
    (self.now > first.receptionTime + timeout →
      InputThread.process_pending_events H (fuel + 1) self =
        ((InputThread.process_pending_events H fuel
            (InputThread.handle_event H x true { self with m_pending_events := rest }).2.1).1,
          { event := Event.OSC8671 x, did_timeout := true } ::
            (InputThread.process_pending_events H fuel
              (InputThread.handle_event H x true
                { self with m_pending_events := rest }).2.1).2) ∧
      (InputThread.handle_event H x true
        { self with m_pending_events := rest }).2.1.m_pending_events = rest) ∧
    (self.now = first.receptionTime + timeout →
      (InputThread.process_pending_events H (fuel + 1) self).2 = [] ∧
      (InputThread.process_pending_events H (fuel + 1) self).1.m_pending_events =
        rest ++ [first]) := by
  refine ⟨fun ht => ⟨process_timeout H fuel self first rest x hdone hqueue hpending hevent ht,
    (handle_event_frame H x true _).1⟩, fun ht => ?_⟩
  rw [process_wait H fuel self first rest hdone hqueue hpending (by omega)]
  exact ⟨rfl, rfl⟩

/-- Witness of C15 with the idle handlers: a pending Navigate received at time 0 is handled with
`did_timeout = true` at time 201, and not handled at time 200. -/
theorem process_timed_out_head_witness :
    (InputThread.process_pending_events idle_handlers 2
        { m_layout_state := ()
          m_pending_events :=
            [{ event := Event.OSC8671 acknowledge_seven, receptionTime := 0, pending := true }]
          now := 201 }).2 =
      [{ event := Event.OSC8671 acknowledge_seven, did_timeout := true }] ∧
    (InputThread.process_pending_events idle_handlers 2
        { m_layout_state := ()
          m_pending_events :=
            [{ event := Event.OSC8671 acknowledge_seven, receptionTime := 0, pending := true }]
          now := 200 }).2 = [] :=
  ⟨by
    rw [((process_timed_out_head idle_handlers 1
      { m_layout_state := ()
        m_pending_events :=
          [{ event := Event.OSC8671 acknowledge_seven, receptionTime := 0, pending := true }]
        now := 201 }
      { event := Event.OSC8671 acknowledge_seven, receptionTime := 0, pending := true } []
      acknowledge_seven rfl rfl rfl rfl).1 (by decide)).1]
    rfl,
  ((process_timed_out_head idle_handlers 1
      { m_layout_state := ()
        m_pending_events :=
          [{ event := Event.OSC8671 acknowledge_seven, receptionTime := 0, pending := true }]
        now := 200 }
      { event := Event.OSC8671 acknowledge_seven, receptionTime := 0, pending := true } []
      acknowledge_seven rfl rfl rfl rfl).2 (by decide)).1⟩

/-! ### Replies delivered through `notify_osc_8671` -/

/-- C16: when `notify_osc_8671` receives an Acknowledge whose id equals the id of the OSC 8671
event at the head of the queue, the head entry is removed without a call of its handler, the
other entries keep their order, and the dispatch loop is run on the remaining queue: the
outcome of `notify_osc_8671` is the outcome of `process_pending_events` on the state whose
queue is the tail. -/
theorem notify_acknowledge {L : Type} (H : Handlers L) (fuel : Nat)
    (osc_8671 x : terminal.OSC8671) (self : InputThread L) (first : PendingEvent)
    (rest : List PendingEvent)
    (htype : osc_8671.type = SeamlessNavigationRequestType.Acknowledge)
    (hqueue : self.m_pending_events = first :: rest)
    (hevent : first.event = Event.OSC8671 x) (hid : x.id = osc_8671.id) :
    InputThread.notify_locked osc_8671 self.m_pending_events = (rest, true) ∧
      InputThread.notify_osc_8671 H fuel osc_8671 self =
        InputThread.process_pending_events H fuel { self with m_pending_events := rest } := by
  have hl : InputThread.notify_locked osc_8671 self.m_pending_events = (rest, true) := by
    rw [hqueue]
    simp [InputThread.notify_locked, hevent, hid, htype]
  refine ⟨hl, ?_⟩
  unfold InputThread.notify_osc_8671
  rw [if_neg (by rw [htype]; decide)]
  simp only [hl, if_true]

/-- Witness of C16: the Acknowledge with id `7` removes the head Navigate with id `7`; the key
event behind it is then handled. -/
theorem notify_acknowledge_witness :
    InputThread.notify_osc_8671 idle_handlers 3 acknowledge_seven
        { fresh_navigate_thread with
          m_pending_events := fresh_navigate_thread.m_pending_events ++
            [{ event := Event.KeyEvent 1, receptionTime := 5 }] } =
      InputThread.process_pending_events idle_handlers 3
        { fresh_navigate_thread with
          m_pending_events := [{ event := Event.KeyEvent 1, receptionTime := 5 }] } :=
  (notify_acknowledge idle_handlers 3 acknowledge_seven
    { type := SeamlessNavigationRequestType.Navigate
      direction := some NavigateDirection.Down
      id := some [ '7']
      wrap_mode := NavigateWrapMode.Allow }
    { fresh_navigate_thread with
      m_pending_events := fresh_navigate_thread.m_pending_events ++
        [{ event := Event.KeyEvent 1, receptionTime := 5 }] }
    _ [{ event := Event.KeyEvent 1, receptionTime := 5 }] rfl rfl rfl rfl).2

/-- C17: when `notify_osc_8671` receives a Navigate whose id equals the id of the pending
OSC 8671 event `x` at the head of the queue, the reception time of the head entry is set to the
clock epoch, the range of its event is replaced by the range of the reply, and the entry is
otherwise unchanged. With the exit flag not set and the steady clock more than 200 ms past its
epoch, the dispatch run that follows calls the handler of that entry with
`did_timeout = true` at once, and the entry is gone from the queue. -/
theorem notify_navigate {L : Type} (H : Handlers L) (fuel : Nat)
    (osc_8671 x : terminal.OSC8671) (self : InputThread L) (t : Nat)
    (rest : List PendingEvent)
    (htype : osc_8671.type = SeamlessNavigationRequestType.Navigate)
    (hdone : self.m_done = false)
    (hqueue : self.m_pending_events =
      { event := Event.OSC8671 x, receptionTime := t, pending := true } :: rest)
    (hid : x.id = osc_8671.id) (hnow : timeout < self.now) :
    InputThread.notify_locked osc_8671 self.m_pending_events =
        ({ event := Event.OSC8671 { x with range := osc_8671.range }
           receptionTime := 0, pending := true } :: rest, true) ∧
      InputThread.notify_osc_8671 H (fuel + 1) osc_8671 self =
        ((InputThread.process_pending_events H fuel
            (InputThread.handle_event H { x with range := osc_8671.range } true
              { self with m_pending_events := rest }).2.1).1,
          { event := Event.OSC8671 { x with range := osc_8671.range }, did_timeout := true } ::
            (InputThread.process_pending_events H fuel
              (InputThread.handle_event H { x with range := osc_8671.range } true
                { self with m_pending_events := rest }).2.1).2) ∧
      (InputThread.handle_event H { x with range := osc_8671.range } true
        { self with m_pending_events := rest }).2.1.m_pending_events = rest := by
  have hl : InputThread.notify_locked osc_8671 self.m_pending_events =
      ({ event := Event.OSC8671 { x with range := osc_8671.range }
         receptionTime := 0, pending := true } :: rest, true) := by
    rw [hqueue]
    simp [InputThread.notify_locked, hid, htype]
  refine ⟨hl, ?_, (handle_event_frame H _ true _).1⟩
  unfold InputThread.notify_osc_8671
  rw [if_neg (by rw [htype]; decide)]
  simp only [hl, if_true]
  exact process_timeout H fuel
    { self with
      m_pending_events :=
        { event := Event.OSC8671 { x with range := osc_8671.range }
          receptionTime := 0, pending := true } :: rest }
    { event := Event.OSC8671 { x with range := osc_8671.range }
      receptionTime := 0, pending := true } rest { x with range := osc_8671.range }
    hdone rfl rfl rfl (by simpa using hnow)

/-- Witness of C17: the Navigate reply with id `7` and range `(1, 10)` resets the reception time
of the pending head of `pending_navigate_thread` and replaces its range. -/
theorem notify_navigate_witness :
    InputThread.notify_locked { navigate_seven with range := some (1, 10) }
        pending_navigate_thread.m_pending_events =
      ([{ event := Event.OSC8671 { navigate_seven with range := some (1, 10) }
          receptionTime := 0, pending := true },
        { event := Event.KeyEvent 1, receptionTime := 1050 }], true) :=
  (notify_navigate idle_handlers 1 { navigate_seven with range := some (1, 10) } navigate_seven
    pending_navigate_thread 1000 [{ event := Event.KeyEvent 1, receptionTime := 1050 }]
    rfl rfl rfl rfl (by decide)).1

/-! ### Navigation requests and replies -/

/-- C19: `request_navigate(d)` inserts exactly one entry at the front of the pending queue and
leaves the existing entries in their order behind it; the new entry is not pending, carries
the current time, and holds a Navigate message with direction `d`, wrap mode Allow, an id (the
decimal digits of the number drawn), no range and `hide_cursor_on_enter` false. Nothing else
of the state changes. -/
theorem request_navigate_front {L : Type} (drawn : Nat) (direction : NavigateDirection)
    (self : InputThread L) :
    (InputThread.request_navigate drawn direction self).m_pending_events =
        { event := Event.OSC8671
            { type := SeamlessNavigationRequestType.Navigate
              direction := some direction
              id := some (to_string_u64 drawn)
              range := none
              wrap_mode := NavigateWrapMode.Allow
              hide_cursor_on_enter := false }
          receptionTime := self.now
          pending := false } :: self.m_pending_events ∧
      to_string_u64 drawn = Nat.toDigits 10 drawn ∧
      (InputThread.request_navigate drawn direction self).m_done = self.m_done ∧
      (InputThread.request_navigate drawn direction self).m_layout_state = self.m_layout_state ∧
      (InputThread.request_navigate drawn direction self).m_render_thread =
        self.m_render_thread ∧
      (InputThread.request_navigate drawn direction self).now = self.now :=
  ⟨rfl, terminal.present_u32_eq_toDigits drawn, rfl, rfl, rfl, rfl⟩

/-- C20: for a Navigate event for which `Tab::navigate` returned a result `b`: if the wrap mode
of the event is Disallow and `b` is true, the handler pushes a render request and then exactly
one `WriteString`, whose bytes are the serialization of an Acknowledge with the id and
direction of the event and no range; if the wrap mode is Disallow and `b` is false, it pushes
exactly one `WriteString` with the serialization of the event itself, a Navigate with the same
id and direction; if the wrap mode is Allow it writes no reply (only the render request when
`b` is true). In all three cases the handler reports the event processed. -/
theorem handle_navigate_reply {L : Type} (H : Handlers L) (event : terminal.OSC8671)
    (did_timeout b : Bool) (self : InputThread L)
    (htype : event.type = SeamlessNavigationRequestType.Navigate)
    (hnav : (H.navigate event
      (if did_timeout then Tab.SeamlessNavigateMode.Disabled
        else Tab.SeamlessNavigateMode.Enabled) self.m_layout_state).1 = some b) :
    (InputThread.handle_event H event did_timeout self).2.2 = true ∧
    (event.wrap_mode = NavigateWrapMode.Disallow → b = true →
      (InputThread.handle_event H event did_timeout self).2.1.m_render_thread =
        self.m_render_thread ++
          [RenderEvent.RequestRender,
           RenderEvent.WriteString
             (terminal.OSC8671.serialize
               { type := SeamlessNavigationRequestType.Acknowledge
                 direction := event.direction
                 id := event.id
                 range := none
                 wrap_mode := NavigateWrapMode.Disallow
                 hide_cursor_on_enter := event.hide_cursor_on_enter })]) ∧
    (event.wrap_mode = NavigateWrapMode.Disallow → b = false →
      (InputThread.handle_event H event did_timeout self).2.1.m_render_thread =
        self.m_render_thread ++ [RenderEvent.WriteString event.serialize]) ∧
    (event.wrap_mode = NavigateWrapMode.Allow →
      (InputThread.handle_event H event did_timeout self).2.1.m_render_thread =
        self.m_render_thread ++ (if b = true then [RenderEvent.RequestRender] else [])) := by
  refine ⟨?_, ?_, ?_, ?_⟩
  · rw [handle_event_result, if_pos htype, hnav]
    rfl
  · intro hw hb
    subst hb
    unfold InputThread.handle_event
    rw [if_neg (by rw [htype]; decide), if_neg (not_not.2 htype)]
    dsimp only
    rw [hnav]
    simp [hw]
  · intro hw hb
    subst hb
    unfold InputThread.handle_event
    rw [if_neg (by rw [htype]; decide), if_neg (not_not.2 htype)]
    dsimp only
    rw [hnav]
    simp [hw]
  · intro hw
    unfold InputThread.handle_event
    rw [if_neg (by rw [htype]; decide), if_neg (not_not.2 htype)]
    dsimp only
    rw [hnav]
    cases b <;> simp [hw]

/-- Witness of C20 with the idle handlers, for which `Tab::navigate` returns `false`: the reply
to `navigate_seven` is the event itself, `t=navigate:id=7;down`. -/
theorem handle_navigate_reply_witness :
    (InputThread.handle_event idle_handlers navigate_seven false
        pending_navigate_thread).2.1.m_render_thread =
      [] ++ [RenderEvent.WriteString navigate_seven.serialize] ∧
    navigate_seven.serialize = "\x1b]8671;t=navigate:id=7;down\x1b\\".toList :=
  ⟨(handle_navigate_reply idle_handlers navigate_seven false false pending_navigate_thread
      rfl rfl).2.2.1 rfl rfl, by decide⟩

/-! ## Pane navigation -/

/-! ### Arithmetic on `u32` values and the layout tree -/

theorem u32_add_eq (a b : Nat) (h : a + b < 4294967296) : u32_add a b = a + b := by
  unfold u32_add
  exact Nat.mod_eq_of_lt h

theorem u32_sub_eq (a b : Nat) (h : b ≤ a) (ha : a < 4294967296) : u32_sub a b = a - b := by
  unfold u32_sub
  omega

theorem find_pane_some (tree : LayoutNode) (p : Option Nat) (e : LayoutEntry)
    (h : tree.find_pane p = some e) : e ∈ tree.entries ∧ p = some e.pane := by
  unfold LayoutNode.find_pane at h
  cases p with
  | none => simp at h
  | some q =>
    simp only at h
    have h1 := List.find?_some h
    have h2 := List.mem_of_find?_eq_some h
    simp only [decide_eq_true_eq] at h1
    exact ⟨h2, by rw [h1]⟩

theorem find_pane_isSome_of_mem (tree : LayoutNode) (e : LayoutEntry) (h : e ∈ tree.entries) :
    ∃ e', tree.find_pane (some e.pane) = some e' := by
  unfold LayoutNode.find_pane
  simp only
  cases hf : tree.entries.find? (fun x => decide (x.pane = e.pane)) with
  | some e' => exact ⟨e', rfl⟩
  | none =>
    rw [List.find?_eq_none] at hf
    have := hf e h
    simp at this

theorem pane_injective_of_nodup (l : List LayoutEntry) (hn : (l.map LayoutEntry.pane).Nodup)
    (e e' : LayoutEntry) (he : e ∈ l) (he' : e' ∈ l) (hp : e.pane = e'.pane) : e = e' :=
  List.inj_on_of_nodup_map hn he he' hp

theorem find_pane_of_mem (tree : LayoutNode) (e : LayoutEntry) (h : e ∈ tree.entries)
    (hn : (tree.entries.map LayoutEntry.pane).Nodup) : tree.find_pane (some e.pane) = some e := by
  obtain ⟨e', he'⟩ := find_pane_isSome_of_mem tree e h
  obtain ⟨hm, hp⟩ := find_pane_some tree _ e' he'
  simp only [Option.some.injEq] at hp
  rw [he', pane_injective_of_nodup _ hn e e' h hm hp]

/-- A pane of the hit test of `Tab::navigate` has an entry in the tree, and this entry meets the
range of the hit test on the perpendicular axis. -/
theorem mem_navigate_candidates (direction : NavigateDirection) (wrap_mode : NavigateWrapMode)
    (override_range : Option (Nat × Nat)) (force_wrap : Bool) (layout_entry : LayoutEntry)
    (tree : LayoutNode) (self : Tab) (c : Nat)
    (h : c ∈ (self.navigate_candidates direction wrap_mode override_range force_wrap
      layout_entry tree).1) :
    ∃ e ∈ tree.entries, e.pane = c ∧
      max ((override_range.map Prod.fst).getD (perpendicular_origin direction layout_entry))
          (perpendicular_origin direction e) <
        min ((override_range.map Prod.snd).getD
            (u32_add (perpendicular_origin direction layout_entry)
              (perpendicular_extent direction layout_entry)))
          (perpendicular_origin direction e + perpendicular_extent direction e) := by
  unfold Tab.navigate_candidates at h
  cases direction <;> simp only at h <;> split_ifs at h <;>
    simp only [List.not_mem_nil, List.mem_dedup, List.mem_map,
      LayoutNode.hit_test_vertical_line, LayoutNode.hit_test_horizontal_line, List.mem_filter,
      decide_eq_true_eq] at h <;>
    obtain ⟨e, ⟨he, -, -, hov⟩, hp⟩ := h <;>
    exact ⟨e, he, hp, hov⟩

/-! ### `Tab::set_active` -/

theorem with_calls_self (self : Tab) : self.with_calls self.pane_calls = self := rfl

theorem with_calls_with_calls (self : Tab) (p q : List (Nat × PaneCall)) :
    (self.with_calls p).with_calls q = self.with_calls q := rfl

/-- The calls that `set_active` makes on panes do not depend on the calls made before, and
nothing else of the result does. -/
theorem set_active_with_calls (pane : Option Nat) (self : Tab) (q : List (Nat × PaneCall)) :
    (self.with_calls q).set_active pane =
      (((self.with_calls []).set_active pane).1,
        ((self.with_calls []).set_active pane).2.with_calls
          (q ++ ((self.with_calls []).set_active pane).2.pane_calls)) := by
  obtain ⟨sz, root, tree, recency, ia, act, fs, calls, n⟩ := self
  unfold Tab.set_active Tab.with_calls
  simp only
  by_cases h : act = pane
  · simp [h]
  · simp only [if_neg h]
    cases fs <;> cases act <;> cases ia <;> cases pane <;>
      simp [Tab.focus_event, Tab.layout, Tab.invalidate_all] <;>
      split_ifs <;> simp

theorem focus_event_mem (call : PaneCall) (self : Tab) (x : Nat × PaneCall)
    (hx : x ∈ (self.focus_event call).pane_calls) : x ∈ self.pane_calls ∨ x.2 = call := by
  unfold Tab.focus_event at hx
  split at hx
  · split_ifs at hx
    · simp only [List.mem_append, List.mem_singleton] at hx
      rcases hx with hx | hx
      · exact Or.inl hx
      · exact Or.inr (by rw [hx])
    · exact Or.inl hx
  · exact Or.inl hx

theorem layout_mem (size : Size) (self : Tab) (x : Nat × PaneCall)
    (hx : x ∈ (Tab.layout size self).pane_calls) :
    x ∈ self.pane_calls ∨ x.2 = PaneCall.invalidate_all ∨ ∃ s, x.2 = PaneCall.resize s := by
  unfold Tab.layout Tab.invalidate_all at hx
  simp only at hx
  split at hx <;>
    simp only [List.mem_append, List.mem_singleton, List.mem_map] at hx
  · rcases hx with (hx | hx) | ⟨p, -, hx⟩
    · exact Or.inl hx
    · exact Or.inr (Or.inr ⟨_, by rw [hx]⟩)
    · exact Or.inr (Or.inl (by rw [← hx]))
  · rcases hx with hx | ⟨p, -, hx⟩
    · exact Or.inl hx
    · exact Or.inr (Or.inl (by rw [← hx]))

/-- The function `set_active` sends focus events, and resizes and invalidates panes: it sends no
OSC 8671 message. -/
theorem set_active_mem (pane : Option Nat) (self : Tab) (x : Nat × PaneCall)
    (type : SeamlessNavigationRequestType) (hx : x ∈ (self.set_active pane).2.pane_calls) :
    x ∈ self.pane_calls ∨ x.2.is_message type = false := by
  unfold Tab.set_active at hx
  split_ifs at hx with h1 h2
  · exact Or.inl hx
  · simp only at hx
    rcases focus_event_mem _ _ x hx with hx | hx
    · cases pane with
      | none =>
        simp only at hx
        rcases focus_event_mem _ _ x hx with hx | hx
        · rcases layout_mem _ _ x hx with hx | hx | ⟨s, hx⟩
          · exact Or.inl hx
          · exact Or.inr (by rw [hx]; rfl)
          · exact Or.inr (by rw [hx]; rfl)
        · exact Or.inr (by rw [hx]; rfl)
      | some p =>
        simp only at hx
        rcases focus_event_mem _ _ x hx with hx | hx
        · rcases layout_mem _ _ x hx with hx | hx | ⟨s, hx⟩
          · exact Or.inl hx
          · exact Or.inr (by rw [hx]; rfl)
          · exact Or.inr (by rw [hx]; rfl)
        · exact Or.inr (by rw [hx]; rfl)
    · exact Or.inr (by rw [hx]; rfl)
  · simp only at hx
    rcases focus_event_mem _ _ x hx with hx | hx
    · cases pane with
      | none =>
        simp only at hx
        rcases focus_event_mem _ _ x hx with hx | hx
        · exact Or.inl hx
        · exact Or.inr (by rw [hx]; rfl)
      | some p =>
        simp only at hx
        rcases focus_event_mem _ _ x hx with hx | hx
        · exact Or.inl hx
        · exact Or.inr (by rw [hx]; rfl)
    · exact Or.inr (by rw [hx]; rfl)

theorem set_active_no_message (pane : Option Nat) (self : Tab) (x : Nat × PaneCall)
    (type : SeamlessNavigationRequestType)
    (hx : x ∈ ((self.with_calls []).set_active pane).2.pane_calls) :
    x.2.is_message type = false := by
  rcases set_active_mem pane _ x type hx with h | h
  · simp [Tab.with_calls] at h
  · exact h

theorem set_active_some (p : Nat) (self : Tab) (h : self.m_active ≠ some p) :
    (self.set_active (some p)).1 = true ∧
      (self.set_active (some p)).2.m_active = some p ∧
      (self.set_active (some p)).2.m_panes_ordered_by_recency =
        p :: self.m_panes_ordered_by_recency.filter (fun q => decide (q ≠ p)) := by
  obtain ⟨sz, root, tree, recency, ia, act, fs, calls, n⟩ := self
  simp only at h
  unfold Tab.set_active
  simp only [if_neg h]
  cases fs <;> cases act <;> cases ia <;>
    simp [Tab.focus_event, Tab.layout, Tab.invalidate_all] <;>
    split_ifs <;> simp

/-! ### The loop of `Tab::navigate` over the recency list -/

theorem navigate_loop_nil (direction : NavigateDirection) (force_wrap : Bool)
    (layout_entry : LayoutEntry) (tree : LayoutNode) (candidates : List Nat) (self : Tab) :
    Tab.navigate_loop direction force_wrap layout_entry tree candidates self [] =
      (some false, self) := rfl

theorem navigate_loop_cons (direction : NavigateDirection) (force_wrap : Bool)
    (layout_entry : LayoutEntry) (tree : LayoutNode) (candidates : List Nat) (self : Tab)
    (candidate : Nat) (rest : List Nat) :
    Tab.navigate_loop direction force_wrap layout_entry tree candidates self
        (candidate :: rest) =
      if force_wrap = true ∧ some candidate = self.m_active then (some false, self)
      else if some candidate ≠ self.m_active ∧ candidate ∈ candidates then
        match tree.find_pane (some candidate) with
        | none => (some false, self)
        | some candidate_layout_entry =>
          (some true,
            (Tab.set_active (some candidate)
              (self.with_calls
                (self.pane_calls ++
                  [(candidate,
                    PaneCall.seamless_navigate
                      { type := SeamlessNavigationRequestType.Enter
                        direction := some direction
                        range :=
                          some
                            (Tab.navigate_range direction layout_entry
                              candidate_layout_entry) })]))).2)
      else Tab.navigate_loop direction force_wrap layout_entry tree candidates self rest := rfl

/-- The loop either makes no navigation and leaves the tab as it is, or it selects a pane of
the recency list that is in the hit test and is not the active pane, sends it the Enter message
and makes it the active pane. -/
theorem navigate_loop_cases (direction : NavigateDirection) (force_wrap : Bool)
    (layout_entry : LayoutEntry) (tree : LayoutNode) (candidates : List Nat) (self : Tab)
    (l : List Nat) :
    Tab.navigate_loop direction force_wrap layout_entry tree candidates self l =
        (some false, self) ∨
      ∃ candidate candidate_layout_entry,
        candidate ∈ l ∧ some candidate ≠ self.m_active ∧ candidate ∈ candidates ∧
          tree.find_pane (some candidate) = some candidate_layout_entry ∧
          Tab.navigate_loop direction force_wrap layout_entry tree candidates self l =
            (some true,
              (Tab.set_active (some candidate)
                (self.with_calls
                  (self.pane_calls ++
                    [(candidate,
                      PaneCall.seamless_navigate
                        { type := SeamlessNavigationRequestType.Enter
                          direction := some direction
                          range :=
                            some
                              (Tab.navigate_range direction layout_entry
                                candidate_layout_entry) })]))).2) := by
  induction l with
  | nil => exact Or.inl rfl
  | cons c rest ih =>
    rw [navigate_loop_cons]
    split_ifs with h1 h2
    · exact Or.inl rfl
    · cases hf : tree.find_pane (some c) with
      | none => exact Or.inl rfl
      | some e => exact Or.inr ⟨c, e, List.mem_cons_self _ _, h2.1, h2.2, hf, rfl⟩
    · rcases ih with ih | ⟨c', e, hm, hne, hc, hf, hr⟩
      · exact Or.inl ih
      · exact Or.inr ⟨c', e, List.mem_cons_of_mem _ hm, hne, hc, hf, hr⟩

/-- Without a pane other than the active pane in the hit test, the loop makes no navigation. -/
theorem navigate_loop_none (direction : NavigateDirection) (force_wrap : Bool)
    (layout_entry : LayoutEntry) (tree : LayoutNode) (candidates : List Nat) (self : Tab)
    (l : List Nat) (h : ∀ c ∈ candidates, some c = self.m_active) :
    Tab.navigate_loop direction force_wrap layout_entry tree candidates self l =
      (some false, self) := by
  rcases navigate_loop_cases direction force_wrap layout_entry tree candidates self l with
    hr | ⟨c, e, -, hne, hc, -, -⟩
  · exact hr
  · exact absurd (h c hc) hne

/-- With a forced wrap the loop stops at the active pane: when the active pane is the first pane
of the recency list, no navigation is made. -/
theorem navigate_loop_force_head (direction : NavigateDirection) (layout_entry : LayoutEntry)
    (tree : LayoutNode) (candidates : List Nat) (self : Tab) (active : Nat) (rest : List Nat)
    (h : self.m_active = some active) :
    Tab.navigate_loop direction true layout_entry tree candidates self (active :: rest) =
      (some false, self) := by
  rw [navigate_loop_cons, if_pos ⟨rfl, h.symm⟩]

/-- Without a forced wrap the loop selects the first pane of the recency list that is in the hit
test and is not the active pane. -/
theorem navigate_loop_find (direction : NavigateDirection) (layout_entry : LayoutEntry)
    (tree : LayoutNode) (candidates : List Nat) (self : Tab) (l : List Nat) :
    Tab.navigate_loop direction false layout_entry tree candidates self l =
      match l.find? (fun c => decide (some c ≠ self.m_active ∧ c ∈ candidates)) with
      | none => (some false, self)
      | some candidate =>
        match tree.find_pane (some candidate) with
        | none => (some false, self)
        | some candidate_layout_entry =>
          (some true,
            (Tab.set_active (some candidate)
              (self.with_calls
                (self.pane_calls ++
                  [(candidate,
                    PaneCall.seamless_navigate
                      { type := SeamlessNavigationRequestType.Enter
                        direction := some direction
                        range :=
                          some
                            (Tab.navigate_range direction layout_entry
                              candidate_layout_entry) })]))).2) := by
  induction l with
  | nil => rfl
  | cons c rest ih =>
    rw [navigate_loop_cons, if_neg (by simp)]
    by_cases h2 : some c ≠ self.m_active ∧ c ∈ candidates
    · rw [if_pos h2, List.find?_cons_of_pos _ (by simpa using h2)]
    · rw [if_neg h2, List.find?_cons_of_neg _ (by simpa using h2), ih]

/-- The calls that the loop makes on panes do not depend on the calls made before, and nothing
else of the result does. -/
theorem navigate_loop_with_calls (direction : NavigateDirection) (force_wrap : Bool)
    (layout_entry : LayoutEntry) (tree : LayoutNode) (candidates : List Nat) (self : Tab)
    (q : List (Nat × PaneCall)) (l : List Nat) :
    Tab.navigate_loop direction force_wrap layout_entry tree candidates (self.with_calls q) l =
      ((Tab.navigate_loop direction force_wrap layout_entry tree candidates
          (self.with_calls []) l).1,
        (Tab.navigate_loop direction force_wrap layout_entry tree candidates
          (self.with_calls []) l).2.with_calls
          (q ++
            (Tab.navigate_loop direction force_wrap layout_entry tree candidates
              (self.with_calls []) l).2.pane_calls)) := by
  induction l with
  | nil => simp [navigate_loop_nil, Tab.with_calls]
  | cons c rest ih =>
    rw [navigate_loop_cons, navigate_loop_cons]
    have hact : (self.with_calls q).m_active = (self.with_calls []).m_active := rfl
    rw [hact]
    split_ifs with h1 h2
    · simp [Tab.with_calls]
    · cases hf : tree.find_pane (some c) with
      | none => simp [Tab.with_calls]
      | some e =>
        simp only [with_calls_with_calls]
        rw [set_active_with_calls, set_active_with_calls (some c) self (_ ++ _)]
        simp [Tab.with_calls]
    · exact ih

/-! ### `Tab::navigate` -/

theorem navigate_without_entry (seamless_navigate : Nat → terminal.OSC8671 → Bool)
    (direction : NavigateDirection) (wrap_mode : NavigateWrapMode) (id : Option (List Char))
    (override_range : Option (Nat × Nat)) (mode : Tab.SeamlessNavigateMode) (force_wrap : Bool)
    (self : Tab) (tree : LayoutNode) (htree : self.m_layout_tree = some tree)
    (h : tree.find_pane self.m_active = none) :
    self.navigate seamless_navigate direction wrap_mode id override_range mode force_wrap =
      (some false, self) := by
  unfold Tab.navigate
  rw [htree]
  simp only
  rw [h]

/-- The three stages of `Tab::navigate` for an active pane with the entry `layout_entry`: the
offer to the active pane, the test of `blocked`, the loop over the recency list. -/
theorem navigate_with_entry (seamless_navigate : Nat → terminal.OSC8671 → Bool)
    (direction : NavigateDirection) (wrap_mode : NavigateWrapMode) (id : Option (List Char))
    (override_range : Option (Nat × Nat)) (mode : Tab.SeamlessNavigateMode) (force_wrap : Bool)
    (self : Tab) (tree : LayoutNode) (layout_entry : LayoutEntry)
    (htree : self.m_layout_tree = some tree)
    (h : tree.find_pane self.m_active = some layout_entry) :
    self.navigate seamless_navigate direction wrap_mode id override_range mode force_wrap =
      if mode = Tab.SeamlessNavigateMode.Enabled ∧
          seamless_navigate layout_entry.pane
            (self.navigate_offer direction wrap_mode id
              (self.navigate_candidates direction wrap_mode override_range force_wrap
                layout_entry tree).1) = true then
        (if (self.navigate_offer direction wrap_mode id
              (self.navigate_candidates direction wrap_mode override_range force_wrap
                layout_entry tree).1).wrap_mode = NavigateWrapMode.Disallow then none
          else some true,
          self.with_calls
            (self.pane_calls ++
              [(layout_entry.pane,
                PaneCall.seamless_navigate
                  (self.navigate_offer direction wrap_mode id
                    (self.navigate_candidates direction wrap_mode override_range force_wrap
                      layout_entry tree).1))]))
      else if (self.navigate_candidates direction wrap_mode override_range force_wrap
          layout_entry tree).2 = true then
        (some false,
          self.with_calls
            (self.pane_calls ++
              if mode = Tab.SeamlessNavigateMode.Enabled then
                [(layout_entry.pane,
                  PaneCall.seamless_navigate
                    (self.navigate_offer direction wrap_mode id
                      (self.navigate_candidates direction wrap_mode override_range force_wrap
                        layout_entry tree).1))]
              else []))
      else
        Tab.navigate_loop direction force_wrap layout_entry tree
          (self.navigate_candidates direction wrap_mode override_range force_wrap layout_entry
            tree).1
          (self.with_calls
            (self.pane_calls ++
              if mode = Tab.SeamlessNavigateMode.Enabled then
                [(layout_entry.pane,
                  PaneCall.seamless_navigate
                    (self.navigate_offer direction wrap_mode id
                      (self.navigate_candidates direction wrap_mode override_range force_wrap
                        layout_entry tree).1))]
              else []))
          self.m_panes_ordered_by_recency := by
  by_cases h1 : mode = Tab.SeamlessNavigateMode.Enabled ∧
      seamless_navigate layout_entry.pane
        (self.navigate_offer direction wrap_mode id
          (self.navigate_candidates direction wrap_mode override_range force_wrap
            layout_entry tree).1) = true
  · rw [if_pos h1]
    obtain ⟨sz, root, tr, recency, ia, act, fs, calls, n⟩ := self
    simp only at htree h h1
    subst htree
    unfold Tab.navigate
    simp only
    rw [h]
    simp only
    rw [if_pos h1]
    split_ifs <;> rfl
  · rw [if_neg h1]
    by_cases h2 : mode = Tab.SeamlessNavigateMode.Enabled
    · obtain ⟨sz, root, tr, recency, ia, act, fs, calls, n⟩ := self
      simp only at htree h h1
      subst htree
      unfold Tab.navigate
      simp only
      rw [h]
      simp only
      rw [if_neg h1]
      simp only [h2, if_true]
      split_ifs <;> rfl
    · obtain ⟨sz, root, tr, recency, ia, act, fs, calls, n⟩ := self
      simp only at htree h h1
      subst htree
      unfold Tab.navigate
      simp only
      rw [h]
      simp only
      rw [if_neg h1]
      simp only [h2, if_false, List.append_nil]
      split_ifs <;> rfl

/-- The two stages of `Tab::navigate` in seamless mode Disabled. -/
theorem navigate_disabled_with_entry (seamless_navigate : Nat → terminal.OSC8671 → Bool)
    (direction : NavigateDirection) (wrap_mode : NavigateWrapMode) (id : Option (List Char))
    (override_range : Option (Nat × Nat)) (force_wrap : Bool) (self : Tab) (tree : LayoutNode)
    (layout_entry : LayoutEntry) (htree : self.m_layout_tree = some tree)
    (h : tree.find_pane self.m_active = some layout_entry) :
    self.navigate seamless_navigate direction wrap_mode id override_range
        Tab.SeamlessNavigateMode.Disabled force_wrap =
      if (self.navigate_candidates direction wrap_mode override_range force_wrap
          layout_entry tree).2 = true then (some false, self)
      else
        Tab.navigate_loop direction force_wrap layout_entry tree
          (self.navigate_candidates direction wrap_mode override_range force_wrap layout_entry
            tree).1 self self.m_panes_ordered_by_recency := by
  have hD := navigate_with_entry seamless_navigate direction wrap_mode id override_range
    Tab.SeamlessNavigateMode.Disabled force_wrap self tree layout_entry htree h
  simp only [reduceCtorEq, false_and, if_false, List.append_nil, with_calls_self] at hD
  exact hD

theorem blocked_iff (direction : NavigateDirection) (wrap_mode : NavigateWrapMode)
    (override_range : Option (Nat × Nat)) (force_wrap : Bool) (layout_entry : LayoutEntry)
    (tree : LayoutNode) (self : Tab) :
    (self.navigate_candidates direction wrap_mode override_range force_wrap layout_entry
        tree).2 = true ↔
      self.navigate_wraps direction force_wrap layout_entry = true ∧
        wrap_mode = NavigateWrapMode.Disallow := by
  unfold Tab.navigate_candidates
  cases direction <;> simp only <;> split_ifs with h <;> simp [h]

theorem candidates_of_blocked (direction : NavigateDirection) (wrap_mode : NavigateWrapMode)
    (override_range : Option (Nat × Nat)) (force_wrap : Bool) (layout_entry : LayoutEntry)
    (tree : LayoutNode) (self : Tab)
    (h : (self.navigate_candidates direction wrap_mode override_range force_wrap layout_entry
        tree).2 = true) :
    (self.navigate_candidates direction wrap_mode override_range force_wrap layout_entry
        tree).1 = [] := by
  unfold Tab.navigate_candidates at h ⊢
  cases direction <;> simp only at h ⊢ <;> split_ifs at h ⊢ with h1 <;> simp at h ⊢

theorem calls_since_with_calls (self other : Tab) (q : List (Nat × PaneCall)) :
    self.calls_since (other.with_calls (self.pane_calls ++ q)) = q := by
  simp [Tab.calls_since, Tab.with_calls]

theorem set_active_pane_calls (pane : Option Nat) (self : Tab) (q : List (Nat × PaneCall)) :
    ((self.with_calls q).set_active pane).2.pane_calls =
      q ++ ((self.with_calls []).set_active pane).2.pane_calls := by
  rw [set_active_with_calls]
  rfl

theorem set_active_some_with_calls (p : Nat) (self : Tab) (q : List (Nat × PaneCall))
    (h : self.m_active ≠ some p) :
    ((self.with_calls q).set_active (some p)).2.m_active = some p ∧
      ((self.with_calls q).set_active (some p)).2.m_panes_ordered_by_recency =
        p :: self.m_panes_ordered_by_recency.filter (fun q => decide (q ≠ p)) := by
  have := set_active_some p (self.with_calls q) h
  exact ⟨this.2.1, this.2.2⟩

/-- The calls that `Tab::navigate` makes on panes: the offer of the Navigate message to the
active pane in seamless mode, the Enter message to a pane of the hit test other than the active
pane, and calls of `set_active`, which are no OSC 8671 messages. -/
theorem navigate_calls (seamless_navigate : Nat → terminal.OSC8671 → Bool)
    (direction : NavigateDirection) (wrap_mode : NavigateWrapMode) (id : Option (List Char))
    (override_range : Option (Nat × Nat)) (mode : Tab.SeamlessNavigateMode) (force_wrap : Bool)
    (self : Tab) (tree : LayoutNode) (layout_entry : LayoutEntry)
    (htree : self.m_layout_tree = some tree)
    (h : tree.find_pane self.m_active = some layout_entry) :
    ∃ q,
      (self.navigate seamless_navigate direction wrap_mode id override_range mode
          force_wrap).2.pane_calls = self.pane_calls ++ q ∧
        ∀ x ∈ q,
          (mode = Tab.SeamlessNavigateMode.Enabled ∧
              x = (layout_entry.pane,
                PaneCall.seamless_navigate
                  (self.navigate_offer direction wrap_mode id
                    (self.navigate_candidates direction wrap_mode override_range force_wrap
                      layout_entry tree).1))) ∨
            (∃ candidate candidate_layout_entry,
              candidate ∈ (self.navigate_candidates direction wrap_mode override_range
                force_wrap layout_entry tree).1 ∧
              some candidate ≠ self.m_active ∧
              tree.find_pane (some candidate) = some candidate_layout_entry ∧
              x = (candidate,
                PaneCall.seamless_navigate
                  { type := SeamlessNavigationRequestType.Enter
                    direction := some direction
                    range :=
                      some
                        (Tab.navigate_range direction layout_entry
                          candidate_layout_entry) })) ∨
            ∀ type, x.2.is_message type = false := by
  rw [navigate_with_entry seamless_navigate direction wrap_mode id override_range mode
    force_wrap self tree layout_entry htree h]
  have hpre : ∀ x ∈ (if mode = Tab.SeamlessNavigateMode.Enabled then
      [(layout_entry.pane,
        PaneCall.seamless_navigate
          (self.navigate_offer direction wrap_mode id
            (self.navigate_candidates direction wrap_mode override_range force_wrap
              layout_entry tree).1))]
      else []),
      mode = Tab.SeamlessNavigateMode.Enabled ∧
        x = (layout_entry.pane,
          PaneCall.seamless_navigate
            (self.navigate_offer direction wrap_mode id
              (self.navigate_candidates direction wrap_mode override_range force_wrap
                layout_entry tree).1)) := by
    intro x hx
    split_ifs at hx with hm
    · exact ⟨hm, by simpa using hx⟩
    · simp at hx
  generalize (if mode = Tab.SeamlessNavigateMode.Enabled then
      [(layout_entry.pane,
        PaneCall.seamless_navigate
          (self.navigate_offer direction wrap_mode id
            (self.navigate_candidates direction wrap_mode override_range force_wrap
              layout_entry tree).1))]
      else []) = pre at hpre ⊢
  by_cases h1 : mode = Tab.SeamlessNavigateMode.Enabled ∧
      seamless_navigate layout_entry.pane
        (self.navigate_offer direction wrap_mode id
          (self.navigate_candidates direction wrap_mode override_range force_wrap
            layout_entry tree).1) = true
  · rw [if_pos h1]
    refine ⟨_, rfl, ?_⟩
    intro x hx
    exact Or.inl ⟨h1.1, by simpa using hx⟩
  · rw [if_neg h1]
    by_cases h2 : (self.navigate_candidates direction wrap_mode override_range force_wrap
        layout_entry tree).2 = true
    · rw [if_pos h2]
      refine ⟨_, rfl, ?_⟩
      intro x hx
      exact Or.inl (hpre x hx)
    · rw [if_neg h2]
      rcases navigate_loop_cases direction force_wrap layout_entry tree
          (self.navigate_candidates direction wrap_mode override_range force_wrap layout_entry
            tree).1
          (self.with_calls (self.pane_calls ++ pre))
          self.m_panes_ordered_by_recency with hr | ⟨c, e, -, hne, hc, hf, hr⟩
      · rw [hr]
        refine ⟨_, rfl, ?_⟩
        intro x hx
        exact Or.inl (hpre x hx)
      · rw [hr]
        simp only [with_calls_with_calls]
        rw [set_active_pane_calls]
        refine ⟨_, by simp only [Tab.with_calls, List.append_assoc]; rfl, ?_⟩
        intro x hx
        simp only [List.mem_append, List.mem_singleton] at hx
        rcases hx with hx | hx | hx
        · exact Or.inl (hpre x hx)
        · exact Or.inr (Or.inl ⟨c, e, hc, hne, hf, hx⟩)
        · exact Or.inr (Or.inr (fun type => set_active_no_message _ _ x type hx))

/-! ### Claims on `Tab::navigate` -/

/-- C27: with seamless mode Disabled, when the active pane has no entry in the layout tree, or
when the move wraps while the wrap mode is Disallow, `Tab::navigate` returns false and leaves
the tab as it is: the active pane, the recency list and the calls made on panes are unchanged,
so no message is sent to any pane. -/
theorem navigate_disabled_without_entry_or_blocked
    (seamless_navigate : Nat → terminal.OSC8671 → Bool) (direction : NavigateDirection)
    (wrap_mode : NavigateWrapMode) (id : Option (List Char))
    (override_range : Option (Nat × Nat)) (force_wrap : Bool) (self : Tab) (tree : LayoutNode)
    (htree : self.m_layout_tree = some tree)
    (h : tree.find_pane self.m_active = none ∨
      ∃ layout_entry, tree.find_pane self.m_active = some layout_entry ∧
        self.navigate_wraps direction force_wrap layout_entry = true ∧
        wrap_mode = NavigateWrapMode.Disallow) :
    self.navigate seamless_navigate direction wrap_mode id override_range
        Tab.SeamlessNavigateMode.Disabled force_wrap = (some false, self) := by
  rcases h with h | ⟨layout_entry, h, hw, hd⟩
  · exact navigate_without_entry _ _ _ _ _ _ _ _ tree htree h
  · rw [navigate_disabled_with_entry seamless_navigate direction wrap_mode id override_range
      force_wrap self tree layout_entry htree h,
      if_pos ((blocked_iff _ _ _ _ _ _ _).2 ⟨hw, hd⟩)]

/-- Witness of C27: in `three_pane_tab` the active pane 2 is in column 0, so Left wraps, and with
the wrap mode Disallow the tab is left as it is. -/
theorem navigate_disabled_without_entry_or_blocked_witness :
    three_pane_tab.navigate no_pane_accepts NavigateDirection.Left NavigateWrapMode.Disallow
        none none Tab.SeamlessNavigateMode.Disabled false = (some false, three_pane_tab) :=
  navigate_disabled_without_entry_or_blocked no_pane_accepts NavigateDirection.Left
    NavigateWrapMode.Disallow none none false three_pane_tab three_pane_tree rfl
    (Or.inr ⟨three_pane_active_entry, by decide, by decide, rfl⟩)

/-- C24: with seamless mode Disabled, no forced wrap and a move that is not blocked,
`Tab::navigate` selects the first pane of the recency list that is in the hit test and is not
the active pane: it returns true, the pane becomes the active pane and the first pane of the
recency list, and the first call made is the Enter message with the direction to that pane,
followed by no other OSC 8671 message. When the recency list has no such pane, and so when the
hit test has no pane other than the active pane, it returns false and leaves the tab as it
is. -/
theorem navigate_disabled_selects_most_recent
    (seamless_navigate : Nat → terminal.OSC8671 → Bool) (direction : NavigateDirection)
    (wrap_mode : NavigateWrapMode) (id : Option (List Char))
    (override_range : Option (Nat × Nat)) (self : Tab) (tree : LayoutNode)
    (layout_entry : LayoutEntry) (htree : self.m_layout_tree = some tree)
    (hentry : tree.find_pane self.m_active = some layout_entry)
    (hblocked : ¬(self.navigate_wraps direction false layout_entry = true ∧
      wrap_mode = NavigateWrapMode.Disallow)) :
    (∀ candidate,
      self.m_panes_ordered_by_recency.find? (fun c =>
          decide (some c ≠ self.m_active ∧
            c ∈ (self.navigate_candidates direction wrap_mode override_range false
              layout_entry tree).1)) = some candidate →
        (self.navigate seamless_navigate direction wrap_mode id override_range
            Tab.SeamlessNavigateMode.Disabled false).1 = some true ∧
          (self.navigate seamless_navigate direction wrap_mode id override_range
            Tab.SeamlessNavigateMode.Disabled false).2.m_active = some candidate ∧
          (self.navigate seamless_navigate direction wrap_mode id override_range
            Tab.SeamlessNavigateMode.Disabled false).2.m_panes_ordered_by_recency =
              candidate ::
                self.m_panes_ordered_by_recency.filter (fun q => decide (q ≠ candidate)) ∧
          ∃ candidate_layout_entry rest,
            tree.find_pane (some candidate) = some candidate_layout_entry ∧
              self.calls_since
                  (self.navigate seamless_navigate direction wrap_mode id override_range
                    Tab.SeamlessNavigateMode.Disabled false).2 =
                (candidate,
                  PaneCall.seamless_navigate
                    { type := SeamlessNavigationRequestType.Enter
                      direction := some direction
                      range :=
                        some
                          (Tab.navigate_range direction layout_entry
                            candidate_layout_entry) }) :: rest ∧
              ∀ x ∈ rest, ∀ type, x.2.is_message type = false) ∧
      (self.m_panes_ordered_by_recency.find? (fun c =>
          decide (some c ≠ self.m_active ∧
            c ∈ (self.navigate_candidates direction wrap_mode override_range false
              layout_entry tree).1)) = none →
        self.navigate seamless_navigate direction wrap_mode id override_range
            Tab.SeamlessNavigateMode.Disabled false = (some false, self)) ∧
      ((∀ c ∈ (self.navigate_candidates direction wrap_mode override_range false layout_entry
            tree).1, some c = self.m_active) →
        self.navigate seamless_navigate direction wrap_mode id override_range
            Tab.SeamlessNavigateMode.Disabled false = (some false, self)) := by
  have hnav := navigate_disabled_with_entry seamless_navigate direction wrap_mode id
    override_range false self tree layout_entry htree hentry
  rw [if_neg (fun hb => hblocked ((blocked_iff _ _ _ _ _ _ _).1 hb))] at hnav
  refine ⟨?_, ?_, ?_⟩
  · intro candidate hfind
    have hmem := List.find?_some hfind
    simp only [decide_eq_true_eq] at hmem
    obtain ⟨e, he, hp, -⟩ := mem_navigate_candidates _ _ _ _ _ _ _ _ hmem.2
    obtain ⟨ce, hce⟩ := find_pane_isSome_of_mem tree e he
    rw [hp] at hce
    rw [navigate_loop_find, hfind] at hnav
    simp only [hce] at hnav
    rw [hnav]
    have hact := set_active_some_with_calls candidate self
      (self.pane_calls ++
        [(candidate,
          PaneCall.seamless_navigate
            { type := SeamlessNavigationRequestType.Enter
              direction := some direction
              range := some (Tab.navigate_range direction layout_entry ce) })])
      (fun hx => hmem.1 hx.symm)
    refine ⟨rfl, hact.1, hact.2, ce,
      ((self.with_calls []).set_active (some candidate)).2.pane_calls, hce, ?_, ?_⟩
    · unfold Tab.calls_since
      rw [set_active_pane_calls, List.append_assoc, List.drop_left]
      rfl
    · intro x hx type
      exact set_active_no_message _ _ x type hx
  · intro hfind
    rw [navigate_loop_find, hfind] at hnav
    exact hnav
  · intro hall
    rw [navigate_loop_none _ _ _ _ _ _ _ hall] at hnav
    exact hnav

/-- Witness of C24: in `three_pane_tab`, Up from pane 2 selects pane 1. -/
theorem navigate_disabled_selects_most_recent_witness :
    (three_pane_tab.navigate no_pane_accepts NavigateDirection.Up NavigateWrapMode.Disallow
        none none Tab.SeamlessNavigateMode.Disabled false).1 = some true ∧
      (three_pane_tab.navigate no_pane_accepts NavigateDirection.Up NavigateWrapMode.Disallow
        none none Tab.SeamlessNavigateMode.Disabled false).2.m_active = some 1 ∧
      (three_pane_tab.navigate no_pane_accepts NavigateDirection.Up NavigateWrapMode.Disallow
        none none Tab.SeamlessNavigateMode.Disabled false).2.m_panes_ordered_by_recency =
          [1, 2, 3] := by
  have h := (navigate_disabled_selects_most_recent no_pane_accepts NavigateDirection.Up
    NavigateWrapMode.Disallow none none three_pane_tab three_pane_tree
    three_pane_active_entry rfl (by decide) (by decide)).1 1 (by decide)
  exact ⟨h.1, h.2.1, h.2.2.1⟩

/-- C28, as stated, fails: a forced wrap in seamless mode Enabled on a tab with a single pane
that accepts the offer. The hit test yields no pane other than the active pane, and
`Tab::navigate` returns true, not false. -/
theorem force_wrap_with_accepting_pane_returns_true :
    (∀ c ∈ (single_pane_tab.navigate_candidates NavigateDirection.Left NavigateWrapMode.Allow
        none true single_pane_entry single_pane_tree).1, some c = single_pane_tab.m_active) ∧
      (single_pane_tab.navigate every_pane_accepts NavigateDirection.Left
        NavigateWrapMode.Allow none none Tab.SeamlessNavigateMode.Enabled true).1 =
          some true := by
  decide

/-- C28, amended: when `force_wrap` is set and the hit test yields no pane other than the active
pane, `Tab::navigate` leaves the active pane and the recency list unchanged; it returns false
when the seamless mode is Disabled or the active pane does not accept the offered Navigate. -/
theorem navigate_force_wrap_stable (seamless_navigate : Nat → terminal.OSC8671 → Bool)
    (direction : NavigateDirection) (wrap_mode : NavigateWrapMode) (id : Option (List Char))
    (override_range : Option (Nat × Nat)) (mode : Tab.SeamlessNavigateMode) (self : Tab)
    (tree : LayoutNode) (layout_entry : LayoutEntry) (htree : self.m_layout_tree = some tree)
    (hentry : tree.find_pane self.m_active = some layout_entry)
    (hnone : ∀ c ∈ (self.navigate_candidates direction wrap_mode override_range true
      layout_entry tree).1, some c = self.m_active) :
    (self.navigate seamless_navigate direction wrap_mode id override_range mode
        true).2.m_active = self.m_active ∧
      (self.navigate seamless_navigate direction wrap_mode id override_range mode
        true).2.m_panes_ordered_by_recency = self.m_panes_ordered_by_recency ∧
      (mode = Tab.SeamlessNavigateMode.Disabled ∨
          seamless_navigate layout_entry.pane
            (self.navigate_offer direction wrap_mode id
              (self.navigate_candidates direction wrap_mode override_range true layout_entry
                tree).1) = false →
        (self.navigate seamless_navigate direction wrap_mode id override_range mode
          true).1 = some false) := by
  rw [navigate_with_entry seamless_navigate direction wrap_mode id override_range mode true
    self tree layout_entry htree hentry]
  by_cases h1 : mode = Tab.SeamlessNavigateMode.Enabled ∧
      seamless_navigate layout_entry.pane
        (self.navigate_offer direction wrap_mode id
          (self.navigate_candidates direction wrap_mode override_range true layout_entry
            tree).1) = true
  · rw [if_pos h1]
    refine ⟨rfl, rfl, ?_⟩
    rintro (h | h)
    · rw [h] at h1
      exact absurd h1.1 (by decide)
    · rw [h] at h1
      exact absurd h1.2 (by decide)
  · rw [if_neg h1]
    by_cases h2 : (self.navigate_candidates direction wrap_mode override_range true
        layout_entry tree).2 = true
    · rw [if_pos h2]
      exact ⟨rfl, rfl, fun _ => rfl⟩
    · have hl : ∀ q, Tab.navigate_loop direction true layout_entry tree
          (self.navigate_candidates direction wrap_mode override_range true layout_entry
            tree).1 (self.with_calls q) self.m_panes_ordered_by_recency =
          (some false, self.with_calls q) := fun q =>
        navigate_loop_none direction true layout_entry tree _ (self.with_calls q) _ hnone
      rw [if_neg h2, hl]
      exact ⟨rfl, rfl, fun _ => rfl⟩

/-- Witness of the amended C28: a forced wrap on a tab with a single pane that does not accept
the offer. -/
theorem navigate_force_wrap_stable_witness :
    (single_pane_tab.navigate no_pane_accepts NavigateDirection.Left NavigateWrapMode.Allow
        none none Tab.SeamlessNavigateMode.Enabled true).2.m_active = some 1 ∧
      (single_pane_tab.navigate no_pane_accepts NavigateDirection.Left NavigateWrapMode.Allow
        none none Tab.SeamlessNavigateMode.Enabled true).2.m_panes_ordered_by_recency = [1] ∧
      (single_pane_tab.navigate no_pane_accepts NavigateDirection.Left NavigateWrapMode.Allow
        none none Tab.SeamlessNavigateMode.Enabled true).1 = some false := by
  have h := navigate_force_wrap_stable no_pane_accepts NavigateDirection.Left
    NavigateWrapMode.Allow none none Tab.SeamlessNavigateMode.Enabled single_pane_tab
    single_pane_tree single_pane_entry rfl (by decide) (by decide)
  exact ⟨h.1, h.2.1, h.2.2 (Or.inr rfl)⟩

/-- C29: in seamless mode Enabled the first call that `Tab::navigate` makes is the offer of a
Navigate message to the active pane. The message carries the direction and the id of the
request and no range; its wrap mode is Allow exactly when the wrap mode of the request is Allow
and the hit test has no pane other than the active pane, and Disallow otherwise. When the pane
accepts the message, nothing else is called, the active pane and the recency list are unchanged,
and the result is absent for the wrap mode Disallow and true for the wrap mode Allow. -/
theorem navigate_enabled_offer (seamless_navigate : Nat → terminal.OSC8671 → Bool)
    (direction : NavigateDirection) (wrap_mode : NavigateWrapMode) (id : Option (List Char))
    (override_range : Option (Nat × Nat)) (force_wrap : Bool) (self : Tab) (tree : LayoutNode)
    (layout_entry : LayoutEntry) (htree : self.m_layout_tree = some tree)
    (hentry : tree.find_pane self.m_active = some layout_entry) :
    self.m_active = some layout_entry.pane ∧
      (∃ rest,
        self.calls_since
            (self.navigate seamless_navigate direction wrap_mode id override_range
              Tab.SeamlessNavigateMode.Enabled force_wrap).2 =
          (layout_entry.pane,
            PaneCall.seamless_navigate
              (self.navigate_offer direction wrap_mode id
                (self.navigate_candidates direction wrap_mode override_range force_wrap
                  layout_entry tree).1)) :: rest) ∧
      (self.navigate_offer direction wrap_mode id
          (self.navigate_candidates direction wrap_mode override_range force_wrap layout_entry
            tree).1) =
        { type := SeamlessNavigationRequestType.Navigate
          direction := some direction
          id := id
          range := none
          wrap_mode :=
            (self.navigate_offer direction wrap_mode id
              (self.navigate_candidates direction wrap_mode override_range force_wrap
                layout_entry tree).1).wrap_mode
          hide_cursor_on_enter := false } ∧
      ((self.navigate_offer direction wrap_mode id
          (self.navigate_candidates direction wrap_mode override_range force_wrap layout_entry
            tree).1).wrap_mode = NavigateWrapMode.Allow ↔
        wrap_mode = NavigateWrapMode.Allow ∧
          ∀ c ∈ (self.navigate_candidates direction wrap_mode override_range force_wrap
            layout_entry tree).1, some c = self.m_active) ∧
      (¬(wrap_mode = NavigateWrapMode.Allow ∧
          ∀ c ∈ (self.navigate_candidates direction wrap_mode override_range force_wrap
            layout_entry tree).1, some c = self.m_active) →
        (self.navigate_offer direction wrap_mode id
          (self.navigate_candidates direction wrap_mode override_range force_wrap layout_entry
            tree).1).wrap_mode = NavigateWrapMode.Disallow) ∧
      (seamless_navigate layout_entry.pane
          (self.navigate_offer direction wrap_mode id
            (self.navigate_candidates direction wrap_mode override_range force_wrap
              layout_entry tree).1) = true →
        self.navigate seamless_navigate direction wrap_mode id override_range
            Tab.SeamlessNavigateMode.Enabled force_wrap =
          (if (self.navigate_offer direction wrap_mode id
                (self.navigate_candidates direction wrap_mode override_range force_wrap
                  layout_entry tree).1).wrap_mode = NavigateWrapMode.Disallow then none
            else some true,
            self.with_calls
              (self.pane_calls ++
                [(layout_entry.pane,
                  PaneCall.seamless_navigate
                    (self.navigate_offer direction wrap_mode id
                      (self.navigate_candidates direction wrap_mode override_range force_wrap
                        layout_entry tree).1))]))) := by
  have hwrap : ((self.navigate_offer direction wrap_mode id
      (self.navigate_candidates direction wrap_mode override_range force_wrap layout_entry
        tree).1).wrap_mode = NavigateWrapMode.Allow ↔
      wrap_mode = NavigateWrapMode.Allow ∧
        ∀ c ∈ (self.navigate_candidates direction wrap_mode override_range force_wrap
          layout_entry tree).1, some c = self.m_active) := by
    unfold Tab.navigate_offer
    simp only [List.countP_eq_zero, decide_eq_true_eq, ne_eq, not_not]
    split_ifs with h
    · simp only [true_iff]
      exact h
    · simp only [false_iff, reduceCtorEq]
      exact h
  refine ⟨(find_pane_some tree _ _ hentry).2, ?_, rfl, hwrap, ?_, ?_⟩
  · rw [navigate_with_entry seamless_navigate direction wrap_mode id override_range _
      force_wrap self tree layout_entry htree hentry]
    by_cases h1 : Tab.SeamlessNavigateMode.Enabled = Tab.SeamlessNavigateMode.Enabled ∧
        seamless_navigate layout_entry.pane
          (self.navigate_offer direction wrap_mode id
            (self.navigate_candidates direction wrap_mode override_range force_wrap
              layout_entry tree).1) = true
    · rw [if_pos h1]
      exact ⟨[], by simp [Tab.calls_since, Tab.with_calls]⟩
    · rw [if_neg h1, if_pos rfl]
      by_cases h2 : (self.navigate_candidates direction wrap_mode override_range force_wrap
          layout_entry tree).2 = true
      · rw [if_pos h2]
        exact ⟨[], by simp [Tab.calls_since, Tab.with_calls]⟩
      · rw [if_neg h2, navigate_loop_with_calls]
        exact ⟨_, by simp only [Tab.calls_since, Tab.with_calls, List.append_assoc,
          List.drop_left]; rfl⟩
  · intro hn
    cases hw : (self.navigate_offer direction wrap_mode id
        (self.navigate_candidates direction wrap_mode override_range force_wrap layout_entry
          tree).1).wrap_mode with
    | Allow => exact absurd (hwrap.1 hw) hn
    | Disallow => rfl
  · intro hacc
    rw [navigate_with_entry seamless_navigate direction wrap_mode id override_range _
      force_wrap self tree layout_entry htree hentry, if_pos ⟨rfl, hacc⟩]

/-- Witness of C29: in `three_pane_tab`, Right from pane 2 finds pane 3, so the offer has the
wrap mode Disallow, and the result is absent when pane 2 accepts it. -/
theorem navigate_enabled_offer_witness :
    three_pane_tab.navigate every_pane_accepts NavigateDirection.Right
        NavigateWrapMode.Allow (some ['7']) none Tab.SeamlessNavigateMode.Enabled false =
      (none,
        three_pane_tab.with_calls
          [(2,
            PaneCall.seamless_navigate
              { type := SeamlessNavigationRequestType.Navigate
                direction := some NavigateDirection.Right
                id := some ['7']
                wrap_mode := NavigateWrapMode.Disallow })]) :=
  (navigate_enabled_offer every_pane_accepts NavigateDirection.Right NavigateWrapMode.Allow
    (some ['7']) none false three_pane_tab three_pane_tree three_pane_active_entry rfl
    (by decide)).2.2.2.2.2 rfl

/-- C30: in seamless mode Enabled, when the active pane does not accept the offered Navigate,
`Tab::navigate` returns what the same call returns in seamless mode Disabled and leaves the
same tab, with the same active pane and recency list; the calls made on panes are the offer
followed by the calls of the call in mode Disabled, so the same Enter message goes to the same
pane. The result is not absent. -/
theorem navigate_enabled_rejected_eq_disabled
    (seamless_navigate : Nat → terminal.OSC8671 → Bool) (direction : NavigateDirection)
    (wrap_mode : NavigateWrapMode) (id : Option (List Char))
    (override_range : Option (Nat × Nat)) (force_wrap : Bool) (self : Tab) (tree : LayoutNode)
    (layout_entry : LayoutEntry) (htree : self.m_layout_tree = some tree)
    (hentry : tree.find_pane self.m_active = some layout_entry)
    (hrejected : seamless_navigate layout_entry.pane
      (self.navigate_offer direction wrap_mode id
        (self.navigate_candidates direction wrap_mode override_range force_wrap layout_entry
          tree).1) = false) :
    (self.navigate seamless_navigate direction wrap_mode id override_range
        Tab.SeamlessNavigateMode.Enabled force_wrap).1 =
      (self.navigate seamless_navigate direction wrap_mode id override_range
        Tab.SeamlessNavigateMode.Disabled force_wrap).1 ∧
      (self.navigate seamless_navigate direction wrap_mode id override_range
        Tab.SeamlessNavigateMode.Enabled force_wrap).1 ≠ none ∧
      (self.navigate seamless_navigate direction wrap_mode id override_range
        Tab.SeamlessNavigateMode.Enabled force_wrap).2 =
        (self.navigate seamless_navigate direction wrap_mode id override_range
          Tab.SeamlessNavigateMode.Disabled force_wrap).2.with_calls
          (self.pane_calls ++
            (layout_entry.pane,
              PaneCall.seamless_navigate
                (self.navigate_offer direction wrap_mode id
                  (self.navigate_candidates direction wrap_mode override_range force_wrap
                    layout_entry tree).1)) ::
              self.calls_since
                (self.navigate seamless_navigate direction wrap_mode id override_range
                  Tab.SeamlessNavigateMode.Disabled force_wrap).2) ∧
      (self.navigate seamless_navigate direction wrap_mode id override_range
        Tab.SeamlessNavigateMode.Enabled force_wrap).2.m_active =
        (self.navigate seamless_navigate direction wrap_mode id override_range
          Tab.SeamlessNavigateMode.Disabled force_wrap).2.m_active ∧
      (self.navigate seamless_navigate direction wrap_mode id override_range
        Tab.SeamlessNavigateMode.Enabled force_wrap).2.m_panes_ordered_by_recency =
        (self.navigate seamless_navigate direction wrap_mode id override_range
          Tab.SeamlessNavigateMode.Disabled force_wrap).2.m_panes_ordered_by_recency := by
  have hE := navigate_with_entry seamless_navigate direction wrap_mode id override_range
    Tab.SeamlessNavigateMode.Enabled force_wrap self tree layout_entry htree hentry
  have hD := navigate_with_entry seamless_navigate direction wrap_mode id override_range
    Tab.SeamlessNavigateMode.Disabled force_wrap self tree layout_entry htree hentry
  simp only [hrejected, Bool.false_eq_true, and_false, if_false, if_true] at hE
  simp only [reduceCtorEq, false_and, if_false, List.append_nil, with_calls_self] at hD
  by_cases h2 : (self.navigate_candidates direction wrap_mode override_range force_wrap
      layout_entry tree).2 = true
  · rw [if_pos h2] at hE hD
    rw [hE, hD]
    refine ⟨rfl, by simp, ?_, rfl, rfl⟩
    simp [Tab.calls_since, Tab.with_calls]
  · rw [if_neg h2, navigate_loop_with_calls] at hE
    rw [if_neg h2] at hD
    have hD' := hD
    rw [← with_calls_self self, navigate_loop_with_calls, with_calls_self] at hD'
    rw [hE, hD']
    refine ⟨rfl, ?_, ?_, rfl, rfl⟩
    · rcases navigate_loop_cases direction force_wrap layout_entry tree
          (self.navigate_candidates direction wrap_mode override_range force_wrap layout_entry
            tree).1 (self.with_calls []) self.m_panes_ordered_by_recency with
        hr | ⟨c, e, -, -, -, -, hr⟩ <;> rw [hr] <;> simp
    · simp [Tab.calls_since, Tab.with_calls]

/-- Witness of C30: in `three_pane_tab`, Right from pane 2, which does not accept the offer,
makes pane 3 the active pane as in mode Disabled. -/
theorem navigate_enabled_rejected_eq_disabled_witness :
    (three_pane_tab.navigate no_pane_accepts NavigateDirection.Right NavigateWrapMode.Disallow
        (some ['7']) none Tab.SeamlessNavigateMode.Enabled false).1 =
      (three_pane_tab.navigate no_pane_accepts NavigateDirection.Right
        NavigateWrapMode.Disallow (some ['7']) none Tab.SeamlessNavigateMode.Disabled
        false).1 ∧
      (three_pane_tab.navigate no_pane_accepts NavigateDirection.Right
        NavigateWrapMode.Disallow (some ['7']) none Tab.SeamlessNavigateMode.Enabled
        false).2.m_active = some 3 :=
  ⟨(navigate_enabled_rejected_eq_disabled no_pane_accepts NavigateDirection.Right
      NavigateWrapMode.Disallow (some ['7']) none false three_pane_tab three_pane_tree
      three_pane_active_entry rfl (by decide) rfl).1, by decide⟩

/-! ### The range of the Enter message -/

theorem navigate_range_eq (direction : NavigateDirection)
    (layout_entry candidate_layout_entry : LayoutEntry) :
    Tab.navigate_range direction layout_entry candidate_layout_entry =
      (u32_add
          (u32_sub
            (max (perpendicular_origin direction layout_entry)
              (perpendicular_origin direction candidate_layout_entry))
            (perpendicular_origin direction candidate_layout_entry)) 1,
        u32_sub
          (min
            (u32_add (perpendicular_origin direction layout_entry)
              (perpendicular_extent direction layout_entry))
            (u32_add (perpendicular_origin direction candidate_layout_entry)
              (perpendicular_extent direction candidate_layout_entry)))
          (perpendicular_origin direction candidate_layout_entry)) := by
  cases direction <;> rfl

/-- For two entries within the range of `u32` coordinates that overlap on the perpendicular
axis, the range of the Enter message is computed without wrap-around and is the overlap,
counted from 1 at the origin of the candidate. -/
theorem navigate_range_of_overlap (direction : NavigateDirection)
    (layout_entry candidate_layout_entry : LayoutEntry)
    (hA : perpendicular_origin direction layout_entry +
      perpendicular_extent direction layout_entry < 4294967296)
    (hC : perpendicular_origin direction candidate_layout_entry +
      perpendicular_extent direction candidate_layout_entry < 4294967296)
    (hov : max (perpendicular_origin direction layout_entry)
        (perpendicular_origin direction candidate_layout_entry) <
      min (perpendicular_origin direction layout_entry +
          perpendicular_extent direction layout_entry)
        (perpendicular_origin direction candidate_layout_entry +
          perpendicular_extent direction candidate_layout_entry)) :
    Tab.navigate_range direction layout_entry candidate_layout_entry =
        (max (perpendicular_origin direction layout_entry)
            (perpendicular_origin direction candidate_layout_entry) -
            perpendicular_origin direction candidate_layout_entry + 1,
          min (perpendicular_origin direction layout_entry +
              perpendicular_extent direction layout_entry)
            (perpendicular_origin direction candidate_layout_entry +
              perpendicular_extent direction candidate_layout_entry) -
            perpendicular_origin direction candidate_layout_entry) ∧
      1 ≤ (Tab.navigate_range direction layout_entry candidate_layout_entry).1 ∧
      (Tab.navigate_range direction layout_entry candidate_layout_entry).1 ≤
        (Tab.navigate_range direction layout_entry candidate_layout_entry).2 ∧
      (Tab.navigate_range direction layout_entry candidate_layout_entry).2 ≤
        perpendicular_extent direction candidate_layout_entry := by
  rw [navigate_range_eq]
  generalize perpendicular_origin direction layout_entry = pa at *
  generalize perpendicular_extent direction layout_entry = la at *
  generalize perpendicular_origin direction candidate_layout_entry = pc at *
  generalize perpendicular_extent direction candidate_layout_entry = lc at *
  have h1 : u32_add pa la = pa + la := u32_add_eq _ _ hA
  have h2 : u32_add pc lc = pc + lc := u32_add_eq _ _ hC
  have h3 : pc ≤ max pa pc := le_max_right _ _
  have h4 : max pa pc < pa + la := lt_of_lt_of_le hov (min_le_left _ _)
  have h5 : max pa pc < pc + lc := lt_of_lt_of_le hov (min_le_right _ _)
  have h6 : u32_sub (max pa pc) pc = max pa pc - pc := u32_sub_eq _ _ h3 (by omega)
  have h7 : pc ≤ min (pa + la) (pc + lc) := le_trans h3 (le_of_lt hov)
  have h8 : min (pa + la) (pc + lc) ≤ pc + lc := min_le_right _ _
  have h9 : u32_sub (min (pa + la) (pc + lc)) pc = min (pa + la) (pc + lc) - pc :=
    u32_sub_eq _ _ h7 (by omega)
  have h10 : u32_add (max pa pc - pc) 1 = max pa pc - pc + 1 := u32_add_eq _ _ (by omega)
  rw [h1, h2, h6, h9, h10]
  refine ⟨rfl, ?_, ?_, ?_⟩ <;> simp only <;> omega

/-- The Enter messages of `Tab::navigate` in a layout tree in which every pane has one entry
within the range of `u32` coordinates, for a hit test over a range within the extent of the
active pane on the perpendicular axis: the entry of the pane that gets the message overlaps the
entry of the active pane on this axis. -/
theorem navigate_enter_overlap (seamless_navigate : Nat → terminal.OSC8671 → Bool)
    (direction : NavigateDirection) (wrap_mode : NavigateWrapMode) (id : Option (List Char))
    (override_range : Option (Nat × Nat)) (mode : Tab.SeamlessNavigateMode) (force_wrap : Bool)
    (self : Tab) (tree : LayoutNode) (layout_entry : LayoutEntry)
    (htree : self.m_layout_tree = some tree)
    (hentry : tree.find_pane self.m_active = some layout_entry) (hwf : tree.well_formed)
    (hwithin : ∀ r, override_range = some r →
      perpendicular_origin direction layout_entry ≤ r.1 ∧
        r.2 ≤ perpendicular_origin direction layout_entry +
          perpendicular_extent direction layout_entry)
    (candidate : Nat) (osc_8671 : terminal.OSC8671)
    (hcall : (candidate, PaneCall.seamless_navigate osc_8671) ∈
      self.calls_since
        (self.navigate seamless_navigate direction wrap_mode id override_range mode
          force_wrap).2)
    (htype : osc_8671.type = SeamlessNavigationRequestType.Enter) :
    ∃ candidate_layout_entry,
      tree.find_pane (some candidate) = some candidate_layout_entry ∧
        osc_8671 =
          { type := SeamlessNavigationRequestType.Enter
            direction := some direction
            range := some (Tab.navigate_range direction layout_entry candidate_layout_entry) } ∧
        perpendicular_origin direction layout_entry +
          perpendicular_extent direction layout_entry < 4294967296 ∧
        perpendicular_origin direction candidate_layout_entry +
          perpendicular_extent direction candidate_layout_entry < 4294967296 ∧
        max (perpendicular_origin direction layout_entry)
            (perpendicular_origin direction candidate_layout_entry) <
          min (perpendicular_origin direction layout_entry +
              perpendicular_extent direction layout_entry)
            (perpendicular_origin direction candidate_layout_entry +
              perpendicular_extent direction candidate_layout_entry) := by
  obtain ⟨q, hq, hall⟩ := navigate_calls seamless_navigate direction wrap_mode id
    override_range mode force_wrap self tree layout_entry htree hentry
  unfold Tab.calls_since at hcall
  rw [hq, List.drop_left] at hcall
  have hfitA : perpendicular_origin direction layout_entry +
      perpendicular_extent direction layout_entry < 4294967296 := by
    have := hwf.2 layout_entry (find_pane_some tree _ _ hentry).1
    cases direction <;> simp only [perpendicular_origin, perpendicular_extent] <;> omega
  rcases hall _ hcall with ⟨-, hx⟩ | ⟨c, e, hc, -, hf, hx⟩ | hx
  · simp only [Prod.mk.injEq, PaneCall.seamless_navigate.injEq] at hx
    rw [hx.2] at htype
    simp [Tab.navigate_offer] at htype
  · simp only [Prod.mk.injEq, PaneCall.seamless_navigate.injEq] at hx
    obtain ⟨hx1, hx2⟩ := hx
    subst hx1
    obtain ⟨e', he', hp, hov⟩ := mem_navigate_candidates _ _ _ _ _ _ _ _ hc
    have hee : tree.find_pane (some candidate) = some e' := by
      rw [← hp]
      exact find_pane_of_mem tree e' he' hwf.1
    rw [hee] at hf
    simp only [Option.some.injEq] at hf
    subst hf
    have hfitC : perpendicular_origin direction e' + perpendicular_extent direction e' <
        4294967296 := by
      have := hwf.2 e' he'
      cases direction <;> simp only [perpendicular_origin, perpendicular_extent] <;> omega
    refine ⟨e', hee, hx2, hfitA, hfitC, ?_⟩
    rw [u32_add_eq _ _ hfitA] at hov
    cases override_range with
    | none => simpa using hov
    | some r =>
      have hr := hwithin r rfl
      simp only [Option.map_some', Option.getD_some] at hov
      have h1 := lt_of_le_of_lt (le_max_left _ _) hov
      have h2 := lt_of_le_of_lt (le_max_right _ _) hov
      have h3 := lt_of_lt_of_le hov (min_le_left _ _)
      have h4 := lt_of_lt_of_le hov (min_le_right _ _)
      simp only [lt_min_iff, max_lt_iff] at h1 h2 h3 h4 ⊢
      omega
  · have := hx SeamlessNavigationRequestType.Enter
    simp [PaneCall.is_message, htype] at this

/-- C25: the Enter message that `Tab::navigate` sends to the pane `C` it selects from the
active pane `A` has the range `(max(A.p, C.p) - C.p + 1, min(A.p + A.len, C.p + C.len) - C.p)`
in `u32` arithmetic, with `p` and `len` the origin and extent on the perpendicular axis. In a
layout tree in which every pane has one entry within the `u32` coordinates and without an
override range, the subtractions do not wrap, `1 ≤ start ≤ end ≤ C.len`, and the cells
`C.p + start - 1`, ..., `C.p + end - 1` are the cells that `A` and `C` share on that axis. -/
theorem enter_range_is_overlap (seamless_navigate : Nat → terminal.OSC8671 → Bool)
    (direction : NavigateDirection) (wrap_mode : NavigateWrapMode) (id : Option (List Char))
    (mode : Tab.SeamlessNavigateMode) (force_wrap : Bool) (self : Tab) (tree : LayoutNode)
    (layout_entry : LayoutEntry) (htree : self.m_layout_tree = some tree)
    (hentry : tree.find_pane self.m_active = some layout_entry) (hwf : tree.well_formed)
    (candidate : Nat) (osc_8671 : terminal.OSC8671)
    (hcall : (candidate, PaneCall.seamless_navigate osc_8671) ∈
      self.calls_since
        (self.navigate seamless_navigate direction wrap_mode id none mode force_wrap).2)
    (htype : osc_8671.type = SeamlessNavigationRequestType.Enter) :
    ∃ candidate_layout_entry start end_,
      tree.find_pane (some candidate) = some candidate_layout_entry ∧
        osc_8671.direction = some direction ∧
        osc_8671.range = some (start, end_) ∧
        start =
          u32_add
            (u32_sub
              (max (perpendicular_origin direction layout_entry)
                (perpendicular_origin direction candidate_layout_entry))
              (perpendicular_origin direction candidate_layout_entry)) 1 ∧
        end_ =
          u32_sub
            (min
              (u32_add (perpendicular_origin direction layout_entry)
                (perpendicular_extent direction layout_entry))
              (u32_add (perpendicular_origin direction candidate_layout_entry)
                (perpendicular_extent direction candidate_layout_entry)))
            (perpendicular_origin direction candidate_layout_entry) ∧
        start =
          max (perpendicular_origin direction layout_entry)
              (perpendicular_origin direction candidate_layout_entry) -
            perpendicular_origin direction candidate_layout_entry + 1 ∧
        end_ =
          min (perpendicular_origin direction layout_entry +
              perpendicular_extent direction layout_entry)
            (perpendicular_origin direction candidate_layout_entry +
              perpendicular_extent direction candidate_layout_entry) -
            perpendicular_origin direction candidate_layout_entry ∧
        1 ≤ start ∧ start ≤ end_ ∧
        end_ ≤ perpendicular_extent direction candidate_layout_entry ∧
        ∀ k,
          (perpendicular_origin direction candidate_layout_entry + start - 1 ≤ k ∧
              k ≤ perpendicular_origin direction candidate_layout_entry + end_ - 1) ↔
            (perpendicular_origin direction layout_entry ≤ k ∧
              k < perpendicular_origin direction layout_entry +
                perpendicular_extent direction layout_entry) ∧
              perpendicular_origin direction candidate_layout_entry ≤ k ∧
              k < perpendicular_origin direction candidate_layout_entry +
                perpendicular_extent direction candidate_layout_entry := by
  obtain ⟨ce, hce, hosc, hA, hC, hov⟩ := navigate_enter_overlap seamless_navigate direction
    wrap_mode id none mode force_wrap self tree layout_entry htree hentry hwf
    (by intro r hr; cases hr) candidate osc_8671 hcall htype
  obtain ⟨heq, h1, h2, h3⟩ := navigate_range_of_overlap direction layout_entry ce hA hC hov
  have hu := navigate_range_eq direction layout_entry ce
  refine ⟨ce, (Tab.navigate_range direction layout_entry ce).1,
    (Tab.navigate_range direction layout_entry ce).2, hce, by rw [hosc], by rw [hosc],
    by rw [hu], by rw [hu], by rw [heq], by rw [heq], h1, h2, h3, ?_⟩
  intro k
  rw [heq]
  simp only
  simp only [lt_min_iff, max_lt_iff] at hov
  rcases le_total (perpendicular_origin direction layout_entry)
      (perpendicular_origin direction ce) with hm | hm <;>
    rcases le_total
      (perpendicular_origin direction layout_entry +
        perpendicular_extent direction layout_entry)
      (perpendicular_origin direction ce + perpendicular_extent direction ce) with hn | hn <;>
    simp only [max_eq_left, max_eq_right, min_eq_left, min_eq_right, hm, hn] <;>
    omega

/-- Witness of C25: in `three_pane_tab`, Right from pane 2 (rows 11 to 20) sends pane 3 (rows 0
to 20) the range (12, 21). -/
theorem enter_range_is_overlap_witness :
    ∃ candidate_layout_entry start end_,
      three_pane_tree.find_pane (some 3) = some candidate_layout_entry ∧
        (start, end_) = (12, 21) ∧ 1 ≤ start ∧ start ≤ end_ ∧
        end_ ≤ perpendicular_extent NavigateDirection.Right candidate_layout_entry := by
  obtain ⟨ce, s, e, h1, -, h3, -, -, -, -, h8, h9, h10, -⟩ :=
    enter_range_is_overlap no_pane_accepts NavigateDirection.Right NavigateWrapMode.Disallow
      none Tab.SeamlessNavigateMode.Disabled false three_pane_tab three_pane_tree
      three_pane_active_entry rfl (by decide) (by decide) 3
      { type := SeamlessNavigationRequestType.Enter
        direction := some NavigateDirection.Right
        range := some (12, 21) } (by decide) rfl
  simp only [Option.some.injEq] at h3
  exact ⟨ce, s, e, h1, h3.symm, h8, h9, h10⟩

/-- C26, as stated, fails: with an override range outside the extent of the active pane on the
perpendicular axis, the Enter message has a range with `start > end`, or a range computed with a
wrap-around. From pane 3 on the right, Up with the columns 0 to 39 selects pane 2 and sends the
range (42, 40); from pane 2, Up with the columns 41 to 80 selects pane 3 and sends the range
(1, 4294967295). The layout tree has three panes that do not overlap. -/
theorem enter_range_invalid_for_override_outside_active_pane :
    three_pane_tree.well_formed ∧
      three_pane_tab_right.calls_since
          (three_pane_tab_right.navigate no_pane_accepts NavigateDirection.Up
            NavigateWrapMode.Allow none (some (0, 40)) Tab.SeamlessNavigateMode.Disabled
            false).2 =
        [(2,
            PaneCall.seamless_navigate
              { type := SeamlessNavigationRequestType.Enter
                direction := some NavigateDirection.Up
                range := some (42, 40) }),
          (3, PaneCall.focus_out), (2, PaneCall.focus_in)] ∧
      three_pane_tab.calls_since
          (three_pane_tab.navigate no_pane_accepts NavigateDirection.Up
            NavigateWrapMode.Allow none (some (41, 81)) Tab.SeamlessNavigateMode.Disabled
            false).2 =
        [(3,
            PaneCall.seamless_navigate
              { type := SeamlessNavigationRequestType.Enter
                direction := some NavigateDirection.Up
                range := some (1, 4294967295) }),
          (2, PaneCall.focus_out), (3, PaneCall.focus_in)] := by
  decide

/-- C26, amended: in a layout tree in which every pane has one entry within the `u32`
coordinates, for every direction, wrap mode, seamless mode and forced wrap, and for every
override range that lies within the extent of the active pane on the perpendicular axis (or
none), every Enter message that `Tab::navigate` constructs has a range with `1 ≤ start ≤ end`,
computed without wrap-around: `start` and `end` are the values of the formulas over the
integers, and `end` is at most the extent of the pane that gets the message. -/
theorem enter_range_valid_within_active_extent
    (seamless_navigate : Nat → terminal.OSC8671 → Bool)
    (direction : NavigateDirection) (wrap_mode : NavigateWrapMode) (id : Option (List Char))
    (override_range : Option (Nat × Nat)) (mode : Tab.SeamlessNavigateMode) (force_wrap : Bool)
    (self : Tab) (tree : LayoutNode) (layout_entry : LayoutEntry)
    (htree : self.m_layout_tree = some tree)
    (hentry : tree.find_pane self.m_active = some layout_entry) (hwf : tree.well_formed)
    (hwithin : ∀ r, override_range = some r →
      perpendicular_origin direction layout_entry ≤ r.1 ∧
        r.2 ≤ perpendicular_origin direction layout_entry +
          perpendicular_extent direction layout_entry)
    (candidate : Nat) (osc_8671 : terminal.OSC8671)
    (hcall : (candidate, PaneCall.seamless_navigate osc_8671) ∈
      self.calls_since
        (self.navigate seamless_navigate direction wrap_mode id override_range mode
          force_wrap).2)
    (htype : osc_8671.type = SeamlessNavigationRequestType.Enter) :
    ∃ candidate_layout_entry start end_,
      tree.find_pane (some candidate) = some candidate_layout_entry ∧
        osc_8671.range = some (start, end_) ∧
        1 ≤ start ∧ start ≤ end_ ∧
        end_ ≤ perpendicular_extent direction candidate_layout_entry ∧
        end_ < 4294967296 ∧
        (start : Int) =
          max (perpendicular_origin direction layout_entry : Int)
              (perpendicular_origin direction candidate_layout_entry) -
            perpendicular_origin direction candidate_layout_entry + 1 ∧
        (end_ : Int) =
          min
              ((perpendicular_origin direction layout_entry : Int) +
                perpendicular_extent direction layout_entry)
              ((perpendicular_origin direction candidate_layout_entry : Int) +
                perpendicular_extent direction candidate_layout_entry) -
            perpendicular_origin direction candidate_layout_entry := by
  obtain ⟨ce, hce, hosc, hA, hC, hov⟩ := navigate_enter_overlap seamless_navigate direction
    wrap_mode id override_range mode force_wrap self tree layout_entry htree hentry hwf
    hwithin candidate osc_8671 hcall htype
  obtain ⟨heq, h1, h2, h3⟩ := navigate_range_of_overlap direction layout_entry ce hA hC hov
  refine ⟨ce, (Tab.navigate_range direction layout_entry ce).1,
    (Tab.navigate_range direction layout_entry ce).2, hce, by rw [hosc], h1, h2, h3,
    by omega, ?_, ?_⟩
  · rw [heq]
    simp only
    simp only [lt_min_iff, max_lt_iff] at hov
    rcases le_total (perpendicular_origin direction layout_entry)
        (perpendicular_origin direction ce) with hm | hm
    · rw [max_eq_right hm, max_eq_right (by exact_mod_cast hm)]
      omega
    · rw [max_eq_left hm, max_eq_left (by exact_mod_cast hm)]
      omega
  · rw [heq]
    simp only
    simp only [lt_min_iff, max_lt_iff] at hov
    rcases le_total
        (perpendicular_origin direction layout_entry +
          perpendicular_extent direction layout_entry)
        (perpendicular_origin direction ce + perpendicular_extent direction ce) with hn | hn
    · rw [min_eq_left hn, min_eq_left (by exact_mod_cast hn)]
      omega
    · rw [min_eq_right hn, min_eq_right (by exact_mod_cast hn)]
      omega

/-- Witness of the amended C26: in `three_pane_tab`, Up from pane 2 with the columns 0 to 39
sends pane 1 the range (1, 40). -/
theorem enter_range_valid_within_active_extent_witness :
    ∃ candidate_layout_entry start end_,
      three_pane_tree.find_pane (some 1) = some candidate_layout_entry ∧
        (start, end_) = (1, 40) ∧ 1 ≤ start ∧ start ≤ end_ := by
  obtain ⟨ce, s, e, h1, h2, h3, h4, -⟩ :=
    enter_range_valid_within_active_extent no_pane_accepts NavigateDirection.Up
      NavigateWrapMode.Disallow none (some (0, 40)) Tab.SeamlessNavigateMode.Disabled false
      three_pane_tab three_pane_tree three_pane_active_entry rfl (by decide) (by decide)
      (by intro r hr; cases hr; decide) 1
      { type := SeamlessNavigationRequestType.Enter
        direction := some NavigateDirection.Up
        range := some (1, 40) } (by decide) rfl
  simp only [Option.some.injEq] at h2
  exact ⟨ce, s, e, h1, h2.symm, h3, h4⟩

/-! ### The OSC 8671 handler over the layout state -/

theorem layout_state_eta (state : LayoutState) (tab : Tab)
    (h : state.m_active_tab = some tab) : { state with m_active_tab := some tab } = state := by
  cases state
  simp only at h
  subst h
  rfl

theorem handle_event_navigate_state {L : Type} (H : Handlers L) (event : terminal.OSC8671)
    (did_timeout : Bool) (self : InputThread L)
    (h : event.type = SeamlessNavigationRequestType.Navigate) :
    (InputThread.handle_event H event did_timeout self).2.1.m_layout_state =
      (H.navigate event
        (if did_timeout then Tab.SeamlessNavigateMode.Disabled
          else Tab.SeamlessNavigateMode.Enabled) self.m_layout_state).2 := by
  unfold InputThread.handle_event
  rw [if_neg (by rw [h]; decide), if_neg (not_not.2 h)]
  dsimp only
  split_ifs <;> rfl

theorem navigate_without_tree (seamless_navigate : Nat → terminal.OSC8671 → Bool)
    (direction : NavigateDirection) (wrap_mode : NavigateWrapMode) (id : Option (List Char))
    (override_range : Option (Nat × Nat)) (mode : Tab.SeamlessNavigateMode) (force_wrap : Bool)
    (self : Tab) (htree : self.m_layout_tree = none) :
    self.navigate seamless_navigate direction wrap_mode id override_range mode force_wrap =
      (some false, self) := by
  obtain ⟨sz, root, tr, recency, ia, act, fs, calls, n⟩ := self
  simp only at htree
  subst htree
  rfl

theorem calls_since_self (self : Tab) : self.calls_since self = [] := by
  simp [Tab.calls_since]

/-- In seamless mode Disabled the result of `Tab::navigate` is not absent. -/
theorem navigate_disabled_isSome (seamless_navigate : Nat → terminal.OSC8671 → Bool)
    (direction : NavigateDirection) (wrap_mode : NavigateWrapMode) (id : Option (List Char))
    (override_range : Option (Nat × Nat)) (force_wrap : Bool) (self : Tab) :
    (self.navigate seamless_navigate direction wrap_mode id override_range
      Tab.SeamlessNavigateMode.Disabled force_wrap).1.isSome = true := by
  cases htree : self.m_layout_tree with
  | none => rw [navigate_without_tree _ _ _ _ _ _ _ _ htree]; rfl
  | some tree =>
    cases hentry : tree.find_pane self.m_active with
    | none => rw [navigate_without_entry _ _ _ _ _ _ _ _ tree htree hentry]; rfl
    | some layout_entry =>
      rw [navigate_disabled_with_entry seamless_navigate direction wrap_mode id override_range
        force_wrap self tree layout_entry htree hentry]
      by_cases h2 : (self.navigate_candidates direction wrap_mode override_range force_wrap
          layout_entry tree).2 = true
      · rw [if_pos h2]
        rfl
      · rw [if_neg h2]
        rcases navigate_loop_cases direction force_wrap layout_entry tree
            (self.navigate_candidates direction wrap_mode override_range force_wrap
              layout_entry tree).1 self self.m_panes_ordered_by_recency with
          hr | ⟨c, e, -, -, -, -, hr⟩ <;> rw [hr] <;> rfl

/-- In seamless mode Disabled `Tab::navigate` sends no Navigate message to a pane. -/
theorem navigate_disabled_no_offer (seamless_navigate : Nat → terminal.OSC8671 → Bool)
    (direction : NavigateDirection) (wrap_mode : NavigateWrapMode) (id : Option (List Char))
    (override_range : Option (Nat × Nat)) (force_wrap : Bool) (self : Tab)
    (x : Nat × PaneCall)
    (hx : x ∈ self.calls_since
      (self.navigate seamless_navigate direction wrap_mode id override_range
        Tab.SeamlessNavigateMode.Disabled force_wrap).2) :
    x.2.is_message SeamlessNavigationRequestType.Navigate = false := by
  cases htree : self.m_layout_tree with
  | none =>
    rw [navigate_without_tree _ _ _ _ _ _ _ _ htree] at hx
    simp [Tab.calls_since] at hx
  | some tree =>
    cases hentry : tree.find_pane self.m_active with
    | none =>
      rw [navigate_without_entry _ _ _ _ _ _ _ _ tree htree hentry] at hx
      simp [Tab.calls_since] at hx
    | some layout_entry =>
      obtain ⟨q, hq, hall⟩ := navigate_calls seamless_navigate direction wrap_mode id
        override_range Tab.SeamlessNavigateMode.Disabled force_wrap self tree layout_entry
        htree hentry
      unfold Tab.calls_since at hx
      rw [hq, List.drop_left] at hx
      rcases hall x hx with ⟨hm, -⟩ | ⟨c, e, -, -, -, hc⟩ | hn
      · exact absurd hm (by decide)
      · rw [hc]
        rfl
      · exact hn _

/-- With a forced wrap in seamless mode Disabled, a tab whose active pane is the first pane of
the recency list is left as it is. -/
theorem navigate_force_wrap_head (seamless_navigate : Nat → terminal.OSC8671 → Bool)
    (direction : NavigateDirection) (wrap_mode : NavigateWrapMode) (id : Option (List Char))
    (override_range : Option (Nat × Nat)) (self : Tab) (tree : LayoutNode) (active : Nat)
    (rest : List Nat) (htree : self.m_layout_tree = some tree)
    (hactive : self.m_active = some active)
    (hrecency : self.m_panes_ordered_by_recency = active :: rest) :
    self.navigate seamless_navigate direction wrap_mode id override_range
        Tab.SeamlessNavigateMode.Disabled true = (some false, self) := by
  cases hentry : tree.find_pane self.m_active with
  | none => exact navigate_without_entry _ _ _ _ _ _ _ _ tree htree hentry
  | some layout_entry =>
    rw [navigate_disabled_with_entry seamless_navigate direction wrap_mode id override_range
      true self tree layout_entry htree hentry]
    by_cases h2 : (self.navigate_candidates direction wrap_mode override_range true
        layout_entry tree).2 = true
    · rw [if_pos h2]
    · rw [if_neg h2, hrecency]
      exact navigate_loop_force_head _ _ _ _ _ _ _ hactive

/-- C21: for a Navigate event with the range `(start, end)`, `1 ≤ start ≤ end`, the handler
calls `Tab::navigate` on the active tab with the override range
`(base + min(start - 1, limit), base + min(end, limit))`, where `base` and `limit` are the
origin and the extent of the entry of the active pane on the perpendicular axis of the
direction, an entry within the `u32` coordinates. The range satisfies
`base ≤ lo ≤ hi ≤ base + limit`, and `start - 1` does not wrap; every range that
`OSC8671::parse` returns has `1 ≤ start ≤ end < 2 ^ 32`, so `start - 1` does not wrap for it. -/
theorem navigate_override_range_clamped (seamless_navigate : Nat → terminal.OSC8671 → Bool)
    (event : terminal.OSC8671) (mode : Tab.SeamlessNavigateMode) (state : LayoutState)
    (tab : Tab) (tree : LayoutNode) (entry : LayoutEntry) (direction : NavigateDirection)
    (start end_ : Nat) (htab : state.m_active_tab = some tab)
    (htree : tab.m_layout_tree = some tree) (hentry : tree.find_pane tab.m_active = some entry)
    (hdirection : event.direction = some direction) (hrange : event.range = some (start, end_))
    (hstart : 1 ≤ start) (hend : start ≤ end_) (hu32 : end_ < 4294967296)
    (hfit : perpendicular_origin direction entry + perpendicular_extent direction entry <
      4294967296) :
    LayoutState.navigate seamless_navigate event mode state =
        ((tab.navigate seamless_navigate direction event.wrap_mode event.id
            (some
              (perpendicular_origin direction entry +
                  min (start - 1) (perpendicular_extent direction entry),
                perpendicular_origin direction entry +
                  min end_ (perpendicular_extent direction entry))) mode false).1,
          { state with
            m_active_tab :=
              some
                (tab.navigate seamless_navigate direction event.wrap_mode event.id
                  (some
                    (perpendicular_origin direction entry +
                        min (start - 1) (perpendicular_extent direction entry),
                      perpendicular_origin direction entry +
                        min end_ (perpendicular_extent direction entry))) mode false).2 }) ∧
      navigate_override_range direction entry (start, end_) =
        (perpendicular_origin direction entry +
            min (start - 1) (perpendicular_extent direction entry),
          perpendicular_origin direction entry +
            min end_ (perpendicular_extent direction entry)) ∧
      u32_sub start 1 = start - 1 ∧
      perpendicular_origin direction entry ≤
        perpendicular_origin direction entry +
          min (start - 1) (perpendicular_extent direction entry) ∧
      perpendicular_origin direction entry +
          min (start - 1) (perpendicular_extent direction entry) ≤
        perpendicular_origin direction entry +
          min end_ (perpendicular_extent direction entry) ∧
      perpendicular_origin direction entry +
          min end_ (perpendicular_extent direction entry) ≤
        perpendicular_origin direction entry + perpendicular_extent direction entry ∧
      ∀ payload message range,
        terminal.OSC8671.parse payload = some message → message.range = some range →
          1 ≤ range.1 ∧ range.1 ≤ range.2 ∧ range.2 < 4294967296 ∧
            u32_sub range.1 1 = range.1 - 1 := by
  have hsub : u32_sub start 1 = start - 1 := u32_sub_eq _ _ hstart (by omega)
  have hr : navigate_override_range direction entry (start, end_) =
      (perpendicular_origin direction entry +
          min (start - 1) (perpendicular_extent direction entry),
        perpendicular_origin direction entry +
          min end_ (perpendicular_extent direction entry)) := by
    have hlo : min (start - 1) (perpendicular_extent direction entry) ≤
        perpendicular_extent direction entry := min_le_right _ _
    have hhi : min end_ (perpendicular_extent direction entry) ≤
        perpendicular_extent direction entry := min_le_right _ _
    have e : navigate_override_range direction entry (start, end_) =
        (u32_add (perpendicular_origin direction entry)
            (min (u32_sub start 1) (perpendicular_extent direction entry)),
          u32_add (perpendicular_origin direction entry)
            (min end_ (perpendicular_extent direction entry))) := by
      cases direction <;> rfl
    rw [e, hsub, u32_add_eq _ _ (by omega), u32_add_eq _ _ (by omega)]
  have hmono : min (start - 1) (perpendicular_extent direction entry) ≤
      min end_ (perpendicular_extent direction entry) :=
    min_le_min (by omega) (le_refl _)
  refine ⟨?_, hr, hsub, Nat.le_add_right _ _, by omega,
    Nat.add_le_add_left (min_le_right _ _) _, ?_⟩
  · obtain ⟨-, hact⟩ := find_pane_some tree _ _ hentry
    unfold LayoutState.navigate
    rw [htab]
    simp only
    rw [htree, hact]
    simp only
    rw [hdirection]
    simp only
    rw [hrange]
    simp only
    rw [← hact, hentry]
    simp only [Option.map_some', hr]
  · intro payload message range hparse hmr
    obtain ⟨-, -, hwf⟩ := parse_well_formed payload message hparse
    have := hwf range hmr
    refine ⟨this.1, this.2.1, by simpa using this.2.2, u32_sub_eq _ _ this.1 ?_⟩
    have h2 := this.2.2
    have h3 := this.2.1
    norm_num at h2
    omega

/-- Witness of C21: for pane 3 of `three_pane_tab_right` (rows 0 to 20) and the direction Left,
the range (2, 25) becomes (1, 21). -/
theorem navigate_override_range_clamped_witness :
    navigate_override_range NavigateDirection.Left three_pane_right_entry (2, 25) = (1, 21) :=
  (navigate_override_range_clamped no_pane_accepts
    { type := SeamlessNavigationRequestType.Navigate
      direction := some NavigateDirection.Left
      id := some ['7']
      range := some (2, 25) } Tab.SeamlessNavigateMode.Disabled
    three_pane_thread.m_layout_state three_pane_tab_right three_pane_tree
    three_pane_right_entry NavigateDirection.Left 2 25 rfl rfl (by decide) rfl rfl (by decide)
    (by decide) (by decide) (by decide)).2.1

/-- C22 does not hold for the code. For an Enter event with the direction `d`, the handler calls
`Tab::navigate` on the active tab with the wrap mode Allow, the direction `d`, the range of the
event (or the full extent of the screen), seamless mode Disabled and a forced wrap; it requests
a render, writes no reply and reports the event processed. But when the active pane is the first
pane of the recency list, which is where `set_active` puts it, the call returns false and leaves
the tab as it is, whatever the hit test yields: no pane becomes the active pane. -/
theorem enter_leaves_active_pane (seamless_navigate : Nat → terminal.OSC8671 → Bool)
    (handle_event : Event → InputThread LayoutState → InputThread LayoutState)
    (event : terminal.OSC8671) (did_timeout : Bool) (self : InputThread LayoutState)
    (tab : Tab) (tree : LayoutNode) (direction : NavigateDirection) (active : Nat)
    (rest : List Nat) (htype : event.type = SeamlessNavigationRequestType.Enter)
    (hdirection : event.direction = some direction)
    (htab : self.m_layout_state.m_active_tab = some tab)
    (htree : tab.m_layout_tree = some tree) (hactive : tab.m_active = some active)
    (hrecency : tab.m_panes_ordered_by_recency = active :: rest) :
    LayoutState.enter seamless_navigate event self.m_layout_state =
        some
          { self.m_layout_state with
            m_active_tab :=
              some
                (tab.navigate seamless_navigate direction NavigateWrapMode.Allow none
                  (some
                    ((event.range.map (fun x => u32_sub x.1 1)).getD 0,
                      (event.range.map (fun x => x.2)).getD
                        (if direction = NavigateDirection.Left ∨
                            direction = NavigateDirection.Right then
                          self.m_layout_state.m_size.rows
                        else self.m_layout_state.m_size.cols)))
                  Tab.SeamlessNavigateMode.Disabled true).2 } ∧
      (∀ override_range,
        tab.navigate seamless_navigate direction NavigateWrapMode.Allow none override_range
          Tab.SeamlessNavigateMode.Disabled true = (some false, tab)) ∧
      InputThread.handle_event (layout_handlers seamless_navigate handle_event) event
          did_timeout self =
        (event,
          { self with
            m_render_thread := self.m_render_thread ++ [RenderEvent.RequestRender] },
          true) := by
  have hnav : ∀ override_range,
      tab.navigate seamless_navigate direction NavigateWrapMode.Allow none override_range
        Tab.SeamlessNavigateMode.Disabled true = (some false, tab) := fun o =>
    navigate_force_wrap_head seamless_navigate direction NavigateWrapMode.Allow none o tab
      tree active rest htree hactive hrecency
  have henter : LayoutState.enter seamless_navigate event self.m_layout_state =
      some
        { self.m_layout_state with
          m_active_tab :=
            some
              (tab.navigate seamless_navigate direction NavigateWrapMode.Allow none
                (some
                  ((event.range.map (fun x => u32_sub x.1 1)).getD 0,
                    (event.range.map (fun x => x.2)).getD
                      (if direction = NavigateDirection.Left ∨
                          direction = NavigateDirection.Right then
                        self.m_layout_state.m_size.rows
                      else self.m_layout_state.m_size.cols)))
                Tab.SeamlessNavigateMode.Disabled true).2 } := by
    unfold LayoutState.enter
    rw [htab]
    simp only
    rw [hdirection]
    simp only [Option.some.injEq]
  refine ⟨henter, hnav, ?_⟩
  unfold InputThread.handle_event
  rw [if_pos htype]
  have h2 : (layout_handlers seamless_navigate handle_event).enter event self.m_layout_state =
      some self.m_layout_state := by
    show LayoutState.enter seamless_navigate event self.m_layout_state = _
    rw [henter, hnav, layout_state_eta _ _ htab]
  rw [h2]

/-- Witness for C22: in `three_pane_tab_right` the active pane is pane 3, on the right. An Enter
event with the direction Right probes column 0, where the hit test yields pane 2, and pane 3
stays the active pane. -/
theorem enter_leaves_active_pane_witness :
    2 ∈ (three_pane_tab_right.navigate_candidates NavigateDirection.Right
        NavigateWrapMode.Allow (some (0, 21)) true three_pane_right_entry three_pane_tree).1 ∧
      three_pane_tab_right.m_active = some 3 ∧
      InputThread.handle_event (layout_handlers no_pane_accepts no_key_binds)
          { type := SeamlessNavigationRequestType.Enter
            direction := some NavigateDirection.Right } false three_pane_thread =
        ({ type := SeamlessNavigationRequestType.Enter
           direction := some NavigateDirection.Right },
          { three_pane_thread with m_render_thread := [RenderEvent.RequestRender] }, true) :=
  ⟨by decide, rfl,
    (enter_leaves_active_pane no_pane_accepts no_key_binds
      { type := SeamlessNavigationRequestType.Enter
        direction := some NavigateDirection.Right } false three_pane_thread
      three_pane_tab_right three_pane_tree NavigateDirection.Right 3 [2, 1] rfl rfl rfl rfl
      rfl rfl).2.2⟩

/-- C23: for a Navigate event with `did_timeout = true` the handler calls `Tab::navigate` on
the active tab with seamless mode Disabled and without a forced wrap, so the local navigation
is made; no call made on a pane is a Navigate message; and the handler reports the event
processed, so the event is not left pending. -/
theorem timed_out_navigate_is_local (seamless_navigate : Nat → terminal.OSC8671 → Bool)
    (handle_event : Event → InputThread LayoutState → InputThread LayoutState)
    (event : terminal.OSC8671) (self : InputThread LayoutState)
    (htype : event.type = SeamlessNavigationRequestType.Navigate) :
    (InputThread.handle_event (layout_handlers seamless_navigate handle_event) event true
        self).2.2 = true ∧
      (InputThread.handle_event (layout_handlers seamless_navigate handle_event) event true
          self).2.1.m_layout_state =
        (LayoutState.navigate seamless_navigate event Tab.SeamlessNavigateMode.Disabled
          self.m_layout_state).2 ∧
      (∀ tab tree active direction,
        self.m_layout_state.m_active_tab = some tab → tab.m_layout_tree = some tree →
          tab.m_active = some active → event.direction = some direction →
          (InputThread.handle_event (layout_handlers seamless_navigate handle_event) event
              true self).2.1.m_layout_state.m_active_tab =
            some
              (tab.navigate seamless_navigate direction event.wrap_mode event.id
                (event.range.bind (fun x =>
                  (tree.find_pane (some active)).map (fun entry =>
                    navigate_override_range direction entry x)))
                Tab.SeamlessNavigateMode.Disabled false).2) ∧
      ∀ tab, self.m_layout_state.m_active_tab = some tab →
        ∃ tab',
          (InputThread.handle_event (layout_handlers seamless_navigate handle_event) event
              true self).2.1.m_layout_state.m_active_tab = some tab' ∧
            ∀ x ∈ tab.calls_since tab',
              x.2.is_message SeamlessNavigationRequestType.Navigate = false := by
  have hstate := handle_event_navigate_state (layout_handlers seamless_navigate handle_event)
    event true self htype
  have hres := handle_event_result (layout_handlers seamless_navigate handle_event) event true
    self
  rw [if_pos htype] at hres
  simp only [if_true] at hstate hres
  have hnav : (layout_handlers seamless_navigate handle_event).navigate =
      LayoutState.navigate seamless_navigate := rfl
  rw [hnav] at hstate hres
  have hsome : (LayoutState.navigate seamless_navigate event
      Tab.SeamlessNavigateMode.Disabled self.m_layout_state).1.isSome = true := by
    unfold LayoutState.navigate
    cases self.m_layout_state.m_active_tab with
    | none => rfl
    | some tab =>
      simp only
      cases tab.m_layout_tree with
      | none => rfl
      | some tree =>
        cases tab.m_active with
        | none => rfl
        | some active =>
          cases event.direction with
          | none => rfl
          | some direction => exact navigate_disabled_isSome _ _ _ _ _ _ _
  have heq : ∀ tab tree active direction,
      self.m_layout_state.m_active_tab = some tab → tab.m_layout_tree = some tree →
        tab.m_active = some active → event.direction = some direction →
        (LayoutState.navigate seamless_navigate event Tab.SeamlessNavigateMode.Disabled
            self.m_layout_state).2.m_active_tab =
          some
            (tab.navigate seamless_navigate direction event.wrap_mode event.id
              (event.range.bind (fun x =>
                (tree.find_pane (some active)).map (fun entry =>
                  navigate_override_range direction entry x)))
              Tab.SeamlessNavigateMode.Disabled false).2 := by
    intro tab tree active direction htab htree hactive hdirection
    unfold LayoutState.navigate
    rw [htab]
    simp only
    rw [htree, hactive]
    simp only
    rw [hdirection]
    cases event.range <;> rfl
  have hcalls : ∀ tab, self.m_layout_state.m_active_tab = some tab →
      ∃ tab',
        (LayoutState.navigate seamless_navigate event Tab.SeamlessNavigateMode.Disabled
            self.m_layout_state).2.m_active_tab = some tab' ∧
          ∀ x ∈ tab.calls_since tab',
            x.2.is_message SeamlessNavigationRequestType.Navigate = false := by
    intro tab htab
    have hkeep : ∃ tab', self.m_layout_state.m_active_tab = some tab' ∧
        ∀ x ∈ tab.calls_since tab',
          x.2.is_message SeamlessNavigationRequestType.Navigate = false :=
      ⟨tab, htab, by simp [calls_since_self]⟩
    unfold LayoutState.navigate
    rw [htab]
    simp only
    cases tab.m_layout_tree with
    | none => exact hkeep
    | some tree =>
      cases tab.m_active with
      | none => exact hkeep
      | some active =>
        cases event.direction with
        | none => exact hkeep
        | some direction =>
          exact ⟨_, rfl, fun x hx => navigate_disabled_no_offer _ _ _ _ _ _ _ x hx⟩
  refine ⟨by rw [hres]; exact hsome, hstate, ?_, ?_⟩
  · intro tab tree active direction htab htree hactive hdirection
    rw [hstate]
    exact heq tab tree active direction htab htree hactive hdirection
  · intro tab htab
    rw [hstate]
    exact hcalls tab htab

/-- Witness of C23: a timed-out Navigate with the direction Left in `three_pane_tab_right`
makes pane 2 the active pane, though every pane accepts offers. -/
theorem timed_out_navigate_is_local_witness :
    (InputThread.handle_event (layout_handlers every_pane_accepts no_key_binds)
        { type := SeamlessNavigationRequestType.Navigate
          direction := some NavigateDirection.Left
          id := some ['7'] } true three_pane_thread).2.2 = true ∧
      ((InputThread.handle_event (layout_handlers every_pane_accepts no_key_binds)
        { type := SeamlessNavigationRequestType.Navigate
          direction := some NavigateDirection.Left
          id := some ['7'] } true three_pane_thread).2.1.m_layout_state.m_active_tab.map
            Tab.m_active) = some (some 2) :=
  ⟨(timed_out_navigate_is_local every_pane_accepts no_key_binds
      { type := SeamlessNavigationRequestType.Navigate
        direction := some NavigateDirection.Left
        id := some ['7'] } three_pane_thread rfl).1, by decide⟩

/-! ### The pending head, events left pending, and the length of a run -/

/-- The head is not pending and holds an OSC 8671 event that its handler does not report
processed: the entry goes to the back of the queue, marked pending, and the loop exits. -/
theorem process_left_pending {L : Type} (H : Handlers L) (fuel : Nat) (self : InputThread L)
    (first : PendingEvent) (rest : List PendingEvent) (x : terminal.OSC8671)
    (hd : self.m_done = false) (hq : self.m_pending_events = first :: rest)
    (hp : first.pending = false) (hx : first.event = Event.OSC8671 x)
    (hr : (InputThread.handle_event H x false { self with m_pending_events := rest }).2.2 =
      false) :
    InputThread.process_pending_events H (fuel + 1) self =
      ({ (InputThread.handle_event H x false { self with m_pending_events := rest }).2.1 with
          m_pending_events :=
            (InputThread.handle_event H x false
              { self with m_pending_events := rest }).2.1.m_pending_events ++
              [{ first with
                  event := Event.OSC8671
                    (InputThread.handle_event H x false
                      { self with m_pending_events := rest }).1
                  pending := true }] },
        [{ event := Event.OSC8671 x, did_timeout := false }]) := by
  obtain ⟨d, l, q, rt, nw⟩ := self
  obtain ⟨ev, t, p⟩ := first
  simp only at hd hq hp
  subst hd hq hp
  simp only at hx hr
  subst hx
  simp only [InputThread.process_pending_events]
  simp [hr]

/-- The head is pending, its deadline has passed, and it holds an event other than OSC 8671:
no handler takes the argument `did_timeout`, the entry is dropped and the loop goes on. -/
theorem process_timeout_rvalue {L : Type} (H : Handlers L) (fuel : Nat) (self : InputThread L)
    (first : PendingEvent) (rest : List PendingEvent)
    (hd : self.m_done = false) (hq : self.m_pending_events = first :: rest)
    (hp : first.pending = true) (hx : ∀ x, first.event ≠ Event.OSC8671 x)
    (ht : self.now > first.receptionTime + timeout) :
    InputThread.process_pending_events H (fuel + 1) self =
      InputThread.process_pending_events H fuel { self with m_pending_events := rest } := by
  obtain ⟨d, l, q, rt, nw⟩ := self
  obtain ⟨ev, t, p⟩ := first
  simp only at hd hq hp ht
  subst hd hq hp
  simp only at hx
  simp only [InputThread.process_pending_events]
  cases ev with
  | OSC8671 x => exact absurd rfl (hx x)
  | _ => simp [ht]

theorem handle_event_rvalue_queue {L : Type} (H : Handlers L)
    (hqueue : ∀ e s, (H.handle_event e s).m_pending_events = s.m_pending_events)
    (event : Event) (self : InputThread L) :
    (InputThread.handle_event_rvalue H event self).m_pending_events =
      self.m_pending_events := by
  cases event <;> first | exact hqueue _ self | rfl

/-- C34 does not hold for the code. When the entry popped from the front of the queue is
pending and its deadline has not passed, the loop exits and no handler is called, but the entry
is re-inserted at the back of the queue, not at the front: the queue after the run is the rest
of the queue followed by the entry, and it differs from the queue before the run whenever the
entry behind the head is another entry. -/
theorem pending_head_moves_to_back {L : Type} (H : Handlers L) (fuel : Nat)
    (self : InputThread L) (first : PendingEvent) (rest : List PendingEvent)
    (hd : self.m_done = false) (hq : self.m_pending_events = first :: rest)
    (hp : first.pending = true) (ht : ¬ self.now > first.receptionTime + timeout) :
    InputThread.process_pending_events H (fuel + 1) self =
        ({ self with m_pending_events := rest ++ [first] }, []) ∧
      ∀ second tail, rest = second :: tail → second ≠ first →
        (InputThread.process_pending_events H (fuel + 1) self).1.m_pending_events ≠
          self.m_pending_events := by
  have h := process_wait H fuel self first rest hd hq hp ht
  refine ⟨h, ?_⟩
  intro second tail hrest hne
  rw [h, hq, hrest]
  simp only [List.cons_append, ne_eq, List.cons.injEq, not_and]
  intro h1
  exact absurd h1 hne

/-- Witness for C34: the queue of `pending_navigate_thread` holds a pending Navigate whose
deadline has not passed and a key event behind it; after the run the key event is at the
front. -/
theorem pending_head_moves_to_back_witness :
    (InputThread.process_pending_events idle_handlers 1
        pending_navigate_thread).1.m_pending_events =
      [{ event := Event.KeyEvent 1, receptionTime := 1050 },
       { event := Event.OSC8671 navigate_seven, receptionTime := 1000, pending := true }] ∧
      (InputThread.process_pending_events idle_handlers 1 pending_navigate_thread).2 = [] := by
  have h := (pending_head_moves_to_back idle_handlers 0 pending_navigate_thread
    { event := Event.OSC8671 navigate_seven, receptionTime := 1000, pending := true }
    [{ event := Event.KeyEvent 1, receptionTime := 1050 }] rfl rfl rfl (by decide)).1
  rw [h]
  exact ⟨rfl, rfl⟩

/-- C35: for a head entry that is not pending, the loop leaves the event pending exactly when
the entry holds an OSC 8671 event of type Navigate for which the call of `Tab::navigate`
returns no value: the entry is then re-inserted, marked pending, and the loop exits. For every
other event (key, mouse, focus, paste, OSC 52, the protocol replies, and OSC 8671 events of the
types Supported, Register, Unregister, Acknowledge and Enter, and Navigate events for which
`Tab::navigate` returns a value) the handler is called once, the entry is not re-inserted, and
the loop goes on with the rest of the queue. -/
theorem pending_only_after_delegation {L : Type} (H : Handlers L) (fuel : Nat)
    (self : InputThread L) (first : PendingEvent) (rest : List PendingEvent)
    (hd : self.m_done = false) (hq : self.m_pending_events = first :: rest)
    (hp : first.pending = false) :
    ((∀ x, first.event ≠ Event.OSC8671 x) →
      InputThread.process_pending_events H (fuel + 1) self =
        ((InputThread.process_pending_events H fuel
            (InputThread.handle_event_rvalue H first.event
              { self with m_pending_events := rest })).1,
          { event := first.event, did_timeout := false } ::
            (InputThread.process_pending_events H fuel
              (InputThread.handle_event_rvalue H first.event
                { self with m_pending_events := rest })).2)) ∧
      (∀ x, first.event = Event.OSC8671 x →
        (x.type ≠ SeamlessNavigationRequestType.Navigate ∨
          (H.navigate x Tab.SeamlessNavigateMode.Enabled self.m_layout_state).1.isSome =
            true) →
        (InputThread.handle_event H x false { self with m_pending_events := rest }).2.2 =
            true ∧
          InputThread.process_pending_events H (fuel + 1) self =
            ((InputThread.process_pending_events H fuel
                (InputThread.handle_event H x false
                  { self with m_pending_events := rest }).2.1).1,
              { event := Event.OSC8671 x, did_timeout := false } ::
                (InputThread.process_pending_events H fuel
                  (InputThread.handle_event H x false
                    { self with m_pending_events := rest }).2.1).2)) ∧
      (∀ x, first.event = Event.OSC8671 x →
        x.type = SeamlessNavigationRequestType.Navigate →
        (H.navigate x Tab.SeamlessNavigateMode.Enabled self.m_layout_state).1 = none →
        (InputThread.handle_event H x false { self with m_pending_events := rest }).2.2 =
            false ∧
          InputThread.process_pending_events H (fuel + 1) self =
            ({ (InputThread.handle_event H x false
                  { self with m_pending_events := rest }).2.1 with
                m_pending_events :=
                  (InputThread.handle_event H x false
                    { self with m_pending_events := rest }).2.1.m_pending_events ++
                    [{ first with
                        event := Event.OSC8671
                          (InputThread.handle_event H x false
                            { self with m_pending_events := rest }).1
                        pending := true }] },
              [{ event := Event.OSC8671 x, did_timeout := false }])) := by
  refine ⟨fun hx => process_rvalue H fuel self first rest hd hq hp hx, ?_, ?_⟩
  · intro x hx hcase
    have hres := handle_event_result H x false { self with m_pending_events := rest }
    simp only [Bool.false_eq_true, if_false] at hres
    have hr : (InputThread.handle_event H x false
        { self with m_pending_events := rest }).2.2 = true := by
      rw [hres]
      rcases hcase with h | h
      · rw [if_neg h]
      · by_cases ht : x.type = SeamlessNavigationRequestType.Navigate
        · rw [if_pos ht]
          exact h
        · rw [if_neg ht]
    exact ⟨hr, process_osc H fuel self first rest x hd hq hp hx hr⟩
  · intro x hx htype hnone
    have hres := handle_event_result H x false { self with m_pending_events := rest }
    simp only [Bool.false_eq_true, if_false] at hres
    have hr : (InputThread.handle_event H x false
        { self with m_pending_events := rest }).2.2 = false := by
      rw [hres, if_pos htype, hnone]
      rfl
    exact ⟨hr, process_left_pending H fuel self first rest x hd hq hp hx hr⟩

/-- Witness of C35: the Navigate that `request_navigate` inserted is handled by handlers whose
`Tab::navigate` returns false, so it is reported processed and the queue is empty after the
run. -/
theorem pending_only_after_delegation_witness :
    InputThread.process_pending_events idle_handlers 2 fresh_navigate_thread =
      ({ fresh_navigate_thread with m_pending_events := [] },
        [{ event := Event.OSC8671
             { type := SeamlessNavigationRequestType.Navigate
               direction := some NavigateDirection.Down
               id := some [ '7']
               wrap_mode := NavigateWrapMode.Allow }
           did_timeout := false }]) := by
  have h := ((pending_only_after_delegation idle_handlers 1 fresh_navigate_thread
    { event := Event.OSC8671
        { type := SeamlessNavigationRequestType.Navigate
          direction := some NavigateDirection.Down
          id := some [ '7']
          wrap_mode := NavigateWrapMode.Allow }
      receptionTime := 5 } [] rfl rfl rfl).2.1 _ rfl (Or.inr rfl)).2
  rw [h]
  rfl

/-- One run of the loop with enough fuel: when the handlers of key, mouse, focus and paste
events enqueue nothing, the run with more fuel than the queue has entries is the run with any
larger fuel, it makes at most as many handler calls as the queue has entries, and it leaves at
most as many entries in the queue. -/
theorem process_fuel_enough {L : Type} (H : Handlers L)
    (hqueue : ∀ e s, (H.handle_event e s).m_pending_events = s.m_pending_events) :
    ∀ (n : Nat) (self : InputThread L), self.m_pending_events.length = n →
      ∀ fuel fuel', n < fuel → n < fuel' →
        InputThread.process_pending_events H fuel self =
            InputThread.process_pending_events H fuel' self ∧
          (InputThread.process_pending_events H fuel self).2.length ≤ n ∧
          (InputThread.process_pending_events H fuel self).1.m_pending_events.length ≤ n := by
  intro n
  induction n with
  | zero =>
    intro self hlen fuel fuel' _ _
    have hq : self.m_pending_events = [] := List.length_eq_zero.1 hlen
    rw [process_empty H fuel self hq, process_empty H fuel' self hq]
    exact ⟨rfl, by simp, by simp [hq]⟩
  | succ n ih =>
    intro self hlen fuel fuel' hf hf'
    obtain ⟨f, rfl⟩ : ∃ f, fuel = f + 1 := ⟨fuel - 1, by omega⟩
    obtain ⟨f', rfl⟩ : ∃ f', fuel' = f' + 1 := ⟨fuel' - 1, by omega⟩
    cases hd : self.m_done with
    | true =>
      rw [process_done H _ self hd, process_done H _ self hd]
      exact ⟨rfl, by simp, le_of_eq hlen⟩
    | false =>
      cases hq : self.m_pending_events with
      | nil => rw [hq] at hlen; simp at hlen
      | cons first rest =>
        have hrest : rest.length = n := by
          rw [hq] at hlen
          simpa using hlen
        cases hp : first.pending with
        | true =>
          by_cases ht : self.now > first.receptionTime + timeout
          · by_cases hx : ∃ x, first.event = Event.OSC8671 x
            · obtain ⟨x, hx⟩ := hx
              have hlen' : (InputThread.handle_event H x true
                  { self with m_pending_events := rest }).2.1.m_pending_events.length = n := by
                rw [(handle_event_frame H x true _).1]
                exact hrest
              obtain ⟨h1, h2, h3⟩ := ih _ hlen' f f' (by omega) (by omega)
              rw [process_timeout H f self first rest x hd hq hp hx ht,
                process_timeout H f' self first rest x hd hq hp hx ht, h1]
              refine ⟨rfl, ?_, ?_⟩
              · rw [← h1]
                dsimp only
                simp only [List.length_cons]
                omega
              · rw [← h1]
                dsimp only
                omega
            · have hx' : ∀ x, first.event ≠ Event.OSC8671 x := fun x h => hx ⟨x, h⟩
              have hlen' : ({ self with m_pending_events := rest } :
                  InputThread L).m_pending_events.length = n := hrest
              obtain ⟨h1, h2, h3⟩ := ih _ hlen' f f' (by omega) (by omega)
              rw [process_timeout_rvalue H f self first rest hd hq hp hx' ht,
                process_timeout_rvalue H f' self first rest hd hq hp hx' ht, h1]
              refine ⟨rfl, ?_, ?_⟩
              · rw [← h1]
                omega
              · rw [← h1]
                omega
          · rw [process_wait H f self first rest hd hq hp ht,
              process_wait H f' self first rest hd hq hp ht]
            refine ⟨rfl, by simp, ?_⟩
            simp only [List.length_append, List.length_singleton]
            omega
        | false =>
          by_cases hx : ∃ x, first.event = Event.OSC8671 x
          · obtain ⟨x, hx⟩ := hx
            have hlen' : (InputThread.handle_event H x false
                { self with m_pending_events := rest }).2.1.m_pending_events.length = n := by
              rw [(handle_event_frame H x false _).1]
              exact hrest
            cases hr : (InputThread.handle_event H x false
                { self with m_pending_events := rest }).2.2 with
            | true =>
              obtain ⟨h1, h2, h3⟩ := ih _ hlen' f f' (by omega) (by omega)
              rw [process_osc H f self first rest x hd hq hp hx hr,
                process_osc H f' self first rest x hd hq hp hx hr, h1]
              refine ⟨rfl, ?_, ?_⟩
              · rw [← h1]
                dsimp only
                simp only [List.length_cons]
                omega
              · rw [← h1]
                dsimp only
                omega
            | false =>
              rw [process_left_pending H f self first rest x hd hq hp hx hr,
                process_left_pending H f' self first rest x hd hq hp hx hr]
              refine ⟨rfl, by simp, ?_⟩
              simp only [List.length_append, List.length_singleton]
              omega
          · have hx' : ∀ x, first.event ≠ Event.OSC8671 x := fun x h => hx ⟨x, h⟩
            have hlen' : (InputThread.handle_event_rvalue H first.event
                { self with m_pending_events := rest }).m_pending_events.length = n := by
              rw [handle_event_rvalue_queue H hqueue]
              exact hrest
            obtain ⟨h1, h2, h3⟩ := ih _ hlen' f f' (by omega) (by omega)
            rw [process_rvalue H f self first rest hd hq hp hx',
              process_rvalue H f' self first rest hd hq hp hx', h1]
            refine ⟨rfl, ?_, ?_⟩
            · rw [← h1]
              dsimp only
              simp only [List.length_cons]
              omega
            · rw [← h1]
              dsimp only
              omega

/-- C38: when the handlers enqueue nothing, `process_pending_events` terminates: the loop makes
at most one iteration more than the queue has entries, so every run with more fuel than that
returns the same state and the same handler calls, and the run makes at most as many handler
calls as the queue had entries at its start and leaves at most that many entries. -/
theorem process_terminates {L : Type} (H : Handlers L)
    (hqueue : ∀ e s, (H.handle_event e s).m_pending_events = s.m_pending_events)
    (self : InputThread L) (fuel : Nat) (hfuel : self.m_pending_events.length < fuel) :
    InputThread.process_pending_events H fuel self =
        InputThread.process_pending_events H (self.m_pending_events.length + 1) self ∧
      (InputThread.process_pending_events H fuel self).2.length ≤
        self.m_pending_events.length ∧
      (InputThread.process_pending_events H fuel self).1.m_pending_events.length ≤
        self.m_pending_events.length :=
  process_fuel_enough H hqueue _ self rfl fuel _ hfuel (Nat.lt_succ_self _)

/-- Witness of C38: the run on `pending_navigate_thread`, whose queue has two entries, with
fuel 10 is the run with fuel 3, and it calls no handler. -/
theorem process_terminates_witness :
    InputThread.process_pending_events idle_handlers 10 pending_navigate_thread =
        InputThread.process_pending_events idle_handlers 3 pending_navigate_thread ∧
      (InputThread.process_pending_events idle_handlers 10 pending_navigate_thread).2.length ≤
        2 :=
  ⟨(process_terminates idle_handlers (fun _ _ => rfl) pending_navigate_thread 10
      (by decide)).1,
    (process_terminates idle_handlers (fun _ _ => rfl) pending_navigate_thread 10
      (by decide)).2.1⟩

/-! ### The replies of the OSC 8671 handler are in the wire format -/

/-- What the OSC 8671 handler pushes to the render thread for a Navigate event: a render request
when `Tab::navigate` returned true, and a reply when it returned a value and the wrap mode of
the event is Disallow; the reply is the event, as an Acknowledge without range when
`Tab::navigate` returned true. -/
theorem handle_event_navigate_render {L : Type} (H : Handlers L) (event : terminal.OSC8671)
    (did_timeout : Bool) (self : InputThread L)
    (htype : event.type = SeamlessNavigationRequestType.Navigate) :
    (InputThread.handle_event H event did_timeout self).2.1.m_render_thread =
      self.m_render_thread ++
        ((if (H.navigate event
              (if did_timeout then Tab.SeamlessNavigateMode.Disabled
                else Tab.SeamlessNavigateMode.Enabled) self.m_layout_state).1 = some true then
            [RenderEvent.RequestRender]
          else []) ++
          if (H.navigate event
                (if did_timeout then Tab.SeamlessNavigateMode.Disabled
                  else Tab.SeamlessNavigateMode.Enabled) self.m_layout_state).1.isSome = true ∧
              event.wrap_mode = NavigateWrapMode.Disallow then
            [RenderEvent.WriteString
              (terminal.OSC8671.serialize
                (if (H.navigate event
                      (if did_timeout then Tab.SeamlessNavigateMode.Disabled
                        else Tab.SeamlessNavigateMode.Enabled) self.m_layout_state).1 =
                    some true then
                  { event with type := SeamlessNavigationRequestType.Acknowledge, range := none }
                else event))]
          else []) := by
  unfold InputThread.handle_event
  rw [if_neg (by rw [htype]; decide), if_neg (not_not.2 htype)]
  dsimp only
  cases hnav : (H.navigate event
      (if did_timeout then Tab.SeamlessNavigateMode.Disabled
        else Tab.SeamlessNavigateMode.Enabled) self.m_layout_state).1 with
  | none => simp
  | some b =>
    cases hw : event.wrap_mode <;> cases b <;> simp

/-- A Navigate message that `parse` returned stays within the wire format when its type is set
to Acknowledge and its range is removed. -/
theorem acknowledge_well_formed (event : terminal.OSC8671) (h : well_formed event)
    (htype : event.type = SeamlessNavigationRequestType.Navigate) :
    well_formed
      { event with type := SeamlessNavigationRequestType.Acknowledge, range := none } := by
  obtain ⟨hm, hid, -⟩ := h
  obtain ⟨h1, -, -, h4⟩ := hm
  refine ⟨⟨?_, ?_, ?_, ?_⟩, hid, ?_⟩
  · simp only [true_or, or_true, iff_true]
    exact h1.2 (Or.inl htype)
  · intro h
    simp at h
  · intro _
    exact Or.inr rfl
  · intro h
    have := h4 h
    rw [htype] at this
    cases this
  · intro r hr
    simp at hr

/-- C39: every reply that the OSC 8671 handler writes for a Navigate event that `parse`
returned is the serialization of a message that `parse` accepts once the framing is stripped,
and `parse` gives that message back. The message has the id and the direction of the request;
it has the type Acknowledge and no range when `Tab::navigate` returned true, and it is the
request itself, of type Navigate, when `Tab::navigate` returned false. -/
theorem reply_parses {L : Type} (H : Handlers L) (payload : List Char)
    (event : terminal.OSC8671) (did_timeout : Bool) (self : InputThread L)
    (hparse : terminal.OSC8671.parse payload = some event)
    (htype : event.type = SeamlessNavigationRequestType.Navigate) :
    ∃ added,
      (InputThread.handle_event H event did_timeout self).2.1.m_render_thread =
          self.m_render_thread ++ added ∧
        ∀ bytes, RenderEvent.WriteString bytes ∈ added →
          ∃ reply,
            bytes = reply.serialize ∧
              terminal.OSC8671.parse (strip_framing bytes) = some reply ∧
              reply.id = event.id ∧ reply.direction = event.direction ∧
              ((H.navigate event
                    (if did_timeout then Tab.SeamlessNavigateMode.Disabled
                      else Tab.SeamlessNavigateMode.Enabled) self.m_layout_state).1 =
                  some true →
                reply.type = SeamlessNavigationRequestType.Acknowledge ∧ reply.range = none) ∧
              ((H.navigate event
                    (if did_timeout then Tab.SeamlessNavigateMode.Disabled
                      else Tab.SeamlessNavigateMode.Enabled) self.m_layout_state).1 =
                  some false →
                reply = event ∧ reply.type = SeamlessNavigationRequestType.Navigate) := by
  have hwf := parse_well_formed payload event hparse
  refine ⟨_, handle_event_navigate_render H event did_timeout self htype, ?_⟩
  intro bytes hmem
  simp only [List.mem_append] at hmem
  rcases hmem with hmem | hmem
  · split_ifs at hmem <;> simp at hmem
  · by_cases hc : (H.navigate event
        (if did_timeout then Tab.SeamlessNavigateMode.Disabled
          else Tab.SeamlessNavigateMode.Enabled) self.m_layout_state).1.isSome = true ∧
        event.wrap_mode = NavigateWrapMode.Disallow
    · rw [if_pos hc] at hmem
      simp only [List.mem_singleton, RenderEvent.WriteString.injEq] at hmem
      by_cases hb : (H.navigate event
          (if did_timeout then Tab.SeamlessNavigateMode.Disabled
            else Tab.SeamlessNavigateMode.Enabled) self.m_layout_state).1 = some true
      · rw [if_pos hb] at hmem
        refine ⟨_, hmem, ?_, rfl, rfl, fun _ => ⟨rfl, rfl⟩, ?_⟩
        · rw [hmem, strip_framing_serialize]
          exact parse_body_of _ (acknowledge_well_formed event hwf htype)
        · intro hf
          rw [hf] at hb
          simp at hb
      · rw [if_neg hb] at hmem
        refine ⟨event, hmem, ?_, rfl, rfl, fun ht => absurd ht hb, fun _ => ⟨rfl, htype⟩⟩
        rw [hmem, strip_framing_serialize]
        exact parse_body_of _ hwf
    · rw [if_neg hc] at hmem
      simp at hmem

/-- Witness of C39: the reply to `t=navigate:id=7;down` with handlers whose `Tab::navigate`
returns false is `t=navigate:id=7;down` in its framing. -/
theorem reply_parses_witness :
    ∃ added,
      (InputThread.handle_event idle_handlers navigate_seven false
          pending_navigate_thread).2.1.m_render_thread =
        pending_navigate_thread.m_render_thread ++ added ∧
      ∀ bytes, RenderEvent.WriteString bytes ∈ added →
        ∃ reply, bytes = reply.serialize ∧
          terminal.OSC8671.parse (strip_framing bytes) = some reply := by
  obtain ⟨added, h1, h2⟩ := reply_parses idle_handlers "t=navigate:id=7;down".toList
    navigate_seven false pending_navigate_thread (by decide) rfl
  refine ⟨added, h1, fun bytes hb => ?_⟩
  obtain ⟨reply, h3, h4, -⟩ := h2 bytes hb
  exact ⟨reply, h3, h4⟩

/-! ### Moves that do not wrap -/

/-- What holds when a move does not wrap, over the integers: there are two cells on the side of
the direction between the entry and the edge of the tab. -/
theorem navigate_wraps_cases (force_wrap : Bool) (layout_entry : LayoutEntry) (self : Tab)
    (hcols : layout_entry.col + layout_entry.size.cols < 4294967296)
    (hrows : layout_entry.row + layout_entry.size.rows < 4294967296)
    (hwidth : self.m_size.cols < 4294967296) (hheight : self.m_size.rows < 4294967296) :
    (self.navigate_wraps NavigateDirection.Left force_wrap layout_entry = false →
        2 ≤ layout_entry.col) ∧
      (self.navigate_wraps NavigateDirection.Right force_wrap layout_entry = false →
        layout_entry.col + layout_entry.size.cols + 1 < self.m_size.cols) ∧
      (self.navigate_wraps NavigateDirection.Up force_wrap layout_entry = false →
        2 ≤ layout_entry.row) ∧
      (self.navigate_wraps NavigateDirection.Down force_wrap layout_entry = false →
        layout_entry.row + layout_entry.size.rows + 1 < self.m_size.rows) := by
  have h1 : u32_add layout_entry.col layout_entry.size.cols =
      layout_entry.col + layout_entry.size.cols := u32_add_eq _ _ hcols
  have h2 : u32_add layout_entry.row layout_entry.size.rows =
      layout_entry.row + layout_entry.size.rows := u32_add_eq _ _ hrows
  refine ⟨?_, ?_, ?_, ?_⟩
  · intro h
    simp only [Tab.navigate_wraps, Bool.or_eq_false_iff, decide_eq_false_iff_not] at h
    omega
  · intro h
    simp only [Tab.navigate_wraps, h1, Bool.or_eq_false_iff, decide_eq_false_iff_not] at h
    obtain ⟨⟨hc, hs⟩, -⟩ := h
    rw [u32_sub_eq _ _ (by omega) hwidth] at hs
    omega
  · intro h
    simp only [Tab.navigate_wraps, Bool.or_eq_false_iff, decide_eq_false_iff_not] at h
    omega
  · intro h
    simp only [Tab.navigate_wraps, h2, Bool.or_eq_false_iff, decide_eq_false_iff_not] at h
    obtain ⟨⟨hc, hs⟩, -⟩ := h
    rw [u32_sub_eq _ _ (by omega) hheight] at hs
    omega

/-- The hit test of a move that is not blocked, over the integers: the hit test along the probe
line of the direction, at the probe coordinate, over the span of the move. -/
theorem navigate_candidates_probe (direction : NavigateDirection) (wrap_mode : NavigateWrapMode)
    (override_range : Option (Nat × Nat)) (force_wrap : Bool) (layout_entry : LayoutEntry)
    (tree : LayoutNode) (self : Tab)
    (hcols : layout_entry.col + layout_entry.size.cols < 4294967296)
    (hrows : layout_entry.row + layout_entry.size.rows < 4294967296)
    (hwidth : 1 ≤ self.m_size.cols ∧ self.m_size.cols < 4294967296)
    (hheight : 1 ≤ self.m_size.rows ∧ self.m_size.rows < 4294967296)
    (hfree : ¬(self.navigate_wraps direction force_wrap layout_entry = true ∧
      wrap_mode = NavigateWrapMode.Disallow)) :
    (self.navigate_candidates direction wrap_mode override_range force_wrap layout_entry
        tree).1 =
      ((tree.hit_test_line direction
          (probe_coordinate direction
            (self.navigate_wraps direction force_wrap layout_entry) layout_entry self.m_size)
          (probe_span direction override_range layout_entry).1
          (probe_span direction override_range layout_entry).2).map LayoutEntry.pane).dedup := by
  have h1 : u32_add layout_entry.col layout_entry.size.cols =
      layout_entry.col + layout_entry.size.cols := u32_add_eq _ _ hcols
  have h2 : u32_add layout_entry.row layout_entry.size.rows =
      layout_entry.row + layout_entry.size.rows := u32_add_eq _ _ hrows
  have hw1 : u32_sub self.m_size.cols 1 = self.m_size.cols - 1 :=
    u32_sub_eq _ _ hwidth.1 hwidth.2
  have hh1 : u32_sub self.m_size.rows 1 = self.m_size.rows - 1 :=
    u32_sub_eq _ _ hheight.1 hheight.2
  have hnw := (navigate_wraps_cases force_wrap layout_entry self hcols hrows hwidth.2
    hheight.2)
  unfold Tab.navigate_candidates
  cases direction <;> simp only <;> rw [if_neg hfree] <;>
    simp only [LayoutNode.hit_test_line, probe_coordinate, probe_span,
      perpendicular_origin, perpendicular_extent, h1, h2, hw1, hh1]
  · by_cases hwr : self.navigate_wraps NavigateDirection.Left force_wrap layout_entry = true
    · simp only [hwr, if_true]
    · have := hnw.1 (by simpa using hwr)
      simp only [hwr, if_false, Bool.false_eq_true]
      rw [u32_sub_eq _ _ this (by omega)]
  · by_cases hwr : self.navigate_wraps NavigateDirection.Right force_wrap layout_entry = true
    · simp only [hwr, if_true]
    · have := hnw.2.1 (by simpa using hwr)
      simp only [hwr, if_false, Bool.false_eq_true]
      rw [u32_add_eq _ _ (by omega)]
  · by_cases hwr : self.navigate_wraps NavigateDirection.Up force_wrap layout_entry = true
    · simp only [hwr, if_true]
    · have := hnw.2.2.1 (by simpa using hwr)
      simp only [hwr, if_false, Bool.false_eq_true]
      rw [u32_sub_eq _ _ this (by omega)]
  · by_cases hwr : self.navigate_wraps NavigateDirection.Down force_wrap layout_entry = true
    · simp only [hwr, if_true]
    · have := hnw.2.2.2 (by simpa using hwr)
      simp only [hwr, if_false, Bool.false_eq_true]
      rw [u32_add_eq _ _ (by omega)]

/-! ### The wrap decision and the probe line -/

/-- C32 does not hold for the code. In `narrow_pane_tab` the active pane 1 ends at column 79 of
81, which is `width - 2`. `Tab::navigate` decides that Right wraps, though the tab is at least 2
wide, `A.col + A.width ≥ width - 1` does not hold and no wrap is forced; so with the wrap mode
Allow it probes column 0 and makes no navigation, and pane 2, one column wide in the last column
`A.col + A.width + 1` of the tab, is not reached. In the mirror image `narrow_left_pane_tab` the
move Left does not wrap and makes pane 2, one column wide in column 0, the active pane. -/
theorem right_wraps_one_column_early :
    narrow_pane_tab.navigate_wraps NavigateDirection.Right false narrow_pane_entry = true ∧
      ¬(narrow_pane_tab.m_size.cols < 2 ∨
        narrow_pane_entry.col + narrow_pane_entry.size.cols ≥
          narrow_pane_tab.m_size.cols - 1) ∧
      narrow_pane_tab.navigate no_pane_accepts NavigateDirection.Right
          NavigateWrapMode.Allow none none Tab.SeamlessNavigateMode.Disabled false =
        (some false, narrow_pane_tab) ∧
      narrow_pane_entry.col + narrow_pane_entry.size.cols + 1 < narrow_pane_tab.m_size.cols ∧
      narrow_left_pane_tab.navigate_wraps NavigateDirection.Left false narrow_left_pane_entry =
        false ∧
      (narrow_left_pane_tab.navigate no_pane_accepts NavigateDirection.Left
          NavigateWrapMode.Allow none none Tab.SeamlessNavigateMode.Disabled false).1 =
        some true ∧
      (narrow_left_pane_tab.navigate no_pane_accepts NavigateDirection.Left
          NavigateWrapMode.Allow none none Tab.SeamlessNavigateMode.Disabled false).2.m_active =
        some 2 := by
  decide

/-- The wrap decision as the code of `Tab::navigate` makes it (lines 182, 196-197, 210 and
224-225), for an entry of the active pane and a tab size within the `u32` values: the code
decides that Left wraps iff `A.col ≤ 1` or the wrap is forced; that Right wraps
iff the width is below 2, or `A.col + A.width ≥ width - 2`, or the wrap is forced; that Up wraps
iff `A.row ≤ 1` or forced; that Down wraps iff the height is below 2, or
`A.row + A.height ≥ height - 2`, or forced. The move is blocked iff it wraps and the wrap mode
is Disallow. -/
theorem navigate_wraps_iff (wrap_mode : NavigateWrapMode) (override_range : Option (Nat × Nat))
    (force_wrap : Bool) (layout_entry : LayoutEntry) (tree : LayoutNode) (self : Tab)
    (hcols : layout_entry.col + layout_entry.size.cols < 4294967296)
    (hrows : layout_entry.row + layout_entry.size.rows < 4294967296)
    (hwidth : self.m_size.cols < 4294967296) (hheight : self.m_size.rows < 4294967296) :
    (self.navigate_wraps NavigateDirection.Left force_wrap layout_entry = true ↔
        layout_entry.col ≤ 1 ∨ force_wrap = true) ∧
      (self.navigate_wraps NavigateDirection.Right force_wrap layout_entry = true ↔
        self.m_size.cols < 2 ∨
          layout_entry.col + layout_entry.size.cols ≥ self.m_size.cols - 2 ∨
          force_wrap = true) ∧
      (self.navigate_wraps NavigateDirection.Up force_wrap layout_entry = true ↔
        layout_entry.row ≤ 1 ∨ force_wrap = true) ∧
      (self.navigate_wraps NavigateDirection.Down force_wrap layout_entry = true ↔
        self.m_size.rows < 2 ∨
          layout_entry.row + layout_entry.size.rows ≥ self.m_size.rows - 2 ∨
          force_wrap = true) ∧
      ∀ direction,
        ((self.navigate_candidates direction wrap_mode override_range force_wrap layout_entry
            tree).2 = true ↔
          self.navigate_wraps direction force_wrap layout_entry = true ∧
            wrap_mode = NavigateWrapMode.Disallow) := by
  have h1 : u32_add layout_entry.col layout_entry.size.cols =
      layout_entry.col + layout_entry.size.cols := u32_add_eq _ _ hcols
  have h2 : u32_add layout_entry.row layout_entry.size.rows =
      layout_entry.row + layout_entry.size.rows := u32_add_eq _ _ hrows
  refine ⟨?_, ?_, ?_, ?_, fun direction => blocked_iff _ _ _ _ _ _ _⟩
  · simp [Tab.navigate_wraps]
  · simp only [Tab.navigate_wraps, h1, Bool.or_eq_true, decide_eq_true_eq, or_assoc]
    by_cases hc : self.m_size.cols < 2
    · simp [hc]
    · rw [u32_sub_eq _ _ (by omega) hwidth]
  · simp [Tab.navigate_wraps]
  · simp only [Tab.navigate_wraps, h2, Bool.or_eq_true, decide_eq_true_eq, or_assoc]
    by_cases hc : self.m_size.rows < 2
    · simp [hc]
    · rw [u32_sub_eq _ _ (by omega) hheight]

/-- An instance of the wrap decision: in `three_pane_tab`, Right from pane 2, which ends at column 40
of 81, does not wrap. -/
theorem navigate_wraps_iff_witness :
    ¬(three_pane_tab.navigate_wraps NavigateDirection.Right false three_pane_active_entry =
      true) := by
  rw [(navigate_wraps_iff NavigateWrapMode.Allow none false three_pane_active_entry
    three_pane_tree three_pane_tab (by decide) (by decide) (by decide) (by decide)).2.1]
  decide

/-- C33: when the move is not blocked, the hit test of `Tab::navigate` is the hit test along the
probe line of the direction at the coordinate `A.col - 2` (Left), `A.col + A.width + 1` (Right),
`A.row - 2` (Up), `A.row + A.height + 1` (Down) when the move does not wrap, and `width - 1`,
`0`, `height - 1`, `0` when it wraps, over the span from the start of the override range or the
origin of `A` to the end of the override range or the origin of `A` plus its extent. In `u32`
arithmetic nothing wraps around: when the move does not wrap, `2 ≤ A.col` for Left and
`2 ≤ A.row` for Up, and the width and the height of the tab are at least 1. -/
theorem navigate_probe_line (direction : NavigateDirection) (wrap_mode : NavigateWrapMode)
    (override_range : Option (Nat × Nat)) (force_wrap : Bool) (layout_entry : LayoutEntry)
    (tree : LayoutNode) (self : Tab)
    (hcols : layout_entry.col + layout_entry.size.cols < 4294967296)
    (hrows : layout_entry.row + layout_entry.size.rows < 4294967296)
    (hwidth : 1 ≤ self.m_size.cols ∧ self.m_size.cols < 4294967296)
    (hheight : 1 ≤ self.m_size.rows ∧ self.m_size.rows < 4294967296)
    (hfree : ¬(self.navigate_wraps direction force_wrap layout_entry = true ∧
      wrap_mode = NavigateWrapMode.Disallow)) :
    (self.navigate_candidates direction wrap_mode override_range force_wrap layout_entry
        tree).1 =
        ((tree.hit_test_line direction
            (probe_coordinate direction
              (self.navigate_wraps direction force_wrap layout_entry) layout_entry self.m_size)
            (probe_span direction override_range layout_entry).1
            (probe_span direction override_range layout_entry).2).map LayoutEntry.pane).dedup ∧
      (self.navigate_wraps direction force_wrap layout_entry = false →
        (direction = NavigateDirection.Left →
          2 ≤ layout_entry.col ∧ u32_sub layout_entry.col 2 = layout_entry.col - 2) ∧
        (direction = NavigateDirection.Up →
          2 ≤ layout_entry.row ∧ u32_sub layout_entry.row 2 = layout_entry.row - 2) ∧
        (direction = NavigateDirection.Right →
          layout_entry.col + layout_entry.size.cols + 1 < self.m_size.cols) ∧
        (direction = NavigateDirection.Down →
          layout_entry.row + layout_entry.size.rows + 1 < self.m_size.rows)) ∧
      u32_sub self.m_size.cols 1 = self.m_size.cols - 1 ∧
      u32_sub self.m_size.rows 1 = self.m_size.rows - 1 := by
  have hw1 : u32_sub self.m_size.cols 1 = self.m_size.cols - 1 :=
    u32_sub_eq _ _ hwidth.1 hwidth.2
  have hh1 : u32_sub self.m_size.rows 1 = self.m_size.rows - 1 :=
    u32_sub_eq _ _ hheight.1 hheight.2
  have hnw := (navigate_wraps_cases force_wrap layout_entry self hcols hrows hwidth.2
    hheight.2)
  refine ⟨navigate_candidates_probe direction wrap_mode override_range force_wrap layout_entry
    tree self hcols hrows hwidth hheight hfree, ?_, hw1, hh1⟩
  · intro hwr
    refine ⟨?_, ?_, ?_, ?_⟩
    · intro hd
      subst hd
      have := hnw.1 hwr
      exact ⟨this, u32_sub_eq _ _ this (by omega)⟩
    · intro hd
      subst hd
      have := hnw.2.2.1 hwr
      exact ⟨this, u32_sub_eq _ _ this (by omega)⟩
    · intro hd
      subst hd
      exact hnw.2.1 hwr
    · intro hd
      subst hd
      exact hnw.2.2.2 hwr

/-- Witness of C33: in `three_pane_tab`, Right from pane 2 probes column 41 over the rows 11 to
20. -/
theorem navigate_probe_line_witness :
    (three_pane_tab.navigate_candidates NavigateDirection.Right NavigateWrapMode.Disallow none
        false three_pane_active_entry three_pane_tree).1 =
      ((three_pane_tree.hit_test_line NavigateDirection.Right 41 11 21).map
        LayoutEntry.pane).dedup :=
  (navigate_probe_line NavigateDirection.Right NavigateWrapMode.Disallow none false
    three_pane_active_entry three_pane_tree three_pane_tab (by decide) (by decide)
    (by decide) (by decide) (by decide)).1

/-! ### The recency list -/

theorem set_active_same (pane : Option Nat) (self : Tab) (h : self.m_active = pane) :
    self.set_active pane = (false, self) := by
  unfold Tab.set_active
  rw [if_pos h]

theorem set_active_none (self : Tab) (h : self.m_active ≠ none) :
    (self.set_active none).1 = true ∧ (self.set_active none).2.m_active = none ∧
      (self.set_active none).2.m_panes_ordered_by_recency =
        self.m_panes_ordered_by_recency := by
  obtain ⟨sz, root, tree, recency, ia, act, fs, calls, n⟩ := self
  simp only at h
  unfold Tab.set_active
  simp only [if_neg h]
  cases fs <;> cases act <;> cases ia <;>
    simp [Tab.focus_event, Tab.layout, Tab.invalidate_all]

theorem filter_ne_head (p : Nat) (l : List Nat) (h : (p :: l).Nodup) :
    (p :: l).filter (fun q => decide (q ≠ p)) = l := by
  have hp : p ∉ l := (List.nodup_cons.1 h).1
  simp only [ne_eq, decide_not, List.filter_cons, decide_True, Bool.not_true,
    Bool.false_eq_true, if_false]
  rw [List.filter_eq_self]
  intro a ha
  have : a ≠ p := fun e => hp (e ▸ ha)
  simp [this]

theorem set_active_invariant (pane : Option Nat) (self : Tab) (h : self.recency_invariant) :
    (self.set_active pane).2.recency_invariant := by
  by_cases hs : self.m_active = pane
  · rw [set_active_same pane self hs]
    exact h
  · cases pane with
    | none =>
      obtain ⟨-, h2, h3⟩ := set_active_none self hs
      exact ⟨by rw [h3]; exact h.1, Or.inl h2⟩
    | some p =>
      obtain ⟨-, h2, h3⟩ := set_active_some p self hs
      refine ⟨?_, Or.inr ?_⟩
      · rw [h3, List.nodup_cons]
        exact ⟨by simp, h.1.filter _⟩
      · rw [h2, h3]
        rfl

theorem remove_pane_some (p : Nat) (self : Tab) :
    (self.remove_pane (some p)).m_active =
        (if self.m_active = some p then
          (Tab.set_active
            (self.m_panes_ordered_by_recency.filter (fun q => decide (q ≠ p))).head?
            { self with
              m_full_screen_pane :=
                if self.m_full_screen_pane = some p then none else self.m_full_screen_pane
              m_panes_ordered_by_recency :=
                self.m_panes_ordered_by_recency.filter (fun q => decide (q ≠ p)) }).2.m_active
        else self.m_active) ∧
      (self.remove_pane (some p)).m_panes_ordered_by_recency =
        (if self.m_active = some p then
          (Tab.set_active
            (self.m_panes_ordered_by_recency.filter (fun q => decide (q ≠ p))).head?
            { self with
              m_full_screen_pane :=
                if self.m_full_screen_pane = some p then none else self.m_full_screen_pane
              m_panes_ordered_by_recency :=
                self.m_panes_ordered_by_recency.filter
                  (fun q => decide (q ≠ p)) }).2.m_panes_ordered_by_recency
        else self.m_panes_ordered_by_recency.filter (fun q => decide (q ≠ p))) := by
  obtain ⟨sz, root, tree, recency, ia, act, fs, calls, n⟩ := self
  unfold Tab.remove_pane
  simp only
  split_ifs <;> simp_all

theorem remove_pane_none (self : Tab) :
    (self.remove_pane none).m_active =
        (if self.m_active = none then
          (Tab.set_active self.m_panes_ordered_by_recency.head? self).2.m_active
        else self.m_active) ∧
      (self.remove_pane none).m_panes_ordered_by_recency =
        (if self.m_active = none then
          (Tab.set_active self.m_panes_ordered_by_recency.head?
            self).2.m_panes_ordered_by_recency
        else self.m_panes_ordered_by_recency) := by
  obtain ⟨sz, root, tree, recency, ia, act, fs, calls, n⟩ := self
  unfold Tab.remove_pane
  simp only
  cases fs <;> split_ifs <;> simp_all

/-- Making the first pane of a recency list without repetition the active pane (or no pane,
for an empty list) leaves the list as it is. -/
theorem set_active_head (self : Tab) (h : self.m_panes_ordered_by_recency.Nodup) :
    (self.set_active self.m_panes_ordered_by_recency.head?).2.m_active =
        self.m_panes_ordered_by_recency.head? ∧
      (self.set_active self.m_panes_ordered_by_recency.head?).2.m_panes_ordered_by_recency =
        self.m_panes_ordered_by_recency := by
  by_cases hs : self.m_active = self.m_panes_ordered_by_recency.head?
  · rw [set_active_same _ self hs]
    exact ⟨hs, rfl⟩
  · cases hl : self.m_panes_ordered_by_recency with
    | nil =>
      rw [hl] at hs
      obtain ⟨-, h2, h3⟩ := set_active_none self hs
      simp only [List.head?_nil]
      exact ⟨h2, by rw [h3, hl]⟩
    | cons a l =>
      rw [hl] at hs h
      obtain ⟨-, h2, h3⟩ := set_active_some a self hs
      simp only [List.head?_cons]
      refine ⟨h2, ?_⟩
      rw [h3, hl, filter_ne_head a l h]

theorem remove_pane_invariant (pane : Option Nat) (self : Tab) (h : self.recency_invariant) :
    (self.remove_pane pane).recency_invariant := by
  unfold Tab.recency_invariant
  cases pane with
  | none =>
    obtain ⟨hm, hr⟩ := remove_pane_none self
    rw [hm, hr]
    by_cases hs : self.m_active = none
    · rw [if_pos hs, if_pos hs]
      obtain ⟨h1, h2⟩ := set_active_head self h.1
      rw [h1, h2]
      exact ⟨h.1, Or.inr rfl⟩
    · rw [if_neg hs, if_neg hs]
      exact h
  | some p =>
    obtain ⟨hm, hr⟩ := remove_pane_some p self
    rw [hm, hr]
    by_cases hs : self.m_active = some p
    · rw [if_pos hs, if_pos hs]
      obtain ⟨h1, h2⟩ := set_active_head
        { self with
          m_full_screen_pane :=
            if self.m_full_screen_pane = some p then none else self.m_full_screen_pane
          m_panes_ordered_by_recency :=
            self.m_panes_ordered_by_recency.filter (fun q => decide (q ≠ p)) }
        (h.1.filter _)
      simp only at h1 h2
      rw [h1, h2]
      exact ⟨h.1.filter _, Or.inr rfl⟩
    · rw [if_neg hs, if_neg hs]
      refine ⟨h.1.filter _, ?_⟩
      rcases h.2 with h2 | h2
      · exact Or.inl h2
      · right
        cases hl : self.m_panes_ordered_by_recency with
        | nil =>
          rw [hl] at h2
          simpa using h2
        | cons a l =>
          rw [hl] at h2
          simp only [List.head?_cons] at h2
          have hap : a ≠ p := fun e => hs (by rw [← h2, e])
          rw [← h2]
          simp [List.filter_cons, hap]

/-- C37: `Tab::set_active` and `Tab::remove_pane` keep the invariant that the recency list
contains no pane twice and that an active pane is the first pane of the list. For a pane `p`
other than the active pane, `set_active(p)` returns true, makes `p` the active pane and puts it in
front of the other panes, which keep their order; `set_active` of the active pane returns false
and changes nothing; removing the active pane takes it out of the list and makes the first of
the remaining panes the active pane, or no pane when none remains. -/
theorem recency_invariant_preserved (self : Tab) (h : self.recency_invariant) :
    (∀ pane, (self.set_active pane).2.recency_invariant) ∧
      (∀ pane, (self.remove_pane pane).recency_invariant) ∧
      (∀ p, self.m_active ≠ some p →
        (self.set_active (some p)).1 = true ∧
          (self.set_active (some p)).2.m_active = some p ∧
          (self.set_active (some p)).2.m_panes_ordered_by_recency =
            p :: self.m_panes_ordered_by_recency.filter (fun q => decide (q ≠ p))) ∧
      (∀ pane, self.m_active = pane → self.set_active pane = (false, self)) ∧
      (∀ p, self.m_active = some p →
        (self.remove_pane (some p)).m_panes_ordered_by_recency =
            self.m_panes_ordered_by_recency.filter (fun q => decide (q ≠ p)) ∧
          (self.remove_pane (some p)).m_active =
            (self.m_panes_ordered_by_recency.filter (fun q => decide (q ≠ p))).head?) := by
  refine ⟨fun pane => set_active_invariant pane self h,
    fun pane => remove_pane_invariant pane self h,
    fun p hp => set_active_some p self hp,
    fun pane hp => set_active_same pane self hp, ?_⟩
  intro p hp
  obtain ⟨hm, hr⟩ := remove_pane_some p self
  rw [if_pos hp] at hm hr
  obtain ⟨h1, h2⟩ := set_active_head
    { self with
      m_full_screen_pane :=
        if self.m_full_screen_pane = some p then none else self.m_full_screen_pane
      m_panes_ordered_by_recency :=
        self.m_panes_ordered_by_recency.filter (fun q => decide (q ≠ p)) }
    (h.1.filter _)
  simp only at h1 h2 hm hr
  rw [hm, hr, h1, h2]
  exact ⟨rfl, rfl⟩

/-- Witness of C37: removing the active pane 2 of `three_pane_tab`, whose recency list is
[2, 1, 3], leaves the list [1, 3] with pane 1 active. -/
theorem recency_invariant_preserved_witness :
    (three_pane_tab.remove_pane (some 2)).m_panes_ordered_by_recency = [1, 3] ∧
      (three_pane_tab.remove_pane (some 2)).m_active = some 1 ∧
      (three_pane_tab.remove_pane (some 2)).recency_invariant := by
  have h := recency_invariant_preserved three_pane_tab (by decide)
  exact ⟨(h.2.2.2.2 2 rfl).1, (h.2.2.2.2 2 rfl).2, h.2.1 (some 2)⟩

/-! ### Moving to a pane and back -/

theorem set_active_layout (pane : Option Nat) (self : Tab)
    (h : self.m_full_screen_pane = none) :
    (self.set_active pane).2.m_layout_tree = self.m_layout_tree ∧
      (self.set_active pane).2.m_size = self.m_size ∧
      (self.set_active pane).2.m_full_screen_pane = none := by
  obtain ⟨sz, root, tree, recency, ia, act, fs, calls, n⟩ := self
  simp only at h
  subst h
  unfold Tab.set_active
  by_cases hs : act = pane
  · simp [hs]
  · simp only [if_neg hs]
    cases act <;> cases ia <;> cases pane <;> simp [Tab.focus_event]

/-- A move in seamless mode Disabled that returns true, on a tab without a full screen pane:
the pane that becomes the active pane is a pane of the hit test other than the active pane, it
is put in front of the recency list, and the layout tree and the size stay as they are. -/
theorem navigate_disabled_true (seamless_navigate : Nat → terminal.OSC8671 → Bool)
    (direction : NavigateDirection) (wrap_mode : NavigateWrapMode) (id : Option (List Char))
    (override_range : Option (Nat × Nat)) (force_wrap : Bool) (self : Tab) (tree : LayoutNode)
    (htree : self.m_layout_tree = some tree) (hfs : self.m_full_screen_pane = none)
    (h : (self.navigate seamless_navigate direction wrap_mode id override_range
      Tab.SeamlessNavigateMode.Disabled force_wrap).1 = some true) :
    ∃ layout_entry candidate,
      tree.find_pane self.m_active = some layout_entry ∧
        ¬(self.navigate_wraps direction force_wrap layout_entry = true ∧
          wrap_mode = NavigateWrapMode.Disallow) ∧
        candidate ∈ (self.navigate_candidates direction wrap_mode override_range force_wrap
          layout_entry tree).1 ∧
        some candidate ≠ self.m_active ∧
        candidate ∈ self.m_panes_ordered_by_recency ∧
        (self.navigate seamless_navigate direction wrap_mode id override_range
          Tab.SeamlessNavigateMode.Disabled force_wrap).2.m_active = some candidate ∧
        (self.navigate seamless_navigate direction wrap_mode id override_range
          Tab.SeamlessNavigateMode.Disabled force_wrap).2.m_panes_ordered_by_recency =
            candidate ::
              self.m_panes_ordered_by_recency.filter (fun q => decide (q ≠ candidate)) ∧
        (self.navigate seamless_navigate direction wrap_mode id override_range
          Tab.SeamlessNavigateMode.Disabled force_wrap).2.m_layout_tree = some tree ∧
        (self.navigate seamless_navigate direction wrap_mode id override_range
          Tab.SeamlessNavigateMode.Disabled force_wrap).2.m_size = self.m_size ∧
        (self.navigate seamless_navigate direction wrap_mode id override_range
          Tab.SeamlessNavigateMode.Disabled force_wrap).2.m_full_screen_pane = none := by
  cases hentry : tree.find_pane self.m_active with
  | none =>
    rw [navigate_without_entry _ _ _ _ _ _ _ _ tree htree hentry] at h
    simp at h
  | some layout_entry =>
    have hnav := navigate_disabled_with_entry seamless_navigate direction wrap_mode id
      override_range force_wrap self tree layout_entry htree hentry
    by_cases hb : (self.navigate_candidates direction wrap_mode override_range force_wrap
        layout_entry tree).2 = true
    · rw [if_pos hb] at hnav
      rw [hnav] at h
      simp at h
    · rw [if_neg hb] at hnav
      rcases navigate_loop_cases direction force_wrap layout_entry tree
          (self.navigate_candidates direction wrap_mode override_range force_wrap layout_entry
            tree).1 self self.m_panes_ordered_by_recency with hr | ⟨c, e, hmem, hne, hc, -, hr⟩
      · rw [hr] at hnav
        rw [hnav] at h
        simp at h
      · rw [hr] at hnav
        have hact := set_active_some_with_calls c self
          (self.pane_calls ++
            [(c,
              PaneCall.seamless_navigate
                { type := SeamlessNavigationRequestType.Enter
                  direction := some direction
                  range := some (Tab.navigate_range direction layout_entry e) })])
          (fun hx => hne hx.symm)
        have hlay := set_active_layout (some c)
          (self.with_calls
            (self.pane_calls ++
              [(c,
                PaneCall.seamless_navigate
                  { type := SeamlessNavigationRequestType.Enter
                    direction := some direction
                    range := some (Tab.navigate_range direction layout_entry e) })])) hfs
        refine ⟨layout_entry, c, rfl, fun hw => hb ((blocked_iff _ _ _ _ _ _ _).2 hw), hc, hne,
          hmem, ?_, ?_, ?_, ?_, ?_⟩
        · rw [hnav]; exact hact.1
        · rw [hnav]; exact hact.2
        · rw [hnav, ← htree]; exact hlay.1
        · rw [hnav]; exact hlay.2.1
        · rw [hnav]; exact hlay.2.2

/-- A pane of the hit test along a vertical probe line has an entry that holds the column of
the line and meets the span in a row. -/
theorem mem_hit_test_vertical (tree : LayoutNode) (col row_start row_end c : Nat) :
    c ∈ ((tree.hit_test_vertical_line col row_start row_end).map LayoutEntry.pane).dedup ↔
      ∃ e ∈ tree.entries, e.pane = c ∧ e.col ≤ col ∧ col < e.col + e.size.cols ∧
        max row_start e.row < min row_end (e.row + e.size.rows) := by
  simp only [List.mem_dedup, List.mem_map, LayoutNode.hit_test_vertical_line, List.mem_filter,
    decide_eq_true_eq]
  constructor
  · rintro ⟨e, ⟨he, h1, h2, h3⟩, hp⟩
    exact ⟨e, he, hp, h1, h2, h3⟩
  · rintro ⟨e, he, hp, h1, h2, h3⟩
    exact ⟨e, ⟨he, h1, h2, h3⟩, hp⟩

/-- A pane of the hit test along a horizontal probe line has an entry that holds the row of the
line and meets the span in a column. -/
theorem mem_hit_test_horizontal (tree : LayoutNode) (row col_start col_end c : Nat) :
    c ∈ ((tree.hit_test_horizontal_line row col_start col_end).map LayoutEntry.pane).dedup ↔
      ∃ e ∈ tree.entries, e.pane = c ∧ e.row ≤ row ∧ row < e.row + e.size.rows ∧
        max col_start e.col < min col_end (e.col + e.size.cols) := by
  simp only [List.mem_dedup, List.mem_map, LayoutNode.hit_test_horizontal_line,
    List.mem_filter, decide_eq_true_eq]
  constructor
  · rintro ⟨e, ⟨he, h1, h2, h3⟩, hp⟩
    exact ⟨e, he, hp, h1, h2, h3⟩
  · rintro ⟨e, he, hp, h1, h2, h3⟩
    exact ⟨e, ⟨he, h1, h2, h3⟩, hp⟩

/-- The second move of a symmetric pair: from the pane `b` at the head of the recency list,
with the pane `a` next in the list and in the hit test, the move makes `a` the active pane. -/
theorem navigate_back (seamless_navigate : Nat → terminal.OSC8671 → Bool)
    (direction : NavigateDirection) (wrap_mode : NavigateWrapMode) (id : Option (List Char))
    (tab : Tab) (tree : LayoutNode) (entry_a entry_b : LayoutEntry) (a b : Nat)
    (rest : List Nat) (htree : tab.m_layout_tree = some tree) (hactive : tab.m_active = some b)
    (hrecency : tab.m_panes_ordered_by_recency = b :: a :: rest) (hab : a ≠ b)
    (hb : tree.find_pane (some b) = some entry_b) (ha : tree.find_pane (some a) = some entry_a)
    (hwraps : tab.navigate_wraps direction false entry_b = false)
    (hmem : a ∈ (tab.navigate_candidates direction wrap_mode none false entry_b tree).1) :
    (tab.navigate seamless_navigate direction wrap_mode id none
        Tab.SeamlessNavigateMode.Disabled false).1 = some true ∧
      (tab.navigate seamless_navigate direction wrap_mode id none
        Tab.SeamlessNavigateMode.Disabled false).2.m_active = some a := by
  have hentry : tree.find_pane tab.m_active = some entry_b := by rw [hactive]; exact hb
  have hnav := navigate_disabled_with_entry seamless_navigate direction wrap_mode id none false
    tab tree entry_b htree hentry
  rw [if_neg (fun hbl => by
    have := ((blocked_iff _ _ _ _ _ _ _).1 hbl).1
    rw [hwraps] at this
    cases this), navigate_loop_find, hrecency] at hnav
  have hfind : (b :: a :: rest).find? (fun c =>
      decide (some c ≠ tab.m_active ∧
        c ∈ (tab.navigate_candidates direction wrap_mode none false entry_b tree).1)) =
      some a := by
    rw [List.find?_cons_of_neg _ (by simp [hactive]),
      List.find?_cons_of_pos _ (by simp [hactive, hab, hmem])]
  rw [hfind] at hnav
  simp only [ha] at hnav
  rw [hnav]
  refine ⟨rfl, ?_⟩
  exact (set_active_some_with_calls a tab _ (by rw [hactive]; simpa using hab.symm)).1

end ttx
